import Mathlib

/-!
# A shallow embedding of the register VM of `vm-emscripten/src/vm/vm-ops.c`

The C handlers are translated function by function.  Conventions:

* `content.integer` is a 32-bit `int`; it is an `Int` here, wrapped by `wrap32`
  wherever C arithmetic can leave the 32-bit range.  The union members
  `content.number` (float) and `content.string` (pointer, 32 bits on the
  wasm32 target) occupy the same 32 bits, so one field `content` carries them.
* Float arithmetic is not interpreted: it is a parameter acting on bit patterns.
* Heap buffers live in `svm.heap`; `free` removes a buffer and any later use of
  the stale pointer is undefined behaviour.
* An access outside an array, a use of a stale or null pointer and a signed
  division overflow are undefined in C: a handler then ends in `Outcome.undef`,
  carrying the state reached just before the offending access.
* The error sink is modelled twice. In the main development it records its
  message and returns, so that a handler goes on after a report; the section
  `Exiting` embeds handlers under the callback `error` of `main.cpp`, which ends
  the process at the first report.
* Debug printing (`getenv("DEBUG")`, `jsprintf`) has no effect on the machine
  state and is left out.
* What `vm.h` declares is a parameter: array sizes in `Params`, opcode numbers
  in `Opcodes`; the C library and the environment (`rand`, `getenv("FUZZ")`,
  float rendering) are in `Host`.
-/

namespace SVM

/-! ## Machine integers -/

/-- The unsigned 32-bit pattern of a C `int`. -/
def to_u32 (x : Int) : Nat := (x % 4294967296).toNat

/-- The C `int` whose two's-complement pattern is `n` (taken modulo 2^32). -/
def of_u32 (n : Nat) : Int :=
  if n % 4294967296 < 2147483648 then ((n % 4294967296 : Nat) : Int)
  else ((n % 4294967296 : Nat) : Int) - 4294967296

/-- Reduction of an integer to the 32-bit two's-complement range. -/
def wrap32 (x : Int) : Int := of_u32 (to_u32 x)

/-- The macro `BYTES_TO_ADDR(one, two)`. -/
def BYTES_TO_ADDR (one two : Nat) : Nat := one + (256 * two)

/-- Pointwise update of an array modelled as a function. -/
def update {α β : Type} [DecidableEq α] (f : α → β) (i : α) (v : β) : α → β :=
  fun j => if j = i then v else f j

/-! ## Data model -/

/-- The tag `enum { INTEGER, FLOAT, STRING }` of a register (declared in `vm.h`). -/
inductive reg_type where
  | INTEGER
  | FLOAT
  | STRING
  deriving DecidableEq, Repr

/-- A tagged value `struct reg_t`: the tag and the 32 bits of the union. -/
structure reg_t where
  type : reg_type
  content : Int
  deriving DecidableEq, Repr

/-- The messages handed to the error sink, one constructor per C string literal. -/
inductive Msg where
  /-- "Register out of bounds" -/
  | register_out_of_bounds
  /-- "The register deesn't contain a string" -/
  | not_a_string
  /-- "The register doesn't contain an integer" -/
  | not_an_integer
  /-- "The register doesn't contain an number" -/
  | not_a_number
  /-- "RAM allocation failure." -/
  | ram_allocation_failure
  /-- "Division by zero!" -/
  | division_by_zero
  /-- "Reading from outside RAM" -/
  | reading_outside_ram
  /-- "Writing outside RAM" -/
  | writing_outside_ram
  /-- "cannot copy to/from negative addresses" -/
  | negative_addresses
  /-- "stack overflow - stack is full" (data stack) -/
  | stack_full
  /-- "stack overflow - stack is full!" (call stack) -/
  | call_stack_full
  /-- "stack overflow - stack is empty" -/
  | stack_empty
  deriving DecidableEq, Repr

/-- The compile-time constants of `vm.h` (not part of the sources at hand) and
the float operations, which act on 32-bit patterns and are left uninterpreted. -/
structure Params where
  REGISTER_COUNT : Nat
  /-- Slots of `svm->stack`: `sizeof(svm->stack) / sizeof(svm->stack[0])`. -/
  STACK_SIZE : Nat
  /-- Slots of `svm->call_stack`. -/
  CALL_STACK_SIZE : Nat
  ANALOG_IN_COUNT : Nat
  ANALOG_OUT_COUNT : Nat
  BINARY_IN_COUNT : Nat
  BINARY_OUT_COUNT : Nat
  /-- Float addition on bit patterns. -/
  fadd : Int → Int → Int
  /-- Float subtraction on bit patterns. -/
  fsub : Int → Int → Int
  /-- Float multiplication on bit patterns. -/
  fmul : Int → Int → Int
  /-- Conversion `(float) i` of a C `int`, as a bit pattern. -/
  i2f : Int → Int

/-- The machine `struct svm` together with the file-scope I/O arrays, the heap
of string buffers and the log of the error sink. -/
structure svm where
  code : Nat → Nat
  /-- The instruction pointer. Its C type is declared in `vm.h`; the handlers
  compare it with `>= 0xFFFF`, and it is taken wide enough to hold 0x10000
  without wrapping (an `unsigned int`). -/
  ip : Nat
  registers : Nat → reg_t
  jmp : Nat
  stack : Int → reg_t
  SP : Int
  call_stack : Int → Int
  CSP : Int
  running : Bool
  ANALOG_IN : Nat → Int
  ANALOG_OUT : Nat → Int
  BINARY_IN : Nat → Nat
  BINARY_OUT : Nat → Nat
  VARIABLE_IO : Nat → reg_t
  /-- Live heap buffers by address; `none` is unallocated or freed. -/
  heap : Int → Option (List Nat)
  /-- Next address `malloc` hands out. -/
  brk : Int
  /-- Messages received by the error sink, oldest first. -/
  errors : List Msg

/-- How a handler (or helper) ends: it returns a value in a new state, or it
reaches undefined behaviour in the state carried by `undef`. -/
inductive Outcome (α : Type) where
  | ok : α → svm → Outcome α
  | undef : svm → Outcome α

/-- The state in which the computation ended. -/
def Outcome.state {α : Type} : Outcome α → svm
  | .ok _ s => s
  | .undef s => s

/-- Whether the computation returned normally. -/
def Outcome.returned {α : Type} : Outcome α → Bool
  | .ok _ _ => true
  | .undef _ => false

/-- Computations over the machine state. -/
def VM (α : Type) : Type := svm → Outcome α

/-- Return a value without touching the state. -/
def VM.pure {α : Type} (a : α) : VM α := fun s => .ok a s

/-- Sequencing: undefined behaviour ends the computation. -/
def VM.bind {α β : Type} (x : VM α) (f : α → VM β) : VM β := fun s =>
  match x s with
  | .ok a s1 => f a s1
  | .undef s1 => .undef s1

instance : Monad VM where
  pure := VM.pure
  bind := VM.bind

/-- The point where C leaves the behaviour undefined. -/
def undefined_behaviour {α : Type} : VM α := fun s => .undef s

/-- Read the state. -/
def get_state : VM svm := fun s => .ok s s

/-- Replace the state. -/
def modify_state (f : svm → svm) : VM Unit := fun s => .ok () (f s)

/-! ## The error sink, the heap and array accesses -/

/-- Modelled from the spec: `svm_default_error_handler` of `vm.c`, which is not
among the sources. The spec makes it a configurable callback and lets the
embedding decide whether it aborts or returns control; here it records the
message and returns, the case in which the C handler goes on executing. -/
def svm_default_error_handler (m : Msg) : VM Unit :=
  modify_state fun s => { s with errors := s.errors ++ [m] }

/-- `malloc` of a buffer that is then filled with `bytes`. Allocation is assumed
to succeed and always yields a fresh non-null address. -/
def malloc (bytes : List Nat) : VM Int := fun s =>
  .ok s.brk { s with heap := update s.heap s.brk (some bytes), brk := s.brk + 1 }

/-- `free(p)`: a no-op on the null pointer, undefined on a pointer that is not
a live buffer. -/
def free (p : Int) : VM Unit := fun s =>
  if p = 0 then .ok () s
  else match s.heap p with
    | some _ => .ok () { s with heap := update s.heap p none }
    | none => .undef s

/-- The bytes of a buffer before its first zero byte. -/
def c_str (buf : List Nat) : List Nat := buf.takeWhile (fun b => b ≠ 0)

/-- Read the C string at `p`, as `strlen`, `strcmp`, `strdup` and `%s` do:
undefined for a null or stale pointer and for a buffer without terminator. -/
def load_string (p : Int) : VM (List Nat) := fun s =>
  if p = 0 then .undef s
  else match s.heap p with
    | some buf => if 0 ∈ buf then .ok (c_str buf) s else .undef s
    | none => .undef s

/-- `strdup(p)`. -/
def strdup (p : Int) : VM Int := do
  let str ← load_string p
  malloc (str ++ [0])

/-- `strcmp(p, q) == 0`. -/
def strcmp_eq (p q : Int) : VM Bool := do
  let a ← load_string p
  let b ← load_string q
  pure (decide (a = b))

/-- Read `svm->registers[reg]`; outside the register file the read is undefined. -/
def read_reg (K : Params) (reg : Nat) : VM reg_t := fun s =>
  if reg < K.REGISTER_COUNT then .ok (s.registers reg) s else .undef s

/-- The assignment `svm->registers[reg].type = t`. -/
def write_reg_type (K : Params) (reg : Nat) (t : reg_type) : VM Unit := fun s =>
  if reg < K.REGISTER_COUNT then
    .ok () { s with registers := update s.registers reg { s.registers reg with type := t } }
  else .undef s

/-- The assignment of a union member: `svm->registers[reg].content.integer = v`
(likewise `.number` and `.string`). -/
def write_reg_content (K : Params) (reg : Nat) (v : Int) : VM Unit := fun s =>
  if reg < K.REGISTER_COUNT then
    .ok () { s with registers := update s.registers reg { s.registers reg with content := v } }
  else .undef s

/-- The struct assignment `svm->registers[reg] = val`. -/
def write_reg (K : Params) (reg : Nat) (val : reg_t) : VM Unit := fun s =>
  if reg < K.REGISTER_COUNT then
    .ok () { s with registers := update s.registers reg val }
  else .undef s

/-- The assignment `svm->jmp = z`. -/
def set_jmp (z : Nat) : VM Unit := modify_state fun s => { s with jmp := z }

/-- The statement `svm->ip += 1`. -/
def ip_incr : VM Unit := modify_state fun s => { s with ip := s.ip + 1 }

/-! ## Helpers of `vm-ops.c` -/

/-- `bound_test`: reports to the sink and returns -1 when `test >= count`. -/
def bound_test (test count : Nat) : VM Int := do
  if test ≥ count then do
    svm_default_error_handler .register_out_of_bounds
    pure (-1)
  else
    pure 0

/-- The macro `BOUNDS_TEST_REGISTER(r)`; the result of `bound_test` is dropped. -/
def BOUNDS_TEST_REGISTER (K : Params) (r : Nat) : VM Unit := do
  let _ ← bound_test r K.REGISTER_COUNT
  pure ()

/-- `get_string_reg`: the string pointer of a register, or the sink and NULL. -/
def get_string_reg (K : Params) (reg : Nat) : VM Int := do
  let r ← read_reg K reg
  if r.type = .STRING then
    pure r.content
  else do
    svm_default_error_handler .not_a_string
    pure 0

/-- `get_int_reg`: the integer of a register, or the sink and 0. -/
def get_int_reg (K : Params) (reg : Nat) : VM Int := do
  let r ← read_reg K reg
  if r.type = .INTEGER then
    pure r.content
  else do
    svm_default_error_handler .not_an_integer
    pure 0

/-- `get_float_reg`: the float (bit pattern) of a register, or the sink and 0. -/
def get_float_reg (K : Params) (reg : Nat) : VM Int := do
  let r ← read_reg K reg
  if r.type = .FLOAT then
    pure r.content
  else do
    svm_default_error_handler .not_a_number
    pure 0

/-- `clear_string_reg`: frees the buffer of a STRING register; tag and pointer
stay as they are. -/
def clear_string_reg (K : Params) (reg : Nat) : VM Unit := do
  let r ← read_reg K reg
  if r.type = .STRING ∧ r.content ≠ 0 then
    free r.content
  else
    pure ()

/-- `next_byte`: advance IP, wrap to 0 once it reaches 0xFFFF, return `code[ip]`. -/
def next_byte : VM Nat := fun s =>
  let ip1 := s.ip + 1
  let ip2 := if ip1 ≥ 0xFFFF then 0 else ip1
  .ok (s.code ip2) { s with ip := ip2 }

/-- The copy loop of `string_from_stack`: `n` iterations starting at `ip`, each
wrapping IP to 0 at 0xFFFF, reading `code[ip]` and incrementing IP. Returns the
bytes read and the final IP. -/
def copy_loop (code : Nat → Nat) : Nat → Nat → List Nat × Nat
  | 0, ip => ([], ip)
  | n + 1, ip =>
    let ip1 := if ip ≥ 0xFFFF then 0 else ip
    let rest := copy_loop code n (ip1 + 1)
    (code ip1 :: rest.1, rest.2)

/-- `string_from_stack`: decode an inline string at IP. The buffer of `len + 1`
bytes is zeroed and its first `len` bytes are filled by the loop; as nothing
else can see `tmp` meanwhile, it is allocated here with its final content.
(`malloc` is assumed to succeed, so the "RAM allocation failure." branch is not
taken.) IP is at least 1 when it is decremented. -/
def string_from_stack : VM Int := do
  let len1 ← next_byte
  let len2 ← next_byte
  let len := BYTES_TO_ADDR len1 len2
  ip_incr
  let s ← get_state
  let copied := copy_loop s.code len s.ip
  let tmp ← malloc (copied.1 ++ [0])
  modify_state fun s1 => { s1 with ip := copied.2 }
  modify_state fun s1 => { s1 with ip := s1.ip - 1 }
  pure tmp

/-- Modelled from the spec: the size of the code memory that `svm_new` (in
`vm.c`, not among the sources) allocates, "a fixed 64 KiB byte array"; its
valid indices are 0 to 0xFFFF. -/
def code_size : Nat := 0x10000

/-- The load `svm->code[adr]` for an `int` index; outside the array (below 0 or
above 0xFFFF) it is undefined. -/
def read_code (adr : Int) : VM Nat := fun s =>
  if 0 ≤ adr ∧ adr ≤ 0xFFFF then .ok (s.code adr.toNat) s else .undef s

/-- The store `svm->code[adr] = val` for an `int` index and an `int` value,
which is converted to `unsigned char` (reduced modulo 256); outside the array
(below 0 or above 0xFFFF) it is undefined. -/
def write_code (adr : Int) (val : Int) : VM Unit := fun s =>
  if 0 ≤ adr ∧ adr ≤ 0xFFFF then
    .ok () { s with code := update s.code adr.toNat (val % 256).toNat }
  else .undef s

/-! ## Opcode handlers -/

/-- `op_unknown`: the opcode byte at IP is read for the trace line, then IP is
incremented. -/
def op_unknown : VM Unit := do
  let s ← get_state
  let _ ← read_code s.ip
  ip_incr

/-- `op_exit`. -/
def op_exit : VM Unit := do
  modify_state fun s => { s with running := false }
  ip_incr

/-- `op_nop`. -/
def op_nop : VM Unit := ip_incr

/-- `op_divide`. All three bound tests are on `reg`, as in the source. The
quotient `val1 / val2` truncates toward zero; `INT_MIN / -1` overflows, which C
leaves undefined. -/
def op_divide (K : Params) : VM Unit := do
  let reg ← next_byte
  BOUNDS_TEST_REGISTER K reg
  let src1 ← next_byte
  BOUNDS_TEST_REGISTER K reg
  let src2 ← next_byte
  BOUNDS_TEST_REGISTER K reg
  clear_string_reg K reg
  let val1 ← get_int_reg K src1
  let val2 ← get_int_reg K src2
  if val2 = 0 then
    svm_default_error_handler .division_by_zero
  else if val1 = -2147483648 ∧ val2 = -1 then
    undefined_behaviour
  else do
    write_reg_content K reg (wrap32 (Int.tdiv val1 val2))
    write_reg_type K reg .INTEGER
    let r ← read_reg K reg
    if r.content = 0 then set_jmp 1 else set_jmp 0
    ip_incr

/-- `op_int_store`. -/
def op_int_store (K : Params) : VM Unit := do
  let reg ← next_byte
  BOUNDS_TEST_REGISTER K reg
  let val1 ← next_byte
  let val2 ← next_byte
  let value := BYTES_TO_ADDR val1 val2
  clear_string_reg K reg
  write_reg_content K reg (wrap32 value)
  write_reg_type K reg .INTEGER
  ip_incr

/-- `op_string_store`. -/
def op_string_store (K : Params) : VM Unit := do
  let reg ← next_byte
  BOUNDS_TEST_REGISTER K reg
  let str ← string_from_stack
  clear_string_reg K reg
  write_reg_type K reg .STRING
  write_reg_content K reg str
  ip_incr

/-- `op_jump_to`. -/
def op_jump_to : VM Unit := do
  let off1 ← next_byte
  let off2 ← next_byte
  let offset := BYTES_TO_ADDR off1 off2
  modify_state fun s => { s with ip := offset }

/-- `op_jump_z`. -/
def op_jump_z : VM Unit := do
  let off1 ← next_byte
  let off2 ← next_byte
  let offset := BYTES_TO_ADDR off1 off2
  let s ← get_state
  if s.jmp ≠ 0 then
    modify_state fun s1 => { s1 with ip := offset }
  else
    ip_incr

/-- `op_jump_nz`. -/
def op_jump_nz : VM Unit := do
  let off1 ← next_byte
  let off2 ← next_byte
  let offset := BYTES_TO_ADDR off1 off2
  let s ← get_state
  if s.jmp = 0 then
    modify_state fun s1 => { s1 with ip := offset }
  else
    ip_incr

/-- The test `registers[lhs].type == FLOAT || registers[rhs].type == FLOAT`.
Both tags are read here; where C skips the second read, every branch that
follows reads that register before anything is written. -/
def either_float (K : Params) (lhs rhs : Nat) : VM Bool := do
  let l ← read_reg K lhs
  let r ← read_reg K rhs
  pure (decide (l.type = .FLOAT ∨ r.type = .FLOAT))

/-- The operand `type == FLOAT ? get_float_reg(reg) : get_int_reg(reg)`, a
float: the integer alternative is converted. -/
def float_operand (K : Params) (reg : Nat) : VM Int := do
  let r ← read_reg K reg
  if r.type = .FLOAT then
    get_float_reg K reg
  else do
    let i ← get_int_reg K reg
    pure (K.i2f i)

/-- `reg_add`. In the integer branch the tag is written before the operands
are fetched, as in the source. -/
def reg_add (K : Params) (out lhs rhs : Nat) : VM Unit := do
  if (← either_float K lhs rhs) then do
    let a ← float_operand K lhs
    let b ← float_operand K rhs
    write_reg_content K out (K.fadd a b)
    write_reg_type K out .FLOAT
  else do
    write_reg_type K out .INTEGER
    let a ← get_int_reg K lhs
    let b ← get_int_reg K rhs
    write_reg_content K out (wrap32 (a + b))

/-- `reg_and`. -/
def reg_and (K : Params) (out lhs rhs : Nat) : VM Unit := do
  if (← either_float K lhs rhs) then do
    let l ← read_reg K lhs
    let r ← read_reg K rhs
    write_reg_content K out (K.i2f (of_u32 (to_u32 l.content &&& to_u32 r.content)))
    write_reg_type K out .FLOAT
  else do
    write_reg_type K out .INTEGER
    let a ← get_int_reg K lhs
    let b ← get_int_reg K rhs
    write_reg_content K out (of_u32 (to_u32 a &&& to_u32 b))

/-- `reg_sub`. -/
def reg_sub (K : Params) (out lhs rhs : Nat) : VM Unit := do
  if (← either_float K lhs rhs) then do
    let a ← float_operand K lhs
    let b ← float_operand K rhs
    write_reg_content K out (K.fsub a b)
    write_reg_type K out .FLOAT
  else do
    write_reg_type K out .INTEGER
    let a ← get_int_reg K lhs
    let b ← get_int_reg K rhs
    write_reg_content K out (wrap32 (a - b))

/-- `reg_mul`. -/
def reg_mul (K : Params) (out lhs rhs : Nat) : VM Unit := do
  if (← either_float K lhs rhs) then do
    let a ← float_operand K lhs
    let b ← float_operand K rhs
    write_reg_content K out (K.fmul a b)
    write_reg_type K out .FLOAT
  else do
    write_reg_type K out .INTEGER
    let a ← get_int_reg K lhs
    let b ← get_int_reg K rhs
    write_reg_content K out (wrap32 (a * b))

/-- `reg_xor`. -/
def reg_xor (K : Params) (out lhs rhs : Nat) : VM Unit := do
  if (← either_float K lhs rhs) then do
    let l ← read_reg K lhs
    let r ← read_reg K rhs
    write_reg_content K out (K.i2f (of_u32 (to_u32 l.content ^^^ to_u32 r.content)))
    write_reg_type K out .FLOAT
  else do
    write_reg_type K out .INTEGER
    let a ← get_int_reg K lhs
    let b ← get_int_reg K rhs
    write_reg_content K out (of_u32 (to_u32 a ^^^ to_u32 b))

/-- `reg_or`. -/
def reg_or (K : Params) (out lhs rhs : Nat) : VM Unit := do
  if (← either_float K lhs rhs) then do
    let l ← read_reg K lhs
    let r ← read_reg K rhs
    write_reg_content K out (K.i2f (of_u32 (to_u32 l.content ||| to_u32 r.content)))
    write_reg_type K out .FLOAT
  else do
    write_reg_type K out .INTEGER
    let a ← get_int_reg K lhs
    let b ← get_int_reg K rhs
    write_reg_content K out (of_u32 (to_u32 a ||| to_u32 b))

/-- `math_operation`. All three bound tests are on `reg`, as in the source.
`next_byte` yields bytes, so the `uint8_t` parameters of `operator` receive the
operands unchanged. -/
def math_operation (K : Params) (operator : Params → Nat → Nat → Nat → VM Unit) : VM Unit := do
  let reg ← next_byte
  BOUNDS_TEST_REGISTER K reg
  let src1 ← next_byte
  BOUNDS_TEST_REGISTER K reg
  let src2 ← next_byte
  BOUNDS_TEST_REGISTER K reg
  clear_string_reg K reg
  operator K reg src1 src2
  let r ← read_reg K reg
  if r.content = 0 then set_jmp 1 else set_jmp 0
  ip_incr

/-- `op_add`. -/
def op_add (K : Params) : VM Unit := math_operation K reg_add

/-- `op_and`. -/
def op_and (K : Params) : VM Unit := math_operation K reg_and

/-- `op_sub`. -/
def op_sub (K : Params) : VM Unit := math_operation K reg_sub

/-- `op_mul`. -/
def op_mul (K : Params) : VM Unit := math_operation K reg_mul

/-- `op_xor`. -/
def op_xor (K : Params) : VM Unit := math_operation K reg_xor

/-- `op_or`. -/
def op_or (K : Params) : VM Unit := math_operation K reg_or

/-- `op_cmp_reg`. -/
def op_cmp_reg (K : Params) : VM Unit := do
  let reg1 ← next_byte
  BOUNDS_TEST_REGISTER K reg1
  let reg2 ← next_byte
  BOUNDS_TEST_REGISTER K reg2
  set_jmp 0
  let r1 ← read_reg K reg1
  let r2 ← read_reg K reg2
  if r1.type = r2.type then
    if r1.type = .STRING then do
      if (← strcmp_eq r1.content r2.content) then set_jmp 1 else pure ()
    else
      if r1.content = r2.content then set_jmp 1 else pure ()
  else
    pure ()
  ip_incr

/-- The store `svm->stack[svm->SP] = val`; outside the array it is undefined. -/
def write_stack (K : Params) (val : reg_t) : VM Unit := fun s =>
  if 0 ≤ s.SP ∧ s.SP < K.STACK_SIZE then
    .ok () { s with stack := update s.stack s.SP val }
  else .undef s

/-- The load `svm->stack[svm->SP]`; outside the array it is undefined. -/
def read_stack (K : Params) : VM reg_t := fun s =>
  if 0 ≤ s.SP ∧ s.SP < K.STACK_SIZE then .ok (s.stack s.SP) s else .undef s

/-- `op_stack_push`: SP is incremented and the slot written before the
overflow test. -/
def op_stack_push (K : Params) : VM Unit := do
  let reg ← next_byte
  BOUNDS_TEST_REGISTER K reg
  let r ← read_reg K reg
  let val ← (if r.type = .STRING then do
      let copy ← strdup r.content
      pure { r with content := copy }
    else
      pure r)
  modify_state fun s => { s with SP := s.SP + 1 }
  write_stack K val
  let s ← get_state
  if s.SP ≥ K.STACK_SIZE then
    svm_default_error_handler .stack_full
  else
    pure ()
  ip_incr

/-- `op_stack_pop`: the slot is read and SP decremented also after an
underflow report. -/
def op_stack_pop (K : Params) : VM Unit := do
  let reg ← next_byte
  BOUNDS_TEST_REGISTER K reg
  let s ← get_state
  if s.SP ≤ 0 then
    svm_default_error_handler .stack_empty
  else
    pure ()
  let val ← read_stack K
  modify_state fun s1 => { s1 with SP := s1.SP - 1 }
  clear_string_reg K reg
  write_reg K reg val
  ip_incr

/-- `op_string_concat`. All three bound tests are on `reg`, as in the source.
`strlen` and `sprintf("%s%s")` read the two C strings; the new buffer holds
their concatenation and a terminator. -/
def op_string_concat (K : Params) : VM Unit := do
  let reg ← next_byte
  BOUNDS_TEST_REGISTER K reg
  let src1 ← next_byte
  BOUNDS_TEST_REGISTER K reg
  let src2 ← next_byte
  BOUNDS_TEST_REGISTER K reg
  let str1 ← get_string_reg K src1
  let str2 ← get_string_reg K src2
  let a ← load_string str1
  let b ← load_string str2
  let tmp ← malloc (a ++ b ++ [0])
  clear_string_reg K reg
  write_reg_content K reg tmp
  write_reg_type K reg .STRING
  ip_incr

/-! ## Composite runs and initial state -/

/-- Run one handler after another, the second from the state the first left. -/
def and_then (first second : VM Unit) : VM Unit := do
  first
  second

/-- Modelled from the spec: `svm_new` of `vm.c`, which is not among the sources.
The bytecode is copied to address 0 of the 64 KiB code memory, the rest is
zero; IP, SP, CSP and the Z-flag are 0, the machine is running and every
register is Integer(0). The file-scope I/O arrays are zero-initialised and no
heap buffer is allocated. -/
def svm_new (bytecode : List Nat) : svm where
  code := fun a => if a < 0x10000 then bytecode.getD a 0 else 0
  ip := 0
  registers := fun _ => ⟨.INTEGER, 0⟩
  jmp := 0
  stack := fun _ => ⟨.INTEGER, 0⟩
  SP := 0
  call_stack := fun _ => 0
  CSP := 0
  running := true
  ANALOG_IN := fun _ => 0
  ANALOG_OUT := fun _ => 0
  BINARY_IN := fun _ => 0
  BINARY_OUT := fun _ => 0
  VARIABLE_IO := fun _ => ⟨.INTEGER, 0⟩
  heap := fun _ => none
  brk := 1
  errors := []

/-- A sample choice of the constants of `vm.h`, with float operations that are
never consulted by integer programs. -/
def sample_params : Params where
  REGISTER_COUNT := 10
  STACK_SIZE := 1024
  CALL_STACK_SIZE := 256
  ANALOG_IN_COUNT := 16
  ANALOG_OUT_COUNT := 16
  BINARY_IN_COUNT := 16
  BINARY_OUT_COUNT := 16
  fadd := fun a _ => a
  fsub := fun a _ => a
  fmul := fun a _ => a
  i2f := fun a => a

/-! ## Notions used by the statements -/

/-- The address `next_byte` moves IP to from `ip`. -/
def nxt (ip : Nat) : Nat := if ip + 1 ≥ 0xFFFF then 0 else ip + 1

/-- Invariant 2 of the data model at one register: a register tagged STRING
holds a non-null pointer to a live, zero-terminated buffer. -/
def owns_buffer (s : svm) (r : Nat) : Prop :=
  (s.registers r).type = .STRING →
    (s.registers r).content ≠ 0 ∧ ∃ buf, s.heap (s.registers r).content = some buf ∧ 0 ∈ buf

/-- The condition under which `clear_string_reg` is defined on register `r`: a
non-null pointer held under the tag STRING is a live buffer. Invariant 2
(`owns_buffer`) implies it. -/
def clearable (s : svm) (r : Nat) : Prop :=
  (s.registers r).type = .STRING → (s.registers r).content ≠ 0 →
    s.heap (s.registers r).content ≠ none

/-- The heap once `clear_string_reg` has freed the buffer of register `r`. -/
def released (registers : Nat → reg_t) (heap : Int → Option (List Nat)) (r : Nat) :
    Int → Option (List Nat) :=
  if (registers r).type = .STRING ∧ (registers r).content ≠ 0 then
    update heap (registers r).content none
  else heap

/-- The six opcodes served by `math_operation`. -/
inductive arith_opcode where
  | ADD
  | SUB
  | MUL
  | AND
  | OR
  | XOR
  deriving DecidableEq, Repr

/-- The operator `math_operation` is called with. -/
def arith_opcode.operator : arith_opcode → Params → Nat → Nat → Nat → VM Unit
  | .ADD => reg_add
  | .SUB => reg_sub
  | .MUL => reg_mul
  | .AND => reg_and
  | .OR => reg_or
  | .XOR => reg_xor

/-- The handler installed for the opcode by `opcode_init`. -/
def arith_opcode.handler : arith_opcode → Params → VM Unit
  | .ADD => op_add
  | .SUB => op_sub
  | .MUL => op_mul
  | .AND => op_and
  | .OR => op_or
  | .XOR => op_xor

/-- The value `x op y` in 32-bit two's-complement arithmetic: sum, difference
and product are reduced modulo 2^32 into the signed range, the bitwise
operators act on the 32-bit patterns. -/
def arith_opcode.int_result : arith_opcode → Int → Int → Int
  | .ADD, x, y => wrap32 (x + y)
  | .SUB, x, y => wrap32 (x - y)
  | .MUL, x, y => wrap32 (x * y)
  | .AND, x, y => of_u32 (to_u32 x &&& to_u32 y)
  | .OR, x, y => of_u32 (to_u32 x ||| to_u32 y)
  | .XOR, x, y => of_u32 (to_u32 x ^^^ to_u32 y)

/-- A machine about to execute `ADD r2, r0, r1` at address 0xFFFC: the operand
bytes are fetched from 0xFFFD, 0xFFFE and, after the decoder wraps, address 0. -/
def add_at_wrap : svm :=
  { svm_new [] with
    ip := 0xFFFC
    code := fun a => if a = 0xFFFD then 2 else if a = 0 then 1 else 0 }

/-- A machine about to execute `MUL r2, r0, r1` at address 8: r2 holds the
string "A" in a live buffer, every other register holds Integer(0x10000). -/
def mul_example : svm :=
  { svm_new [0, 0, 0, 0, 0, 0, 0, 0, 0, 2, 0, 1] with
    ip := 8
    registers := fun r => if r = 2 then ⟨.STRING, 1⟩ else ⟨.INTEGER, 65536⟩
    heap := fun p => if p = 1 then some [65, 0] else none
    brk := 2 }

/-- What `get_int_reg` returns for register `r`: its integer, or 0 after a
report when the register is not tagged INTEGER. -/
def int_value (registers : Nat → reg_t) (r : Nat) : Int :=
  if (registers r).type = .INTEGER then (registers r).content else 0

/-- The reports `get_int_reg` makes for register `r`. -/
def int_reports (registers : Nat → reg_t) (r : Nat) : List Msg :=
  if (registers r).type = .INTEGER then [] else [.not_an_integer]

/-- The seven arithmetic opcodes: the six of `math_operation` and DIV. -/
inductive arithmetic_opcode where
  | math (op : arith_opcode)
  | DIV
  deriving DecidableEq, Repr

/-- The handler installed for an arithmetic opcode by `opcode_init`. -/
def arithmetic_opcode.handler : arithmetic_opcode → Params → VM Unit
  | .math op => op.handler
  | .DIV => op_divide

/-- A machine about to execute an arithmetic opcode on `r2, r0, r1` at address 0,
with r0 = Integer(-7), r1 = Integer(2) and r2 = Integer(5). -/
def arith_example : svm :=
  { svm_new [0, 2, 0, 1] with
    registers := fun r => if r = 0 then ⟨.INTEGER, -7⟩ else if r = 1 then ⟨.INTEGER, 2⟩
      else ⟨.INTEGER, 5⟩ }

/-- The bytes of the scenario "integer add with Z-flag":
`INT_STORE 0 02 00; INT_STORE 1 FE FF; ADD 2 0 1; JUMP_Z 00 20; EXIT` at address
0 and `INT_STORE 2 AA AA; EXIT` at 0x0020. The opcode numbers are declared in
`vm.h`, which is not at hand; the handlers never read the opcode byte, so each
one stands as 0 here. -/
def add_scenario_bytes : List Nat :=
  [0, 0, 0x02, 0x00, 0, 1, 0xFE, 0xFF, 0, 2, 0, 1, 0, 0x00, 0x20, 0]
    ++ List.replicate 16 0 ++ [0, 2, 0xAA, 0xAA, 0]

/-- The handlers the run loop invokes on `add_scenario_bytes`, in order, up to
and including JUMP_Z. -/
def add_scenario (K : Params) : VM Unit :=
  and_then (op_int_store K) (and_then (op_int_store K) (and_then (op_add K) op_jump_z))

/-- A machine about to execute a three-operand opcode on `r0, r200, r1` at
address 0: the first source operand, 200, is outside a file of ten registers. -/
def source_out_of_range : svm := svm_new [0, 0, 200, 1]

/-- A machine about to execute a three-operand opcode on `r2, r0, r1` at address
0, with r0 and r1 holding the strings "A" and "B" in live buffers and
r2 = Integer(5). -/
def string_sources : svm :=
  { svm_new [0, 2, 0, 1] with
    registers := fun r => if r = 0 then ⟨.STRING, 1⟩ else if r = 1 then ⟨.STRING, 2⟩
      else ⟨.INTEGER, 5⟩
    heap := fun p => if p = 1 then some [65, 0] else if p = 2 then some [66, 0] else none
    brk := 3 }

/-- A machine about to execute `INT_STORE r200 <- 0x0102` at address 0. -/
def store_out_of_range : svm := svm_new [0, 200, 2, 1]

/-- A machine about to execute a three-operand opcode on `r0, r0, r1` at address
0, with r0 holding the string "A" in a live buffer and r1 = Integer(1). -/
def string_destination : svm :=
  { svm_new [0, 0, 0, 1] with
    registers := fun r => if r = 0 then ⟨.STRING, 1⟩ else ⟨.INTEGER, 1⟩
    heap := fun p => if p = 1 then some [65, 0] else none
    brk := 2 }

/-- The allocator's invariant: the next address handed out is not null and no
address from it on holds a buffer. -/
def allocator_ok (s : svm) : Prop :=
  0 < s.brk ∧ ∀ p, s.brk ≤ p → s.heap p = none

/-- The string a STRING register holds: the bytes of its buffer before the
first zero byte (empty if the pointer is not a live buffer). -/
def string_content (s : svm) (r : Nat) : List Nat :=
  match s.heap (s.registers r).content with
  | some buf => c_str buf
  | none => []

/-- The `n` code bytes from address `a` on. -/
def code_bytes (code : Nat → Nat) (a n : Nat) : List Nat :=
  (List.range n).map (fun i => code (a + i))

/-- The "hello" scenario as the spec writes it, with a reserved byte between
the length and the payload: `STRING_STORE 0 05 00 00 'H' 'e' 'l' 'l' 'o' EXIT`
(opcode bytes stand as 0). -/
def hello_with_reserved_byte : List Nat := [0, 0, 5, 0, 0, 72, 101, 108, 108, 111, 0]

/-- The same scenario in the layout the decoder reads, the payload directly
after the length: `STRING_STORE 0 05 00 'H' 'e' 'l' 'l' 'o' EXIT`. -/
def hello_bytes : List Nat := [0, 0, 5, 0, 72, 101, 108, 108, 111, 0]

/-- A machine about to execute `CMP_REG r0, r1` at address 0xFFFD: the operand
bytes are fetched from 0xFFFE and, after the decoder wraps, address 0. -/
def cmp_at_wrap : svm :=
  { svm_new [1] with ip := 0xFFFD }

/-- A machine about to execute `CMP_REG r0, r1` at address 0, with r0 holding
a buffer with the bytes 'A', 0, 'B', 0 and r1 the string "A". -/
def cmp_example : svm :=
  { svm_new [0, 0, 1] with
    registers := fun r => if r = 0 then ⟨.STRING, 1⟩ else if r = 1 then ⟨.STRING, 2⟩
      else ⟨.INTEGER, 0⟩
    heap := fun p => if p = 1 then some [65, 0, 66, 0] else if p = 2 then some [65, 0] else none
    brk := 3 }

/-- Invariant 3 of the data model at two registers: distinct registers tagged
STRING do not point to the same buffer. -/
def no_alias (s : svm) (r r2 : Nat) : Prop :=
  r ≠ r2 → (s.registers r).type = .STRING → (s.registers r2).type = .STRING →
    (s.registers r).content ≠ 0 → (s.registers r).content ≠ (s.registers r2).content

/-- The handlers the run loop invokes on
`STRING_STORE r, s; STACK_PUSH r; STRING_STORE r, ""; STACK_POP r2`. -/
def stack_round_trip (K : Params) : VM Unit :=
  and_then (op_string_store K)
    (and_then (op_stack_push K) (and_then (op_string_store K) (op_stack_pop K)))

/-- A machine about to execute
`STRING_STORE 0, "Hi"; STACK_PUSH 0; STRING_STORE 0, ""; STACK_POP 1` at address 0,
with register 1 holding the string "Z" in a live buffer (opcode bytes stand
as 0). -/
def round_trip_example : svm :=
  { svm_new [0, 0, 2, 0, 72, 105, 0, 0, 0, 0, 0, 0, 0, 1] with
    registers := fun r => if r = 1 then ⟨.STRING, 1⟩ else ⟨.INTEGER, 0⟩
    heap := fun p => if p = 1 then some [90, 0] else none
    brk := 2 }

/-- A computation that returns from every state: it never reaches undefined
behaviour. -/
def always_returns {α : Type} (x : VM α) : Prop :=
  ∀ s, ∃ a s1, x s = .ok a s1

/-! ## The remaining opcode handlers -/

/-- What the handlers take from outside the machine: the C library and the
process environment. Float rendering and decoding act on bit patterns and are
left uninterpreted, like the float operations of `Params`. -/
structure Host where
  /-- The value the next call of `rand()` returns. -/
  rand : Nat
  /-- Whether the environment variable FUZZ is set (`getenv("FUZZ") != NULL`). -/
  FUZZ : Bool
  /-- The float `ldexp((float)mant / 65535, exp)` as a bit pattern, from `exp`
  and `mant`. -/
  float_of_imm : Nat → Nat → Int
  /-- The characters `sprintf("%f", x)` writes for the float with pattern `x`. -/
  float_render : Int → List Nat

/-- `op_reg_store`. The destination is cleared and retagged before `strdup`
reads the source. -/
def op_reg_store (K : Params) : VM Unit := do
  let dst ← next_byte
  BOUNDS_TEST_REGISTER K dst
  let src ← next_byte
  BOUNDS_TEST_REGISTER K src
  clear_string_reg K dst
  let r ← read_reg K src
  if r.type = .STRING then do
    write_reg_type K dst .STRING
    let again ← read_reg K src
    let copy ← strdup again.content
    write_reg_content K dst copy
  else do
    let t ← read_reg K src
    write_reg_type K dst t.type
    let c ← read_reg K src
    write_reg_content K dst c.content
  ip_incr

/-- `op_int_print`: the value goes to the print sink, which is not part of the
machine state. -/
def op_int_print (K : Params) : VM Unit := do
  let reg ← next_byte
  BOUNDS_TEST_REGISTER K reg
  let _ ← get_int_reg K reg
  ip_incr

/-- The digits of `n` in base ten as ASCII codes, most significant first;
`fuel` bounds the number of digits. -/
def decimal_digits : Nat → Nat → List Nat
  | 0, _ => []
  | fuel + 1, n =>
    if n < 10 then [48 + n] else decimal_digits fuel (n / 10) ++ [48 + n % 10]

/-- The characters `sprintf("%d", cur)` writes for a 32-bit `int`: a minus sign
for a negative number, then its at most ten digits. -/
def sprintf_d (cur : Int) : List Nat :=
  if cur < 0 then 45 :: decimal_digits 10 cur.natAbs else decimal_digits 10 cur.toNat

/-- A `malloc(10)` buffer zeroed by `memset` and then written by `sprintf` with
`text` and a terminator; `text` of ten or more characters overruns the buffer,
which is undefined. -/
def sprintf_into_ten (text : List Nat) : VM Int := do
  if text.length + 1 > 10 then
    undefined_behaviour
  else
    malloc (text ++ List.replicate (10 - text.length) 0)

/-- `op_int_tostring`. The register is retagged and given the new buffer; a
string it held before is not freed. -/
def op_int_tostring (K : Params) : VM Unit := do
  let reg ← next_byte
  BOUNDS_TEST_REGISTER K reg
  let cur ← get_int_reg K reg
  write_reg_type K reg .STRING
  let buf ← sprintf_into_ten (sprintf_d cur)
  write_reg_content K reg buf
  ip_incr

/-- `op_int_random`. -/
def op_int_random (K : Params) (H : Host) : VM Unit := do
  let reg ← next_byte
  BOUNDS_TEST_REGISTER K reg
  clear_string_reg K reg
  write_reg_type K reg .INTEGER
  write_reg_content K reg ((H.rand % 0xFFFF : Nat) : Int)
  ip_incr

/-- `op_float_store`. -/
def op_float_store (K : Params) (H : Host) : VM Unit := do
  let reg ← next_byte
  BOUNDS_TEST_REGISTER K reg
  let val1 ← next_byte
  let val2 ← next_byte
  let exp := BYTES_TO_ADDR val1 val2
  let val3 ← next_byte
  let val4 ← next_byte
  let mant := BYTES_TO_ADDR val3 val4
  let value := H.float_of_imm exp mant
  clear_string_reg K reg
  write_reg_content K reg value
  write_reg_type K reg .FLOAT
  ip_incr

/-- `op_float_print`. -/
def op_float_print (K : Params) : VM Unit := do
  let reg ← next_byte
  BOUNDS_TEST_REGISTER K reg
  let _ ← get_float_reg K reg
  ip_incr

/-- `op_float_tostring`. -/
def op_float_tostring (K : Params) (H : Host) : VM Unit := do
  let reg ← next_byte
  BOUNDS_TEST_REGISTER K reg
  let cur ← get_float_reg K reg
  write_reg_type K reg .STRING
  let buf ← sprintf_into_ten (H.float_render cur)
  write_reg_content K reg buf
  ip_incr

/-- `op_string_print`: `%s` reads the C string at the pointer. -/
def op_string_print (K : Params) : VM Unit := do
  let reg ← next_byte
  BOUNDS_TEST_REGISTER K reg
  let str ← get_string_reg K reg
  let _ ← load_string str
  ip_incr

/-- `op_string_system`: with FUZZ set the handler prints the string and returns
at once; otherwise `system` reads the string (its effect lies outside the
machine) and IP is incremented. -/
def op_string_system (K : Params) (H : Host) : VM Unit := do
  let reg ← next_byte
  BOUNDS_TEST_REGISTER K reg
  let str ← get_string_reg K reg
  if H.FUZZ = true then do
    let _ ← load_string str
    pure ()
  else do
    let _ ← load_string str
    ip_incr

/-- Whether `isspace` holds of the character. -/
def is_space (c : Nat) : Bool := c = 32 || (9 ≤ c && c ≤ 13)

/-- The digit loop of `atoi`: accumulate while the characters are digits. -/
def atoi_digits : List Nat → Int → Int
  | [], acc => acc
  | c :: rest, acc =>
    if 48 ≤ c ∧ c ≤ 57 then atoi_digits rest (10 * acc + ((c - 48 : Nat) : Int)) else acc

/-- The value `atoi` computes from a C string: white space is skipped, one
sign is taken, digits are read up to the first other character. -/
def atoi (str : List Nat) : Int :=
  match str.dropWhile is_space with
  | 45 :: rest => - atoi_digits rest 0
  | 43 :: rest => atoi_digits rest 0
  | rest => atoi_digits rest 0

/-- `op_string_toint`. A value `atoi` cannot represent as an `int` is undefined.
`free` is applied to the union's pointer whatever the tag. -/
def op_string_toint (K : Params) : VM Unit := do
  let reg ← next_byte
  BOUNDS_TEST_REGISTER K reg
  let str ← get_string_reg K reg
  let text ← load_string str
  let i := atoi text
  if i < -2147483648 ∨ 2147483647 < i then
    undefined_behaviour
  else do
    let r ← read_reg K reg
    free r.content
    write_reg_type K reg .INTEGER
    write_reg_content K reg i
    ip_incr

/-- `op_inc`: `cur += 1` in 32-bit two's complement; the tag is left as it is. -/
def op_inc (K : Params) : VM Unit := do
  let reg ← next_byte
  BOUNDS_TEST_REGISTER K reg
  let cur ← get_int_reg K reg
  write_reg_content K reg (wrap32 (cur + 1))
  let r ← read_reg K reg
  if r.content = 0 then set_jmp 1 else set_jmp 0
  ip_incr

/-- `op_dec`: `cur -= 1` in 32-bit two's complement; the tag is left as it is. -/
def op_dec (K : Params) : VM Unit := do
  let reg ← next_byte
  BOUNDS_TEST_REGISTER K reg
  let cur ← get_int_reg K reg
  write_reg_content K reg (wrap32 (cur - 1))
  let r ← read_reg K reg
  if r.content = 0 then set_jmp 1 else set_jmp 0
  ip_incr

/-- `op_cmp_immediate`. -/
def op_cmp_immediate (K : Params) : VM Unit := do
  let reg ← next_byte
  BOUNDS_TEST_REGISTER K reg
  let val1 ← next_byte
  let val2 ← next_byte
  let val := BYTES_TO_ADDR val1 val2
  set_jmp 0
  let cur ← get_int_reg K reg
  if cur = (val : Int) then set_jmp 1 else pure ()
  ip_incr

/-- `op_cmp_string`: the inline string is decoded into a fresh buffer, which is
never freed. -/
def op_cmp_string (K : Params) : VM Unit := do
  let reg ← next_byte
  BOUNDS_TEST_REGISTER K reg
  let str ← string_from_stack
  let cur ← get_string_reg K reg
  if (← strcmp_eq cur str) then set_jmp 1 else set_jmp 0
  ip_incr

/-- `op_is_string`. -/
def op_is_string (K : Params) : VM Unit := do
  let reg ← next_byte
  BOUNDS_TEST_REGISTER K reg
  let r ← read_reg K reg
  if r.type = .STRING then set_jmp 1 else set_jmp 0
  ip_incr

/-- `op_is_integer`. -/
def op_is_integer (K : Params) : VM Unit := do
  let reg ← next_byte
  BOUNDS_TEST_REGISTER K reg
  let r ← read_reg K reg
  if r.type = .INTEGER then set_jmp 1 else set_jmp 0
  ip_incr

/-- `op_peek`: after the range report the load `code[adr]` still happens. -/
def op_peek (K : Params) : VM Unit := do
  let reg ← next_byte
  BOUNDS_TEST_REGISTER K reg
  let addr ← next_byte
  BOUNDS_TEST_REGISTER K addr
  let adr ← get_int_reg K addr
  if adr < 0 ∨ adr > 0xffff then
    svm_default_error_handler .reading_outside_ram
  else
    pure ()
  let val ← read_code adr
  clear_string_reg K reg
  write_reg_content K reg (val : Int)
  write_reg_type K reg .INTEGER
  ip_incr

/-- `op_poke`: after the range report the store `code[adr] = val` still happens. -/
def op_poke (K : Params) : VM Unit := do
  let reg ← next_byte
  BOUNDS_TEST_REGISTER K reg
  let addr ← next_byte
  BOUNDS_TEST_REGISTER K addr
  let val ← get_int_reg K reg
  let adr ← get_int_reg K addr
  if adr < 0 ∨ adr > 0xffff then
    svm_default_error_handler .writing_outside_ram
  else
    pure ()
  write_code adr val
  ip_incr

/-- The loop `while (sc >= 0xFFFF) sc -= 0xFFFF;`: `fuel` bounds the number of
iterations, and the value itself is always enough fuel. -/
def wrap_around : Nat → Int → Int
  | 0, sc => sc
  | fuel + 1, sc => if sc ≥ 0xFFFF then wrap_around fuel (sc - 0xFFFF) else sc

/-- The copy loop of `op_memcpy` from index `i` on, with the given number of
iterations left: `sc = src + i` and `dt = dest + i` (undefined if an `int`
overflows) are wrapped around, then `code[dt] = code[sc]`. -/
def memcpy_loop (src dest : Int) : Nat → Int → VM Unit
  | 0, _ => pure ()
  | left + 1, i => do
    if src + i > 2147483647 ∨ dest + i > 2147483647 then
      undefined_behaviour
    else do
      let sc := wrap_around (src + i).toNat (src + i)
      let dt := wrap_around (dest + i).toNat (dest + i)
      modify_state fun s => { s with code := update s.code dt.toNat (s.code sc.toNat) }
      memcpy_loop src dest left (i + 1)

/-- `op_memcpy`. The loop runs `size` times for a positive `size`, not at all
otherwise. -/
def op_memcpy (K : Params) : VM Unit := do
  let dest_reg ← next_byte
  BOUNDS_TEST_REGISTER K dest_reg
  let src_reg ← next_byte
  BOUNDS_TEST_REGISTER K src_reg
  let size_reg ← next_byte
  BOUNDS_TEST_REGISTER K size_reg
  let src ← get_int_reg K src_reg
  let dest ← get_int_reg K dest_reg
  let size ← get_int_reg K size_reg
  if src < 0 ∨ dest < 0 then
    svm_default_error_handler .negative_addresses
  else do
    memcpy_loop src dest size.toNat 0
    ip_incr

/-- The load `svm->call_stack[svm->CSP]`; outside the array it is undefined. -/
def read_call_stack (K : Params) : VM Int := fun s =>
  if 0 ≤ s.CSP ∧ s.CSP < K.CALL_STACK_SIZE then .ok (s.call_stack s.CSP) s else .undef s

/-- The store `svm->call_stack[svm->CSP] = val`; outside the array it is
undefined. -/
def write_call_stack (K : Params) (val : Int) : VM Unit := fun s =>
  if 0 ≤ s.CSP ∧ s.CSP < K.CALL_STACK_SIZE then
    .ok () { s with call_stack := update s.call_stack s.CSP val }
  else .undef s

/-- `op_stack_ret`: the slot is read and CSP decremented also after an
underflow report. -/
def op_stack_ret (K : Params) : VM Unit := do
  let s ← get_state
  if s.CSP ≤ 0 then
    svm_default_error_handler .stack_empty
  else
    pure ()
  let val ← read_call_stack K
  modify_state fun s1 => { s1 with CSP := s1.CSP - 1 }
  modify_state fun s1 => { s1 with ip := val.toNat }

/-- `op_stack_call`: CSP is incremented before the overflow test, and the
return address is stored also after an overflow report. -/
def op_stack_call (K : Params) : VM Unit := do
  let off1 ← next_byte
  let off2 ← next_byte
  let offset := BYTES_TO_ADDR off1 off2
  modify_state fun s => { s with CSP := s.CSP + 1 }
  let s ← get_state
  if s.CSP ≥ K.CALL_STACK_SIZE then
    svm_default_error_handler .call_stack_full
  else
    pure ()
  let s1 ← get_state
  write_call_stack K ((s1.ip + 1 : Nat) : Int)
  modify_state fun s2 => { s2 with ip := offset }

/-- `op_binary_load`: after a channel-range report the load `BINARY_IN[src]`
still happens; outside the array it is undefined. -/
def op_binary_load (K : Params) : VM Unit := do
  let dst ← next_byte
  BOUNDS_TEST_REGISTER K dst
  let src ← next_byte
  let _ ← bound_test src K.BINARY_IN_COUNT
  clear_string_reg K dst
  write_reg_type K dst .INTEGER
  let s ← get_state
  if src < K.BINARY_IN_COUNT then
    write_reg_content K dst (s.BINARY_IN src : Int)
  else
    undefined_behaviour
  ip_incr

/-- `op_binary_save`: the integer is converted to `uint8_t`. -/
def op_binary_save (K : Params) : VM Unit := do
  let src ← next_byte
  BOUNDS_TEST_REGISTER K src
  let dst ← next_byte
  let _ ← bound_test dst K.BINARY_OUT_COUNT
  let r ← read_reg K src
  if r.type = .INTEGER then do
    let v ← read_reg K src
    if dst < K.BINARY_OUT_COUNT then
      modify_state fun s => { s with BINARY_OUT := update s.BINARY_OUT dst (v.content % 256).toNat }
    else
      undefined_behaviour
  else
    pure ()
  ip_incr

/-- `op_analog_load`. -/
def op_analog_load (K : Params) : VM Unit := do
  let dst ← next_byte
  BOUNDS_TEST_REGISTER K dst
  let src ← next_byte
  let _ ← bound_test src K.ANALOG_IN_COUNT
  clear_string_reg K dst
  write_reg_type K dst .FLOAT
  let s ← get_state
  if src < K.ANALOG_IN_COUNT then
    write_reg_content K dst (s.ANALOG_IN src)
  else
    undefined_behaviour
  ip_incr

/-- The store `ANALOG_OUT[dst] = x`; outside the array it is undefined. -/
def write_analog_out (K : Params) (dst : Nat) (x : Int) : VM Unit := fun s =>
  if dst < K.ANALOG_OUT_COUNT then
    .ok () { s with ANALOG_OUT := update s.ANALOG_OUT dst x }
  else .undef s

/-- `op_analog_save`: a FLOAT is stored as it is, an INTEGER is converted. -/
def op_analog_save (K : Params) : VM Unit := do
  let src ← next_byte
  BOUNDS_TEST_REGISTER K src
  let dst ← next_byte
  let _ ← bound_test dst K.ANALOG_OUT_COUNT
  let r ← read_reg K src
  if r.type = .FLOAT then do
    let v ← read_reg K src
    write_analog_out K dst v.content
  else
    pure ()
  let r1 ← read_reg K src
  if r1.type = .INTEGER then do
    let v ← read_reg K src
    write_analog_out K dst (K.i2f v.content)
  else
    pure ()
  ip_incr

/-- `op_variable_load`: the channel is tested against `ANALOG_IN_COUNT` while
`VARIABLE_IO` has `BINARY_IN_COUNT` slots; the struct is copied as it is. -/
def op_variable_load (K : Params) : VM Unit := do
  let dst ← next_byte
  BOUNDS_TEST_REGISTER K dst
  let src ← next_byte
  let _ ← bound_test src K.ANALOG_IN_COUNT
  clear_string_reg K dst
  let s ← get_state
  if src < K.BINARY_IN_COUNT then
    write_reg K dst (s.VARIABLE_IO src)
  else
    undefined_behaviour
  ip_incr

/-- `op_variable_save`: the channel is tested against `ANALOG_OUT_COUNT` while
`VARIABLE_IO` has `BINARY_IN_COUNT` slots; the struct is copied as it is. -/
def op_variable_save (K : Params) : VM Unit := do
  let src ← next_byte
  BOUNDS_TEST_REGISTER K src
  let dst ← next_byte
  let _ ← bound_test dst K.ANALOG_OUT_COUNT
  let r ← read_reg K src
  if dst < K.BINARY_IN_COUNT then
    modify_state fun s => { s with VARIABLE_IO := update s.VARIABLE_IO dst r }
  else
    undefined_behaviour
  ip_incr

/-! ## The dispatch table -/

/-- The handler functions of `vm-ops.c`, by name. -/
inductive handler where
  | op_unknown | op_exit | op_int_store | op_int_print | op_int_tostring
  | op_int_random | op_float_store | op_float_print | op_float_tostring
  | op_binary_load | op_binary_save | op_analog_load | op_analog_save
  | op_variable_load | op_variable_save | op_jump_to | op_jump_nz | op_jump_z
  | op_add | op_and | op_sub | op_mul | op_divide | op_xor | op_or | op_inc
  | op_dec | op_string_store | op_string_print | op_string_concat
  | op_string_system | op_string_toint | op_cmp_reg | op_cmp_immediate
  | op_cmp_string | op_is_string | op_is_integer | op_nop | op_reg_store
  | op_peek | op_poke | op_memcpy | op_stack_push | op_stack_pop
  | op_stack_ret | op_stack_call
  deriving DecidableEq, Repr

/-- The function a handler name stands for. -/
def handler.run (K : Params) (H : Host) : handler → VM Unit
  | .op_unknown => SVM.op_unknown
  | .op_exit => SVM.op_exit
  | .op_int_store => SVM.op_int_store K
  | .op_int_print => SVM.op_int_print K
  | .op_int_tostring => SVM.op_int_tostring K
  | .op_int_random => SVM.op_int_random K H
  | .op_float_store => SVM.op_float_store K H
  | .op_float_print => SVM.op_float_print K
  | .op_float_tostring => SVM.op_float_tostring K H
  | .op_binary_load => SVM.op_binary_load K
  | .op_binary_save => SVM.op_binary_save K
  | .op_analog_load => SVM.op_analog_load K
  | .op_analog_save => SVM.op_analog_save K
  | .op_variable_load => SVM.op_variable_load K
  | .op_variable_save => SVM.op_variable_save K
  | .op_jump_to => SVM.op_jump_to
  | .op_jump_nz => SVM.op_jump_nz
  | .op_jump_z => SVM.op_jump_z
  | .op_add => SVM.op_add K
  | .op_and => SVM.op_and K
  | .op_sub => SVM.op_sub K
  | .op_mul => SVM.op_mul K
  | .op_divide => SVM.op_divide K
  | .op_xor => SVM.op_xor K
  | .op_or => SVM.op_or K
  | .op_inc => SVM.op_inc K
  | .op_dec => SVM.op_dec K
  | .op_string_store => SVM.op_string_store K
  | .op_string_print => SVM.op_string_print K
  | .op_string_concat => SVM.op_string_concat K
  | .op_string_system => SVM.op_string_system K H
  | .op_string_toint => SVM.op_string_toint K
  | .op_cmp_reg => SVM.op_cmp_reg K
  | .op_cmp_immediate => SVM.op_cmp_immediate K
  | .op_cmp_string => SVM.op_cmp_string K
  | .op_is_string => SVM.op_is_string K
  | .op_is_integer => SVM.op_is_integer K
  | .op_nop => SVM.op_nop
  | .op_reg_store => SVM.op_reg_store K
  | .op_peek => SVM.op_peek K
  | .op_poke => SVM.op_poke K
  | .op_memcpy => SVM.op_memcpy K
  | .op_stack_push => SVM.op_stack_push K
  | .op_stack_pop => SVM.op_stack_pop K
  | .op_stack_ret => SVM.op_stack_ret K
  | .op_stack_call => SVM.op_stack_call K

/-- The opcode numbers, which `vm.h` (not among the sources) defines. -/
structure Opcodes where
  EXIT : Nat
  INT_STORE : Nat
  INT_PRINT : Nat
  INT_TOSTRING : Nat
  INT_RANDOM : Nat
  FLOAT_STORE : Nat
  FLOAT_PRINT : Nat
  FLOAT_TOSTRING : Nat
  BINARY_LOAD : Nat
  BINARY_SAVE : Nat
  ANALOG_LOAD : Nat
  ANALOG_SAVE : Nat
  VARIABLE_LOAD : Nat
  VARIABLE_SAVE : Nat
  JUMP_TO : Nat
  JUMP_NZ : Nat
  JUMP_Z : Nat
  ADD : Nat
  AND : Nat
  SUB : Nat
  MUL : Nat
  DIV : Nat
  XOR : Nat
  OR : Nat
  INC : Nat
  DEC : Nat
  STRING_STORE : Nat
  STRING_PRINT : Nat
  STRING_CONCAT : Nat
  STRING_SYSTEM : Nat
  STRING_TOINT : Nat
  CMP_REG : Nat
  CMP_IMMEDIATE : Nat
  CMP_STRING : Nat
  IS_STRING : Nat
  IS_INTEGER : Nat
  NOP : Nat
  STORE_REG : Nat
  PEEK : Nat
  POKE : Nat
  MEMCPY : Nat
  STACK_PUSH : Nat
  STACK_POP : Nat
  STACK_RET : Nat
  STACK_CALL : Nat

/-- The assignments of `opcode_init` after its loop, in source order: opcode
number and handler. -/
def assignments (O : Opcodes) : List (Nat × handler) :=
  [ (O.EXIT, .op_exit),
    (O.INT_STORE, .op_int_store),
    (O.INT_PRINT, .op_int_print),
    (O.INT_TOSTRING, .op_int_tostring),
    (O.INT_RANDOM, .op_int_random),
    (O.FLOAT_STORE, .op_float_store),
    (O.FLOAT_PRINT, .op_float_print),
    (O.FLOAT_TOSTRING, .op_float_tostring),
    (O.BINARY_LOAD, .op_binary_load),
    (O.BINARY_SAVE, .op_binary_save),
    (O.ANALOG_LOAD, .op_analog_load),
    (O.ANALOG_SAVE, .op_analog_save),
    (O.VARIABLE_LOAD, .op_variable_load),
    (O.VARIABLE_SAVE, .op_variable_save),
    (O.JUMP_TO, .op_jump_to),
    (O.JUMP_NZ, .op_jump_nz),
    (O.JUMP_Z, .op_jump_z),
    (O.ADD, .op_add),
    (O.AND, .op_and),
    (O.SUB, .op_sub),
    (O.MUL, .op_mul),
    (O.DIV, .op_divide),
    (O.XOR, .op_xor),
    (O.OR, .op_or),
    (O.INC, .op_inc),
    (O.DEC, .op_dec),
    (O.STRING_STORE, .op_string_store),
    (O.STRING_PRINT, .op_string_print),
    (O.STRING_CONCAT, .op_string_concat),
    (O.STRING_SYSTEM, .op_string_system),
    (O.STRING_TOINT, .op_string_toint),
    (O.CMP_REG, .op_cmp_reg),
    (O.CMP_IMMEDIATE, .op_cmp_immediate),
    (O.CMP_STRING, .op_cmp_string),
    (O.IS_STRING, .op_is_string),
    (O.IS_INTEGER, .op_is_integer),
    (O.NOP, .op_nop),
    (O.STORE_REG, .op_reg_store),
    (O.PEEK, .op_peek),
    (O.POKE, .op_poke),
    (O.MEMCPY, .op_memcpy),
    (O.STACK_PUSH, .op_stack_push),
    (O.STACK_POP, .op_stack_pop),
    (O.STACK_RET, .op_stack_ret),
    (O.STACK_CALL, .op_stack_call) ]

/-- The table `svm->opcodes` as `opcode_init` leaves it: `none` is an entry the
function never wrote. The loop `for (i = 0; i <= 255; i++)` writes `op_unknown`
to the entries 0 to 255, then the assignments are made one after the other. -/
def opcode_init (O : Opcodes) : Nat → Option handler :=
  (assignments O).foldl (fun table a => update table a.1 (some a.2))
    (fun i => if i ≤ 255 then some handler.op_unknown else none)

/-- Modelled from the spec: one turn of the run loop of `svm_run` (in `vm.c`,
not among the sources), which fetches the opcode byte at IP and calls the
handler the table holds for it. A fetch outside the code memory and a call
through an entry never written are undefined. -/
def svm_step (K : Params) (H : Host) (O : Opcodes) : VM Unit := fun s =>
  if s.ip ≤ 0xFFFF then
    match opcode_init O (s.code s.ip) with
    | some h => h.run K H s
    | none => .undef s
  else .undef s

/-- The states the machine passes through: it starts from `svm_new` on a
bytecode of at most 64 KiB of bytes, with any input channels, and takes turns
of the run loop while the running flag is set. -/
inductive reachable (K : Params) (O : Opcodes) : svm → Prop where
  | start (bytecode : List Nat) (ai : Nat → Int) (bi : Nat → Nat) :
      bytecode.length ≤ code_size → (∀ b ∈ bytecode, b < 256) → (∀ c, bi c < 256) →
      reachable K O { svm_new bytecode with ANALOG_IN := ai, BINARY_IN := bi }
  | turn (H : Host) (s s1 : svm) :
      reachable K O s → s.running = true → svm_step K H O s = .ok () s1 →
      reachable K O s1

/-! ## States and notions used by the statements on stacks, decoding and dispatch -/

/-- A machine whose data stack holds `STACK_SIZE - 1` values of `sample_params`
(SP = 1023, the last slot), about to execute `STACK_PUSH r0`. -/
def full_stack : svm := { svm_new [0, 0] with SP := 1023 }

/-- A machine with an empty data stack (SP = 0), about to execute `STACK_POP r0`. -/
def empty_stack : svm := svm_new [0, 0]

/-- A machine at address 0 about to execute `STACK_CALL 0x0005`. -/
def call_example : svm := svm_new [0, 5, 0]

/-- A machine at IP 0xFFFE whose code memory holds 9 at address 0 and 7 at
address 0xFFFF. -/
def decoder_at_end : svm :=
  { svm_new [9] with ip := 0xFFFE, code := update (svm_new [9]).code 0xFFFF 7 }

/-- A machine at address 0 with operand bytes 0x34, 0x12 and the Z-flag set. -/
def jump_example : svm := { svm_new [0, 0x34, 0x12] with jmp := 1 }

/-- A sample numbering of the opcodes, in the order of `opcode_init`; the
numbers of the program are those of `vm.h`. -/
def sample_opcodes : Opcodes where
  EXIT := 0
  INT_STORE := 1
  INT_PRINT := 2
  INT_TOSTRING := 3
  INT_RANDOM := 4
  FLOAT_STORE := 5
  FLOAT_PRINT := 6
  FLOAT_TOSTRING := 7
  BINARY_LOAD := 8
  BINARY_SAVE := 9
  ANALOG_LOAD := 10
  ANALOG_SAVE := 11
  VARIABLE_LOAD := 12
  VARIABLE_SAVE := 13
  JUMP_TO := 14
  JUMP_NZ := 15
  JUMP_Z := 16
  ADD := 17
  AND := 18
  SUB := 19
  MUL := 20
  DIV := 21
  XOR := 22
  OR := 23
  INC := 24
  DEC := 25
  STRING_STORE := 26
  STRING_PRINT := 27
  STRING_CONCAT := 28
  STRING_SYSTEM := 29
  STRING_TOINT := 30
  CMP_REG := 31
  CMP_IMMEDIATE := 32
  CMP_STRING := 33
  IS_STRING := 34
  IS_INTEGER := 35
  NOP := 36
  STORE_REG := 37
  PEEK := 38
  POKE := 39
  MEMCPY := 40
  STACK_PUSH := 41
  STACK_POP := 42
  STACK_RET := 43
  STACK_CALL := 44

/-- A machine about to execute `POKE r1, r2; PEEK r3, r2` at address 0 with
r1 = Integer(-1) and r2 = Integer(0x1234). -/
def poke_example : svm :=
  { svm_new [0, 1, 2, 0, 3, 2] with
    registers := update (update (svm_new []).registers 1 ⟨.INTEGER, -1⟩) 2 ⟨.INTEGER, 0x1234⟩ }

/-! ## Notions used by the statements on MEMCPY -/

/-- The per-byte description of a copy, with the modulus as a parameter: the
code memory after the assignments `code[(dest + i) mod m] = code[(src + i) mod m]`
made one after the other for `n` successive values of `i` from `i0` on. -/
def copy_modulo (m src dest : Nat) : Nat → Nat → (Nat → Nat) → (Nat → Nat)
  | 0, _, code => code
  | n + 1, i0, code =>
    copy_modulo m src dest n (i0 + 1)
      (update code ((dest + i0) % m) (code ((src + i0) % m)))

/-- A machine about to execute `MEMCPY r3, r1, r2` at address 0 with
r3 = Integer(0x100) (destination), r1 = Integer(0xFFF0) (source) and
r2 = Integer(0x20) (size); the code memory holds 40, 3, 1, 2 at addresses 0 to
3 and 9 at address 0xFFFF. -/
def memcpy_at_end : svm :=
  { svm_new [40, 3, 1, 2] with
    code := update (svm_new [40, 3, 1, 2]).code 0xFFFF 9
    registers := update (update (update (svm_new []).registers 3 ⟨.INTEGER, 0x100⟩)
      1 ⟨.INTEGER, 0xFFF0⟩) 2 ⟨.INTEGER, 0x20⟩ }

/-- A machine at address 0x100 about to execute `MEMCPY r1, r0, r2` and then
`MEMCPY r0, r1, r2` with r0 = Integer(0) (the address a), r1 = Integer(0xFFFE)
(the address b) and r2 = Integer(2) (the size n); the code memory holds 11 at
address 0 and 22 at address 1. -/
def memcpy_there_and_back : svm :=
  { svm_new [11, 22] with
    ip := 0x100
    code := update (update (update (update (update (update (update (update
      (svm_new [11, 22]).code 0x100 40) 0x101 1) 0x102 0) 0x103 2) 0x104 40) 0x105 0)
      0x106 1) 0x107 2
    registers := update (update (svm_new []).registers 1 ⟨.INTEGER, 0xFFFE⟩) 2 ⟨.INTEGER, 2⟩ }

/-- A machine at address 0x100 about to execute `MEMCPY r1, r0, r2` and then
`MEMCPY r0, r1, r2` with r0 = Integer(0), r1 = Integer(0x10) and r2 = Integer(2). -/
def memcpy_round_trip : svm :=
  { memcpy_there_and_back with
    registers := update (update (svm_new []).registers 1 ⟨.INTEGER, 0x10⟩) 2 ⟨.INTEGER, 2⟩ }

/-- A fresh machine about to execute `INT_STORE r1, 0xFFFF; INT_TOSTRING r1;
STRING_TOINT r1` at address 0 (opcode bytes under the sample numbering). -/
def int_string_example : svm := svm_new [1, 1, 0xFF, 0xFF, 3, 1, 30, 1]

/-! ## Notions used by the statement on the range of IP -/

/-- What the range of IP rests on: every cell of the code memory holds a byte
and every call-stack slot holds an address in [0, 0xFFFF]. -/
def addresses_ok (s : svm) : Prop :=
  (∀ a, s.code a < 256) ∧ ∀ i, 0 ≤ s.call_stack i ∧ s.call_stack i ≤ 0xFFFF

/-- The state is `addresses_ok` and IP is at most `n`. -/
def ip_at_most (n : Nat) (s : svm) : Prop := addresses_ok s ∧ s.ip ≤ n

/-- A bound on IP across a computation: entered in an `addresses_ok` state with
IP at most `n`, the computation, if it returns, returns in an `addresses_ok`
state with IP at most `m`. -/
class ip_bound (n : Nat) {α : Type} (x : VM α) (m : outParam Nat) : Prop where
  out : ∀ s a s1, ip_at_most n s → x s = .ok a s1 → ip_at_most m s1

/-- A sample host: `rand()` returns 0, FUZZ is not set, floats are not rendered. -/
def sample_host : Host where
  rand := 0
  FUZZ := false
  float_of_imm := fun _ _ => 0
  float_render := fun _ => []

/-- The initial state of the program `JUMP_TO 0xFFFF` (under the sample
numbering) with all input channels zero. -/
def jump_to_end : svm :=
  { svm_new [14, 0xFF, 0xFF] with ANALOG_IN := fun _ => 0, BINARY_IN := fun _ => 0 }

/-- The state of that program after its jump: IP = 0xFFFF, where the code
memory holds the byte 0. -/
def at_last_address : svm := { jump_to_end with ip := 0xFFFF }

/-! ## States and notions used by the statements on addresses, channels and the run -/

/-- A machine about to execute `POKE r1, r2` (or `PEEK r1, r2`) at address 0
with r1 = Integer(7) and r2 = Integer(0x10000), an address outside [0, 0xFFFF]. -/
def address_outside : svm :=
  { svm_new [39, 1, 2] with
    registers := update (update (svm_new []).registers 1 ⟨.INTEGER, 7⟩) 2 ⟨.INTEGER, 0x10000⟩ }

/-- A choice of the constants of `vm.h` in which there are more analog
channels (16 in, 16 out) than slots of `VARIABLE_IO` (`BINARY_IN_COUNT` = 8). -/
def more_analog_params : Params :=
  { sample_params with ANALOG_IN_COUNT := 16, ANALOG_OUT_COUNT := 16, BINARY_IN_COUNT := 8 }

/-- A choice of the constants of `vm.h` in which there are fewer analog
channels (4 in, 4 out) than slots of `VARIABLE_IO` (`BINARY_IN_COUNT` = 8). -/
def fewer_analog_params : Params :=
  { sample_params with ANALOG_IN_COUNT := 4, ANALOG_OUT_COUNT := 4, BINARY_IN_COUNT := 8 }

/-- A fresh machine about to execute `VARIABLE_LOAD r0, 10` (or
`VARIABLE_SAVE r0, 10`) at address 0. -/
def variable_channel_ten : svm := svm_new [12, 0, 10]

/-- A fresh machine about to execute `VARIABLE_LOAD r0, 5` (or
`VARIABLE_SAVE r0, 5`) at address 0. -/
def variable_channel_five : svm := svm_new [12, 0, 5]

/-- A machine about to execute `STORE_REG r0, r0` at address 0, with r0 holding
the string "A" in a live buffer. -/
def store_reg_self : svm :=
  { svm_new [37, 0, 0] with
    registers := fun r => if r = 0 then ⟨.STRING, 1⟩ else ⟨.INTEGER, 0⟩
    heap := fun p => if p = 1 then some [65, 0] else none
    brk := 2 }

/-- The first message a computation has passed to the error sink, if any. The
sink of the handlers above appends its message to the log, so this is the
entry that follows the log as it was before the computation. -/
def first_report (before after : List Msg) : Option Msg :=
  (after.drop before.length).head?

/-- How a run stands after a number of turns of its loop. -/
inductive run_result where
  /-- The loop has been left with the running flag clear, in this state. -/
  | exited (s : svm)
  /-- The handler dispatched in this state has invoked the error sink, first
  with this message: a fatal error, which ends the run. -/
  | fatal (s : svm) (m : Msg)
  /-- The handler dispatched in this state has run into undefined behaviour
  without a report before it. -/
  | undefined (s : svm)
  /-- The loop is still dispatching: the machine is in this state, running. -/
  | unfinished (s : svm)

/-- Modelled from the spec: `svm_run` of `vm.c`, which is not among the sources:
"The run loop, while `running` is true, looks up `opcodes[code[IP]]` and invokes
it", and "`EXIT` or a fatal error → halted. Halted is terminal." Here the loop
is followed for `fuel` turns. A turn is fatal when its handler invokes the
error sink: up to its first call of the sink a handler does the same whether
or not the callback returns, and the sink modelled above only appends to the
log, so the handler invokes the sink exactly when the log has grown, first
with the message `first_report` finds. The run ends with that report, whatever
the handler would do if the callback returned. -/
def svm_run (K : Params) (H : Host) (O : Opcodes) : Nat → svm → run_result
  | 0, s => if s.running = true then .unfinished s else .exited s
  | fuel + 1, s =>
    if s.running = true then
      match first_report s.errors (svm_step K H O s).state.errors with
      | some m => .fatal s m
      | none =>
        match svm_step K H O s with
        | .ok _ s1 => svm_run K H O fuel s1
        | .undef _ => .undefined s
    else .exited s

/-- The initial state of the program `JUMP_TO 0x0000` (under the sample
numbering). -/
def jump_to_self : svm := svm_new [14, 0, 0]

/-- The initial state of the program `EXIT` (under the sample numbering). -/
def exit_at_once : svm := svm_new [0]

/-- What a computation may be required to leave as it was: the two input
arrays always, `ANALOG_OUT` if `ao` is set, `BINARY_OUT` if `bo` is set and the
running flag if `rn` is set. -/
def kept (ao bo rn : Bool) (s s1 : svm) : Prop :=
  s1.ANALOG_IN = s.ANALOG_IN ∧ s1.BINARY_IN = s.BINARY_IN ∧
  (ao = true → s1.ANALOG_OUT = s.ANALOG_OUT) ∧
  (bo = true → s1.BINARY_OUT = s.BINARY_OUT) ∧
  (rn = true → s1.running = s.running)

/-- The computation, if it returns, returns in a state related to the state
entered by `kept ao bo rn`. -/
class keeps (ao bo rn : Bool) {α : Type} (x : VM α) : Prop where
  out : ∀ s a s1, x s = .ok a s1 → kept ao bo rn s s1

/-- A machine about to execute `ANALOG_SAVE r1, 3` at address 0 with
r1 = Integer(5). -/
def analog_save_example : svm :=
  { svm_new [11, 1, 3] with registers := update (svm_new []).registers 1 ⟨.INTEGER, 5⟩ }

/-- A machine about to execute `ANALOG_LOAD r1, 2; ANALOG_SAVE r1, 3` at address
0, with the float pattern 0x40600000 (3.5) on input channel 2. -/
def analog_example : svm :=
  { svm_new [10, 1, 2, 11, 1, 3] with ANALOG_IN := fun c => if c = 2 then 0x40600000 else 0 }

/-- A machine about to execute `BINARY_LOAD r1, 2; BINARY_SAVE r1, 3` at address
0, with the byte 0xAB on input channel 2 and r1 = Integer(-1). -/
def binary_example : svm :=
  { svm_new [8, 1, 2, 9, 1, 3] with
    BINARY_IN := fun c => if c = 2 then 0xAB else 0
    registers := update (svm_new []).registers 1 ⟨.INTEGER, -1⟩ }

/-- A machine about to execute `INC r1; DEC r1` at address 0 with
r1 = Integer(2147483647), the largest `int`. -/
def inc_dec_example : svm :=
  { svm_new [24, 1, 25, 1] with
    registers := update (svm_new []).registers 1 ⟨.INTEGER, 2147483647⟩ }

/-- A machine about to execute `STRING_CONCAT r2, r0, r1` at address 0xFFFC, with
r0 and r1 holding the strings "A" and "B" in live buffers: the operand bytes
are fetched from 0xFFFD, 0xFFFE and, after the decoder wraps, address 0. -/
def concat_at_wrap : svm :=
  { string_sources with
    ip := 0xFFFC
    code := fun a => if a = 0xFFFD then 2 else if a = 0 then 1 else 0 }

/-- A machine about to execute `STRING_CONCAT r0, r0, r1` at address 0, with r0
and r1 holding the strings "A" and "B" in live buffers: the destination is also
the first source. -/
def concat_into_source : svm :=
  { string_sources with code := (svm_new [28, 0, 0, 1]).code }

/-- A machine about to execute `MUL r2, r0, r1` at address 0, with r0 holding
the float of bit pattern 0x40600000 (3.5) and r1 the integer 2. -/
def mul_float_by_int : svm :=
  { svm_new [20, 2, 0, 1] with
    registers := update (update (svm_new []).registers 0 ⟨.FLOAT, 0x40600000⟩) 1 ⟨.INTEGER, 2⟩ }

/-- A host with the environment variable FUZZ set; otherwise as `sample_host`. -/
def fuzz_host : Host := { sample_host with FUZZ := true }

/-- A machine about to execute `STRING_SYSTEM r1` at address 0 (followed by the
byte 0 at address 2), with r1 holding the string "A" in a live buffer. -/
def system_example : svm :=
  { svm_new [29, 1, 0] with
    registers := fun r => if r = 1 then ⟨.STRING, 1⟩ else ⟨.INTEGER, 0⟩
    heap := fun p => if p = 1 then some [65, 0] else none
    brk := 2 }

/-- The forward copy as the specification words it: the code memory after the
assignments `code[dest + i] := code[src + i]` made one after the other, in
increasing order, for `n` successive values of `i` from `i0` on. -/
def copy_forward (src dest : Nat) : Nat → Nat → (Nat → Nat) → (Nat → Nat)
  | 0, _, code => code
  | n + 1, i0, code =>
    copy_forward src dest n (i0 + 1) (update code (dest + i0) (code (src + i0)))

/-- The handlers the run loop invokes on `VARIABLE_SAVE r, c; VARIABLE_LOAD r2, c`. -/
def variable_save_load (K : Params) : VM Unit :=
  and_then (op_variable_save K) (op_variable_load K)

/-- A machine about to execute `VARIABLE_SAVE r0, 3; VARIABLE_LOAD r0, 3` at
address 0, with r0 holding the string "A" in a live buffer. -/
def variable_same_register : svm :=
  { svm_new [13, 0, 3, 12, 0, 3] with
    registers := fun r => if r = 0 then ⟨.STRING, 1⟩ else ⟨.INTEGER, 0⟩
    heap := fun p => if p = 1 then some [65, 0] else none
    brk := 2 }

/-- A machine about to execute `VARIABLE_SAVE r0, 3; VARIABLE_LOAD r1, 3` at
address 0, with r0 holding the string "A" in a live buffer and
r1 = Integer(0). -/
def variable_two_registers : svm :=
  { variable_same_register with code := (svm_new [13, 0, 3, 12, 1, 3]).code }

/-- A machine about to execute `ADD r2, r0, r1` at address 0, with r0 holding
the string "A" in a live buffer, r1 = Integer(1) and r2 tagged Float with the
bit pattern 0x40600000 (3.5). -/
def add_string_to_float : svm :=
  { svm_new [17, 2, 0, 1] with
    registers := fun r => if r = 0 then ⟨.STRING, 1⟩ else if r = 1 then ⟨.INTEGER, 1⟩
      else if r = 2 then ⟨.FLOAT, 0x40600000⟩ else ⟨.INTEGER, 0⟩
    heap := fun p => if p = 1 then some [65, 0] else none
    brk := 2 }

namespace Exiting

/-- How a computation ends under the callback of `main.cpp`: it returns a value
in a new state, it reaches undefined behaviour, or it has passed a message to
the error sink, which ended the process; `fatal` carries the message and the
state the machine was in at that call. -/
inductive Outcome (α : Type) where
  | ok : α → svm → Outcome α
  | undef : svm → Outcome α
  | fatal : Msg → svm → Outcome α

/-- The state in which the computation ended. -/
def Outcome.state {α : Type} : Outcome α → svm
  | .ok _ s => s
  | .undef s => s
  | .fatal _ s => s

/-- The message with which the error sink was invoked, if it was. -/
def Outcome.report {α : Type} : Outcome α → Option Msg
  | .ok _ _ => none
  | .undef _ => none
  | .fatal m _ => some m

/-- Whether the computation returned normally. -/
def Outcome.returned {α : Type} : Outcome α → Bool
  | .ok _ _ => true
  | .undef _ => false
  | .fatal _ _ => false

/-- Computations over the machine state that may end in the error sink. -/
def VM (α : Type) : Type := svm → Outcome α

/-- Return a value without touching the state. -/
def VM.pure {α : Type} (a : α) : VM α := fun s => .ok a s

/-- Sequencing: undefined behaviour and a call of the sink end the computation. -/
def VM.bind {α β : Type} (x : VM α) (f : α → VM β) : VM β := fun s =>
  match x s with
  | .ok a s1 => f a s1
  | .undef s1 => .undef s1
  | .fatal m s1 => .fatal m s1

instance : Monad VM where
  pure := VM.pure
  bind := VM.bind

/-- A computation that never reaches the sink, taken over as it is. -/
def lift {α : Type} (x : SVM.VM α) : VM α := fun s =>
  match x s with
  | .ok a s1 => .ok a s1
  | .undef s1 => .undef s1

/-- Modelled from the spec: `svm_default_error_handler` of `vm.c`, which is not
among the sources, "calls a configurable error callback with a human-readable
message". The callback is `error` of `main.cpp`, which ends the process: the
computation ends here, with the message, in the state it has reached. -/
def svm_default_error_handler (m : Msg) : VM Unit := fun s => .fatal m s

/-- `bound_test`: reports to the sink when `test >= count`; the `return -1`
after the report is not reached. -/
def bound_test (test count : Nat) : VM Int := do
  if test ≥ count then do
    svm_default_error_handler .register_out_of_bounds
    pure (-1)
  else
    pure 0

/-- The macro `BOUNDS_TEST_REGISTER(r)`; the result of `bound_test` is dropped. -/
def BOUNDS_TEST_REGISTER (K : Params) (r : Nat) : VM Unit := do
  let _ ← bound_test r K.REGISTER_COUNT
  pure ()

/-- `get_int_reg`: the integer of a register, or the sink. -/
def get_int_reg (K : Params) (reg : Nat) : VM Int := do
  let r ← lift (read_reg K reg)
  if r.type = .INTEGER then
    pure r.content
  else do
    svm_default_error_handler .not_an_integer
    pure 0

/-- `get_float_reg`: the float of a register, or the sink. -/
def get_float_reg (K : Params) (reg : Nat) : VM Int := do
  let r ← lift (read_reg K reg)
  if r.type = .FLOAT then
    pure r.content
  else do
    svm_default_error_handler .not_a_number
    pure 0

/-- The operand `type == FLOAT ? get_float_reg(reg) : get_int_reg(reg)`, a
float: the integer alternative is converted. -/
def float_operand (K : Params) (reg : Nat) : VM Int := do
  let r ← lift (read_reg K reg)
  if r.type = .FLOAT then
    get_float_reg K reg
  else do
    let i ← get_int_reg K reg
    pure (K.i2f i)

/-- `reg_add`. In the integer branch the tag is written before the operands
are fetched, as in the source. -/
def reg_add (K : Params) (out lhs rhs : Nat) : VM Unit := do
  if (← lift (either_float K lhs rhs)) then do
    let a ← float_operand K lhs
    let b ← float_operand K rhs
    lift (write_reg_content K out (K.fadd a b))
    lift (write_reg_type K out .FLOAT)
  else do
    lift (write_reg_type K out .INTEGER)
    let a ← get_int_reg K lhs
    let b ← get_int_reg K rhs
    lift (write_reg_content K out (wrap32 (a + b)))

/-- `math_operation`. All three bound tests are on `reg`, as in the source. -/
def math_operation (K : Params) (operator : Params → Nat → Nat → Nat → VM Unit) :
    VM Unit := do
  let reg ← lift next_byte
  BOUNDS_TEST_REGISTER K reg
  let src1 ← lift next_byte
  BOUNDS_TEST_REGISTER K reg
  let src2 ← lift next_byte
  BOUNDS_TEST_REGISTER K reg
  lift (clear_string_reg K reg)
  operator K reg src1 src2
  let r ← lift (read_reg K reg)
  if r.content = 0 then lift (set_jmp 1) else lift (set_jmp 0)
  lift ip_incr

/-- `op_add`. -/
def op_add (K : Params) : VM Unit := math_operation K reg_add

/-- `op_divide`. All three bound tests are on `reg`, as in the source; both
operands are fetched before anything is written. -/
def op_divide (K : Params) : VM Unit := do
  let reg ← lift next_byte
  BOUNDS_TEST_REGISTER K reg
  let src1 ← lift next_byte
  BOUNDS_TEST_REGISTER K reg
  let src2 ← lift next_byte
  BOUNDS_TEST_REGISTER K reg
  lift (clear_string_reg K reg)
  let val1 ← get_int_reg K src1
  let val2 ← get_int_reg K src2
  if val2 = 0 then
    svm_default_error_handler .division_by_zero
  else if val1 = -2147483648 ∧ val2 = -1 then
    lift undefined_behaviour
  else do
    lift (write_reg_content K reg (wrap32 (Int.tdiv val1 val2)))
    lift (write_reg_type K reg .INTEGER)
    let r ← lift (read_reg K reg)
    if r.content = 0 then lift (set_jmp 1) else lift (set_jmp 0)
    lift ip_incr

/-- `op_int_store`. -/
def op_int_store (K : Params) : VM Unit := do
  let reg ← lift next_byte
  BOUNDS_TEST_REGISTER K reg
  let val1 ← lift next_byte
  let val2 ← lift next_byte
  let value := BYTES_TO_ADDR val1 val2
  lift (clear_string_reg K reg)
  lift (write_reg_content K reg (wrap32 value))
  lift (write_reg_type K reg .INTEGER)
  lift ip_incr

/-- `op_peek`: the range test and its report come before the load `code[adr]`. -/
def op_peek (K : Params) : VM Unit := do
  let reg ← lift next_byte
  BOUNDS_TEST_REGISTER K reg
  let addr ← lift next_byte
  BOUNDS_TEST_REGISTER K addr
  let adr ← get_int_reg K addr
  if adr < 0 ∨ adr > 0xffff then
    svm_default_error_handler .reading_outside_ram
  else
    pure ()
  let val ← lift (read_code adr)
  lift (clear_string_reg K reg)
  lift (write_reg_content K reg (val : Int))
  lift (write_reg_type K reg .INTEGER)
  lift ip_incr

/-- `op_poke`: the range test and its report come before the store
`code[adr] = val`. -/
def op_poke (K : Params) : VM Unit := do
  let reg ← lift next_byte
  BOUNDS_TEST_REGISTER K reg
  let addr ← lift next_byte
  BOUNDS_TEST_REGISTER K addr
  let val ← get_int_reg K reg
  let adr ← get_int_reg K addr
  if adr < 0 ∨ adr > 0xffff then
    svm_default_error_handler .writing_outside_ram
  else
    pure ()
  lift (write_code adr val)
  lift ip_incr

end Exiting

/-- The message of the fatal error that has ended the run, if one has. -/
def run_result.message : run_result → Option Msg
  | .fatal _ m => some m
  | _ => none

/-- The initial state of the spec's scenario "Division by zero":
`INT_STORE 0 05 00; INT_STORE 1 00 00; DIV 2 0 1; EXIT` (under the sample
numbering). -/
def division_scenario : svm := svm_new [1, 0, 5, 0, 1, 1, 0, 0, 21, 2, 0, 1, 0]

/-! ## Symbolic execution lemmas -/

@[simp] theorem bind_run {α β : Type} (x : VM α) (f : α → VM β) (s : svm) :
    (x >>= f) s = match x s with
      | .ok a s1 => f a s1
      | .undef s1 => .undef s1 := rfl

@[simp] theorem pure_run {α : Type} (a : α) (s : svm) : (pure a : VM α) s = .ok a s := rfl

@[simp] theorem ite_run {α : Type} (c : Prop) [Decidable c] (x y : VM α) (s : svm) :
    (if c then x else y) s = if c then x s else y s := by
  split <;> rfl

@[simp] theorem update_same {α β : Type} [DecidableEq α] (f : α → β) (i : α) (v : β) :
    update f i v i = v := by simp [update]

theorem update_other {α β : Type} [DecidableEq α] (f : α → β) (i j : α) (v : β) (h : j ≠ i) :
    update f i v j = f j := by simp [update, h]

@[simp] theorem update_update {α β : Type} [DecidableEq α] (f : α → β) (i : α) (v w : β) :
    update (update f i v) i w = update f i w := by
  funext j; by_cases h : j = i <;> simp [update, h]

theorem nxt_eq (ip : Nat) (h : ip + 1 < 0xFFFF) : nxt ip = ip + 1 := by
  unfold nxt; split <;> omega

@[simp] theorem next_byte_run (s : svm) :
    next_byte s = .ok (s.code (nxt s.ip)) { s with ip := nxt s.ip } := rfl

@[simp] theorem modify_state_run (f : svm → svm) (s : svm) : modify_state f s = .ok () (f s) := rfl

@[simp] theorem get_state_run (s : svm) : get_state s = .ok s s := rfl

@[simp] theorem set_jmp_run (z : Nat) (s : svm) : set_jmp z s = .ok () { s with jmp := z } := rfl

@[simp] theorem ip_incr_run (s : svm) : ip_incr s = .ok () { s with ip := s.ip + 1 } := rfl

@[simp] theorem error_handler_run (m : Msg) (s : svm) :
    svm_default_error_handler m s = .ok () { s with errors := s.errors ++ [m] } := rfl

theorem bounds_test_in (K : Params) (r : Nat) (s : svm) (h : r < K.REGISTER_COUNT) :
    BOUNDS_TEST_REGISTER K r s = .ok () s := by
  have : ¬ r ≥ K.REGISTER_COUNT := by omega
  simp [BOUNDS_TEST_REGISTER, bound_test, this]

theorem bounds_test_out (K : Params) (r : Nat) (s : svm) (h : K.REGISTER_COUNT ≤ r) :
    BOUNDS_TEST_REGISTER K r s =
      .ok () { s with errors := s.errors ++ [.register_out_of_bounds] } := by
  have : r ≥ K.REGISTER_COUNT := h
  simp [BOUNDS_TEST_REGISTER, bound_test, this]

theorem read_reg_in (K : Params) (r : Nat) (s : svm) (h : r < K.REGISTER_COUNT) :
    read_reg K r s = .ok (s.registers r) s := by
  simp [read_reg, h]

theorem write_reg_type_in (K : Params) (r : Nat) (t : reg_type) (s : svm)
    (h : r < K.REGISTER_COUNT) :
    write_reg_type K r t s =
      .ok () { s with registers := update s.registers r { s.registers r with type := t } } := by
  simp [write_reg_type, h]

theorem write_reg_content_in (K : Params) (r : Nat) (v : Int) (s : svm)
    (h : r < K.REGISTER_COUNT) :
    write_reg_content K r v s =
      .ok () { s with registers := update s.registers r { s.registers r with content := v } } := by
  simp [write_reg_content, h]

theorem write_reg_in (K : Params) (r : Nat) (v : reg_t) (s : svm) (h : r < K.REGISTER_COUNT) :
    write_reg K r v s = .ok () { s with registers := update s.registers r v } := by
  simp [write_reg, h]

theorem get_int_reg_int (K : Params) (r : Nat) (s : svm) (x : Int) (h : r < K.REGISTER_COUNT)
    (hx : s.registers r = ⟨.INTEGER, x⟩) : get_int_reg K r s = .ok x s := by
  simp [get_int_reg, read_reg, h, hx]

theorem get_int_reg_other (K : Params) (r : Nat) (s : svm) (h : r < K.REGISTER_COUNT)
    (hx : (s.registers r).type ≠ .INTEGER) :
    get_int_reg K r s = .ok 0 { s with errors := s.errors ++ [.not_an_integer] } := by
  simp [get_int_reg, read_reg, h, hx]

theorem clearable_of_owns_buffer (s : svm) (r : Nat) (h : owns_buffer s r) : clearable s r := by
  intro ht _
  obtain ⟨_, buf, hbuf, _⟩ := h ht
  simp [hbuf]

theorem clear_string_reg_other (K : Params) (r : Nat) (s : svm) (h : r < K.REGISTER_COUNT)
    (ht : (s.registers r).type ≠ .STRING) : clear_string_reg K r s = .ok () s := by
  simp [clear_string_reg, read_reg, h, ht]

/-- What `clear_string_reg` does where it is defined. -/
theorem clear_string_reg_run (K : Params) (r : Nat) (s : svm) (h : r < K.REGISTER_COUNT)
    (hc : clearable s r) :
    clear_string_reg K r s = .ok () { s with heap := released s.registers s.heap r } := by
  by_cases ht : (s.registers r).type = .STRING ∧ (s.registers r).content ≠ 0
  · have hl := hc ht.1 ht.2
    cases hh : s.heap (s.registers r).content with
    | none => exact absurd hh hl
    | some buf => simp [clear_string_reg, read_reg, h, ht.1, ht.2, free, hh, released]
  · simp only [clear_string_reg, bind_run, read_reg, h, if_true, ite_run, ht, if_false, pure_run,
      released]

/-- Where `clear_string_reg` is undefined: a stale pointer is freed again. -/
theorem clear_string_reg_stale (K : Params) (r : Nat) (s : svm) (h : r < K.REGISTER_COUNT)
    (hc : ¬ clearable s r) : clear_string_reg K r s = .undef s := by
  simp only [clearable, Classical.not_imp, not_not] at hc
  obtain ⟨ht, hne, hh⟩ := hc
  simp [clear_string_reg, read_reg, h, ht, hne, free, hh]

theorem update_type_get (f : Nat → reg_t) (out a : Nat) (t : reg_type) (x : Int)
    (h : f a = ⟨t, x⟩) : update f out { f out with type := t } a = ⟨t, x⟩ := by
  by_cases e : a = out
  · subst e; simp [h]
  · simp [update, e, h]

theorem either_float_int (K : Params) (lhs rhs : Nat) (s : svm) (x y : Int)
    (hl : lhs < K.REGISTER_COUNT) (hr : rhs < K.REGISTER_COUNT)
    (hx : s.registers lhs = ⟨.INTEGER, x⟩) (hy : s.registers rhs = ⟨.INTEGER, y⟩) :
    either_float K lhs rhs s = .ok false s := by
  simp [either_float, read_reg, hl, hr, hx, hy]

/-- The integer branch shared by the six operators: tag first, then the two
operands, then the result. -/
theorem int_branch (K : Params) (out lhs rhs : Nat) (s : svm) (x y : Int)
    (ho : out < K.REGISTER_COUNT) (hl : lhs < K.REGISTER_COUNT) (hr : rhs < K.REGISTER_COUNT)
    (hx : s.registers lhs = ⟨.INTEGER, x⟩) (hy : s.registers rhs = ⟨.INTEGER, y⟩)
    (g : Int → Int → Int) :
    (do write_reg_type K out .INTEGER
        let a ← get_int_reg K lhs
        let b ← get_int_reg K rhs
        write_reg_content K out (g a b) : VM Unit) s
      = .ok () { s with registers := update s.registers out ⟨.INTEGER, g x y⟩ } := by
  have h1 := update_type_get s.registers out lhs .INTEGER x hx
  have h2 := update_type_get s.registers out rhs .INTEGER y hy
  simp only [bind_run, write_reg_type_in K out .INTEGER s ho]
  rw [get_int_reg_int K lhs _ x hl h1]
  simp only []
  rw [get_int_reg_int K rhs _ y hr h2]
  simp only []
  rw [write_reg_content_in K out _ _ ho]
  simp

theorem reg_add_int (K : Params) (out lhs rhs : Nat) (s : svm) (x y : Int)
    (ho : out < K.REGISTER_COUNT) (hl : lhs < K.REGISTER_COUNT) (hr : rhs < K.REGISTER_COUNT)
    (hx : s.registers lhs = ⟨.INTEGER, x⟩) (hy : s.registers rhs = ⟨.INTEGER, y⟩) :
    reg_add K out lhs rhs s
      = .ok () { s with registers := update s.registers out ⟨.INTEGER, wrap32 (x + y)⟩ } := by
  have e := either_float_int K lhs rhs s x y hl hr hx hy
  have b := int_branch K out lhs rhs s x y ho hl hr hx hy (fun a b => wrap32 (a + b))
  simp only [bind_run] at b
  simp only [reg_add, bind_run, e]
  simpa using b

theorem reg_sub_int (K : Params) (out lhs rhs : Nat) (s : svm) (x y : Int)
    (ho : out < K.REGISTER_COUNT) (hl : lhs < K.REGISTER_COUNT) (hr : rhs < K.REGISTER_COUNT)
    (hx : s.registers lhs = ⟨.INTEGER, x⟩) (hy : s.registers rhs = ⟨.INTEGER, y⟩) :
    reg_sub K out lhs rhs s
      = .ok () { s with registers := update s.registers out ⟨.INTEGER, wrap32 (x - y)⟩ } := by
  have e := either_float_int K lhs rhs s x y hl hr hx hy
  have b := int_branch K out lhs rhs s x y ho hl hr hx hy (fun a b => wrap32 (a - b))
  simp only [bind_run] at b
  simp only [reg_sub, bind_run, e]
  simpa using b

theorem reg_mul_int (K : Params) (out lhs rhs : Nat) (s : svm) (x y : Int)
    (ho : out < K.REGISTER_COUNT) (hl : lhs < K.REGISTER_COUNT) (hr : rhs < K.REGISTER_COUNT)
    (hx : s.registers lhs = ⟨.INTEGER, x⟩) (hy : s.registers rhs = ⟨.INTEGER, y⟩) :
    reg_mul K out lhs rhs s
      = .ok () { s with registers := update s.registers out ⟨.INTEGER, wrap32 (x * y)⟩ } := by
  have e := either_float_int K lhs rhs s x y hl hr hx hy
  have b := int_branch K out lhs rhs s x y ho hl hr hx hy (fun a b => wrap32 (a * b))
  simp only [bind_run] at b
  simp only [reg_mul, bind_run, e]
  simpa using b

theorem reg_and_int (K : Params) (out lhs rhs : Nat) (s : svm) (x y : Int)
    (ho : out < K.REGISTER_COUNT) (hl : lhs < K.REGISTER_COUNT) (hr : rhs < K.REGISTER_COUNT)
    (hx : s.registers lhs = ⟨.INTEGER, x⟩) (hy : s.registers rhs = ⟨.INTEGER, y⟩) :
    reg_and K out lhs rhs s
      = .ok () { s with registers := update s.registers out ⟨.INTEGER, of_u32 (to_u32 x &&& to_u32 y)⟩ } := by
  have e := either_float_int K lhs rhs s x y hl hr hx hy
  have b := int_branch K out lhs rhs s x y ho hl hr hx hy (fun a b => of_u32 (to_u32 a &&& to_u32 b))
  simp only [bind_run] at b
  simp only [reg_and, bind_run, e]
  simpa using b

theorem reg_xor_int (K : Params) (out lhs rhs : Nat) (s : svm) (x y : Int)
    (ho : out < K.REGISTER_COUNT) (hl : lhs < K.REGISTER_COUNT) (hr : rhs < K.REGISTER_COUNT)
    (hx : s.registers lhs = ⟨.INTEGER, x⟩) (hy : s.registers rhs = ⟨.INTEGER, y⟩) :
    reg_xor K out lhs rhs s
      = .ok () { s with registers := update s.registers out ⟨.INTEGER, of_u32 (to_u32 x ^^^ to_u32 y)⟩ } := by
  have e := either_float_int K lhs rhs s x y hl hr hx hy
  have b := int_branch K out lhs rhs s x y ho hl hr hx hy (fun a b => of_u32 (to_u32 a ^^^ to_u32 b))
  simp only [bind_run] at b
  simp only [reg_xor, bind_run, e]
  simpa using b

theorem reg_or_int (K : Params) (out lhs rhs : Nat) (s : svm) (x y : Int)
    (ho : out < K.REGISTER_COUNT) (hl : lhs < K.REGISTER_COUNT) (hr : rhs < K.REGISTER_COUNT)
    (hx : s.registers lhs = ⟨.INTEGER, x⟩) (hy : s.registers rhs = ⟨.INTEGER, y⟩) :
    reg_or K out lhs rhs s
      = .ok () { s with registers := update s.registers out ⟨.INTEGER, of_u32 (to_u32 x ||| to_u32 y)⟩ } := by
  have e := either_float_int K lhs rhs s x y hl hr hx hy
  have b := int_branch K out lhs rhs s x y ho hl hr hx hy (fun a b => of_u32 (to_u32 a ||| to_u32 b))
  simp only [bind_run] at b
  simp only [reg_or, bind_run, e]
  simpa using b

/-- The six operators on two Integer registers. -/
theorem operator_int (K : Params) (op : arith_opcode) (out lhs rhs : Nat) (s : svm) (x y : Int)
    (ho : out < K.REGISTER_COUNT) (hl : lhs < K.REGISTER_COUNT) (hr : rhs < K.REGISTER_COUNT)
    (hx : s.registers lhs = ⟨.INTEGER, x⟩) (hy : s.registers rhs = ⟨.INTEGER, y⟩) :
    op.operator K out lhs rhs s
      = .ok () { s with registers := update s.registers out ⟨.INTEGER, op.int_result x y⟩ } := by
  cases op
  · exact reg_add_int K out lhs rhs s x y ho hl hr hx hy
  · exact reg_sub_int K out lhs rhs s x y ho hl hr hx hy
  · exact reg_mul_int K out lhs rhs s x y ho hl hr hx hy
  · exact reg_and_int K out lhs rhs s x y ho hl hr hx hy
  · exact reg_or_int K out lhs rhs s x y ho hl hr hx hy
  · exact reg_xor_int K out lhs rhs s x y ho hl hr hx hy

/-- `math_operation` on two Integer registers, for any position of IP. -/
theorem math_operation_int (K : Params) (op : arith_opcode) (s : svm) (x y : Int)
    (hd : s.code (nxt s.ip) < K.REGISTER_COUNT)
    (ha : s.code (nxt (nxt s.ip)) < K.REGISTER_COUNT)
    (hb : s.code (nxt (nxt (nxt s.ip))) < K.REGISTER_COUNT)
    (hx : s.registers (s.code (nxt (nxt s.ip))) = ⟨.INTEGER, x⟩)
    (hy : s.registers (s.code (nxt (nxt (nxt s.ip)))) = ⟨.INTEGER, y⟩)
    (hown : clearable s (s.code (nxt s.ip))) :
    op.handler K s = .ok ()
      { s with
        ip := nxt (nxt (nxt s.ip)) + 1
        heap := released s.registers s.heap (s.code (nxt s.ip))
        registers := update s.registers (s.code (nxt s.ip)) ⟨.INTEGER, op.int_result x y⟩
        jmp := if op.int_result x y = 0 then 1 else 0 } := by
  have hh : op.handler K = math_operation K op.operator := by cases op <;> rfl
  rw [hh]
  simp only [math_operation, bind_run, next_byte_run]
  rw [bounds_test_in K _ _ hd]; simp only []
  rw [bounds_test_in K _ _ hd]; simp only []
  rw [bounds_test_in K _ _ hd]; simp only []
  rw [clear_string_reg_run K _ _ hd (by simpa [clearable] using hown)]
  simp only []
  rw [operator_int K op _ _ _ _ x y hd ha hb (by simpa using hx) (by simpa using hy)]
  simp only []
  rw [read_reg_in K _ _ hd]
  simp only [update_same]
  split <;> simp [released]

/-! ## 32-bit arithmetic -/

theorem of_u32_range (n : Nat) : -2147483648 ≤ of_u32 n ∧ of_u32 n < 2147483648 := by
  unfold of_u32
  split <;> omega

theorem to_u32_lt (x : Int) : to_u32 x < 4294967296 := by
  unfold to_u32
  omega

theorem to_u32_of_u32 (n : Nat) : to_u32 (of_u32 n) = n % 4294967296 := by
  unfold to_u32 of_u32
  split <;> omega

theorem wrap32_congr (v : Int) : (wrap32 v - v) % 4294967296 = 0 := by
  unfold wrap32 of_u32 to_u32
  split <;> omega

theorem wrap32_id (v : Int) (h1 : -2147483648 ≤ v) (h2 : v < 2147483648) : wrap32 v = v := by
  unfold wrap32 of_u32 to_u32
  split <;> omega

theorem to_u32_bitwise (f : Nat → Nat → Nat) (x y : Int)
    (h : f (to_u32 x) (to_u32 y) < 4294967296) :
    to_u32 (of_u32 (f (to_u32 x) (to_u32 y))) = f (to_u32 x) (to_u32 y) := by
  rw [to_u32_of_u32, Nat.mod_eq_of_lt h]

/-- What `int_result` means, without reference to `wrap32`: the result lies in
the 32-bit signed range; sum, difference and product agree with the exact
result modulo 2^32; AND, OR and XOR act on the 32-bit patterns. -/
theorem int_result_spec (op : arith_opcode) (x y : Int) :
    (-2147483648 ≤ op.int_result x y ∧ op.int_result x y < 2147483648) ∧
    (op = .ADD → (op.int_result x y - (x + y)) % 4294967296 = 0) ∧
    (op = .SUB → (op.int_result x y - (x - y)) % 4294967296 = 0) ∧
    (op = .MUL → (op.int_result x y - (x * y)) % 4294967296 = 0) ∧
    (op = .AND → to_u32 (op.int_result x y) = to_u32 x &&& to_u32 y) ∧
    (op = .OR → to_u32 (op.int_result x y) = to_u32 x ||| to_u32 y) ∧
    (op = .XOR → to_u32 (op.int_result x y) = to_u32 x ^^^ to_u32 y) := by
  have hx := to_u32_lt x
  have hy := to_u32_lt y
  refine ⟨?_, ?_, ?_, ?_, ?_, ?_, ?_⟩
  · cases op <;> exact of_u32_range _
  · rintro rfl; exact wrap32_congr _
  · rintro rfl; exact wrap32_congr _
  · rintro rfl; exact wrap32_congr _
  · rintro rfl
    exact to_u32_bitwise (fun a b => a &&& b) x y (Nat.and_lt_two_pow _ (n := 32) hy)
  · rintro rfl
    exact to_u32_bitwise (fun a b => a ||| b) x y (Nat.or_lt_two_pow (n := 32) hx hy)
  · rintro rfl
    exact to_u32_bitwise (fun a b => a ^^^ b) x y (Nat.xor_lt_two_pow (n := 32) hx hy)

/-! ## C1: arithmetic on two Integer registers -/

/-- C1 as stated fails where the instruction straddles the decoder's wrap point:
`ADD r2, r0, r1` at address 0xFFFC, with in-range operands and Integer sources,
returns with IP = 1, which is neither 0xFFFC + 4 nor that sum modulo 0x10000. -/
theorem C1_counterexample :
    add_at_wrap.code (nxt add_at_wrap.ip) < sample_params.REGISTER_COUNT ∧
    add_at_wrap.code (nxt (nxt add_at_wrap.ip)) < sample_params.REGISTER_COUNT ∧
    add_at_wrap.code (nxt (nxt (nxt add_at_wrap.ip))) < sample_params.REGISTER_COUNT ∧
    (add_at_wrap.registers 0).type = .INTEGER ∧ (add_at_wrap.registers 1).type = .INTEGER ∧
    (arith_opcode.ADD.handler sample_params add_at_wrap).returned = true ∧
    (arith_opcode.ADD.handler sample_params add_at_wrap).state.ip = 1 ∧
    (arith_opcode.ADD.handler sample_params add_at_wrap).state.ip ≠ add_at_wrap.ip + 4 ∧
    (arith_opcode.ADD.handler sample_params add_at_wrap).state.ip
      ≠ (add_at_wrap.ip + 4) % 0x10000 := by
  decide

/-- C1 (amended): for ADD, SUB, MUL, AND, OR, XOR at an address `p` with
`p + 4 ≤ 0xFFFF`, operand bytes dst, a, b below REGISTER_COUNT, registers a and
b holding Integer x and y, and dst not holding a stale string pointer, the
handler returns with dst = Integer(x op y) in 32-bit two's-complement
arithmetic, every other register, both stacks, code memory and the I/O arrays
unchanged, no report to the error sink, and IP = p + 4. -/
theorem C1_arith_on_integers (K : Params) (op : arith_opcode) (s : svm) (dst a b : Nat)
    (x y : Int) (hip : s.ip + 4 ≤ 0xFFFF)
    (hd : s.code (s.ip + 1) = dst) (ha : s.code (s.ip + 2) = a) (hb : s.code (s.ip + 3) = b)
    (hdr : dst < K.REGISTER_COUNT) (har : a < K.REGISTER_COUNT) (hbr : b < K.REGISTER_COUNT)
    (hx : s.registers a = ⟨.INTEGER, x⟩) (hy : s.registers b = ⟨.INTEGER, y⟩)
    (hown : clearable s dst) :
    ∃ s', op.handler K s = .ok () s' ∧
      s'.registers dst = ⟨.INTEGER, op.int_result x y⟩ ∧
      (-2147483648 ≤ op.int_result x y ∧ op.int_result x y < 2147483648) ∧
      (op = .ADD → (op.int_result x y - (x + y)) % 4294967296 = 0) ∧
      (op = .SUB → (op.int_result x y - (x - y)) % 4294967296 = 0) ∧
      (op = .MUL → (op.int_result x y - (x * y)) % 4294967296 = 0) ∧
      (op = .AND → to_u32 (op.int_result x y) = to_u32 x &&& to_u32 y) ∧
      (op = .OR → to_u32 (op.int_result x y) = to_u32 x ||| to_u32 y) ∧
      (op = .XOR → to_u32 (op.int_result x y) = to_u32 x ^^^ to_u32 y) ∧
      (∀ r, r ≠ dst → s'.registers r = s.registers r) ∧
      s'.stack = s.stack ∧ s'.SP = s.SP ∧ s'.call_stack = s.call_stack ∧ s'.CSP = s.CSP ∧
      s'.code = s.code ∧
      s'.ANALOG_IN = s.ANALOG_IN ∧ s'.ANALOG_OUT = s.ANALOG_OUT ∧
      s'.BINARY_IN = s.BINARY_IN ∧ s'.BINARY_OUT = s.BINARY_OUT ∧
      s'.VARIABLE_IO = s.VARIABLE_IO ∧
      s'.errors = s.errors ∧
      s'.ip = s.ip + 4 := by
  have h1 : nxt s.ip = s.ip + 1 := nxt_eq _ (by omega)
  have h2 : nxt (s.ip + 1) = s.ip + 2 := nxt_eq _ (by omega)
  have h3 : nxt (s.ip + 2) = s.ip + 3 := nxt_eq _ (by omega)
  have run := math_operation_int K op s x y
    (by rw [h1, hd]; exact hdr) (by rw [h1, h2, ha]; exact har)
    (by rw [h1, h2, h3, hb]; exact hbr) (by rw [h1, h2, ha]; exact hx)
    (by rw [h1, h2, h3, hb]; exact hy) (by rw [h1, hd]; exact hown)
  rw [h1, h2, h3, hd] at run
  obtain ⟨hrange, hadd, hsub, hmul, hand, hor, hxor⟩ := int_result_spec op x y
  refine ⟨_, run, ?_, hrange, hadd, hsub, hmul, hand, hor, hxor, ?_, rfl, rfl, rfl, rfl, rfl,
    rfl, rfl, rfl, rfl, rfl, rfl, rfl⟩
  · simp
  · intro r hr
    simp [update_other _ _ _ _ hr]

/-- C1 at a concrete input: `MUL r2, r0, r1` at address 8 with r0 = 0x10000 and
r1 = 0x10000 and r2 a string leaves r2 = Integer(0), the product reduced
modulo 2^32. -/
theorem C1_witness :
    ∃ s', arith_opcode.MUL.handler sample_params
mul_example = .ok () s' ∧
      s'.registers 2 = ⟨.INTEGER, 0⟩ ∧ s'.ip = 12 := by
  obtain ⟨s', h, hr, _, _, _, _, _, _, _, _, _, _, _, _, _, _, _, _, _, _, _, hip⟩ :=
    C1_arith_on_integers sample_params .MUL mul_example 2 0 1 65536 65536 (by decide) (by decide) (by decide) (by decide) (by decide) (by decide)
      (by decide) (by decide) (by decide) (by simp [clearable, mul_example])
  exact ⟨s', h, hr, hip⟩

/-! ## C2: the Z-flag after arithmetic -/

theorem bounds_test_run (K : Params) (r : Nat) (s : svm) :
    BOUNDS_TEST_REGISTER K r s =
      .ok () { s with errors := if r ≥ K.REGISTER_COUNT then s.errors ++ [.register_out_of_bounds]
                                 else s.errors } := by
  by_cases h : r ≥ K.REGISTER_COUNT <;> simp [BOUNDS_TEST_REGISTER, bound_test, h]

theorem math_operation_Z (K : Params) (operator : Params → Nat → Nat → Nat → VM Unit)
    (s s' : svm) (h : math_operation K operator s = .ok () s') :
    (s'.jmp = 0 ∨ s'.jmp = 1) ∧
      (s'.jmp = 1 ↔ (s'.registers (s.code (nxt s.ip))).content = 0) := by
  simp only [math_operation, bind_run, next_byte_run, bounds_test_run] at h
  split at h
  · split at h
    · simp only [read_reg] at h
      split at h
      · rename_i hr
        split at hr
        · injection hr with h1 h2
          subst h1 h2
          simp only [ite_run, set_jmp_run, ip_incr_run] at h
          split at h
          · injection h with _ h; subst h; simp_all
          · injection h with _ h; subst h; simp_all
        · cases hr
      · cases h
    · cases h
  · cases h

theorem get_int_reg_in (K : Params) (r : Nat) (s : svm) (h : r < K.REGISTER_COUNT) :
    get_int_reg K r s = .ok (int_value s.registers r) { s with errors := s.errors ++ int_reports s.registers r } := by
  by_cases ht : (s.registers r).type = .INTEGER <;>
    simp [get_int_reg, read_reg, h, ht, int_value, int_reports]

theorem get_int_reg_out (K : Params) (r : Nat) (s : svm) (h : ¬ r < K.REGISTER_COUNT) :
    get_int_reg K r s = .undef s := by
  simp [get_int_reg, read_reg, h]

theorem clear_string_reg_out (K : Params) (r : Nat) (s : svm) (h : ¬ r < K.REGISTER_COUNT) :
    clear_string_reg K r s = .undef s := by
  simp [clear_string_reg, read_reg, h]

/-- `op_divide` with in-range operands, for any position of IP: the reports of
the two operand fetches, then the zero test, the overflow and the quotient. -/
theorem op_divide_run (K : Params) (s : svm)
    (hd : s.code (nxt s.ip) < K.REGISTER_COUNT)
    (ha : s.code (nxt (nxt s.ip)) < K.REGISTER_COUNT)
    (hb : s.code (nxt (nxt (nxt s.ip))) < K.REGISTER_COUNT)
    (hown : clearable s (s.code (nxt s.ip))) :
    op_divide K s =
      (if int_value s.registers (s.code (nxt (nxt (nxt s.ip)))) = 0 then
        .ok () { s with
          ip := nxt (nxt (nxt s.ip))
          heap := released s.registers s.heap (s.code (nxt s.ip))
          errors := s.errors ++ int_reports s.registers (s.code (nxt (nxt s.ip)))
            ++ int_reports s.registers (s.code (nxt (nxt (nxt s.ip)))) ++ [.division_by_zero] }
      else if int_value s.registers (s.code (nxt (nxt s.ip))) = -2147483648
          ∧ int_value s.registers (s.code (nxt (nxt (nxt s.ip)))) = -1 then
        .undef { s with
          ip := nxt (nxt (nxt s.ip))
          heap := released s.registers s.heap (s.code (nxt s.ip))
          errors := s.errors ++ int_reports s.registers (s.code (nxt (nxt s.ip)))
            ++ int_reports s.registers (s.code (nxt (nxt (nxt s.ip)))) }
      else
        .ok () { s with
          ip := nxt (nxt (nxt s.ip)) + 1
          heap := released s.registers s.heap (s.code (nxt s.ip))
          errors := s.errors ++ int_reports s.registers (s.code (nxt (nxt s.ip)))
            ++ int_reports s.registers (s.code (nxt (nxt (nxt s.ip))))
          registers := update s.registers (s.code (nxt s.ip))
            ⟨.INTEGER, wrap32 (Int.tdiv (int_value s.registers (s.code (nxt (nxt s.ip))))
              (int_value s.registers (s.code (nxt (nxt (nxt s.ip))))))⟩
          jmp := if wrap32 (Int.tdiv (int_value s.registers (s.code (nxt (nxt s.ip))))
              (int_value s.registers (s.code (nxt (nxt (nxt s.ip)))))) = 0 then 1 else 0 }) := by
  simp only [op_divide, bind_run, next_byte_run]
  rw [bounds_test_in K _ _ hd]; simp only []
  rw [bounds_test_in K _ _ hd]; simp only []
  rw [bounds_test_in K _ _ hd]; simp only []
  rw [clear_string_reg_run K _ _ hd (by simpa [clearable] using hown)]
  simp only []
  rw [get_int_reg_in K _ _ ha]; simp only []
  rw [get_int_reg_in K _ _ hb]; simp only []
  simp only [ite_run]
  by_cases hz : int_value s.registers (s.code (nxt (nxt (nxt s.ip)))) = 0
  · simp only [hz, if_true, error_handler_run, List.append_assoc]
  · simp only [hz, if_false]
    by_cases hov : int_value s.registers (s.code (nxt (nxt s.ip))) = -2147483648
        ∧ int_value s.registers (s.code (nxt (nxt (nxt s.ip)))) = -1
    · simp only [hov, and_self, if_true, undefined_behaviour, List.append_assoc]
    · simp only [hov, if_false, bind_run]
      rw [write_reg_content_in K _ _ _ hd]; simp only []
      rw [write_reg_type_in K _ _ _ hd]; simp only []
      rw [read_reg_in K _ _ hd]
      simp only [update_same, update_update, ite_run, set_jmp_run, ip_incr_run]
      split <;> simp

theorem op_divide_Z (K : Params) (s s' : svm) (h : op_divide K s = .ok () s')
    (hdiv : int_value s.registers (s.code (nxt (nxt (nxt s.ip)))) ≠ 0) :
    (s'.jmp = 0 ∨ s'.jmp = 1) ∧
      (s'.jmp = 1 ↔ (s'.registers (s.code (nxt s.ip))).content = 0) := by
  by_cases hd : s.code (nxt s.ip) < K.REGISTER_COUNT
  · by_cases hc : clearable s (s.code (nxt s.ip))
    · by_cases ha : s.code (nxt (nxt s.ip)) < K.REGISTER_COUNT
      · by_cases hb : s.code (nxt (nxt (nxt s.ip))) < K.REGISTER_COUNT
        · rw [op_divide_run K s hd ha hb hc, if_neg hdiv] at h
          split at h
          · cases h
          · injection h with _ h
            subst h
            simp only [update_same]
            split <;> simp_all
        · simp only [op_divide, bind_run, next_byte_run, bounds_test_run] at h
          rw [clear_string_reg_run K _ _ hd (by simpa [clearable] using hc)] at h
          simp only [] at h
          rw [get_int_reg_in K _ _ ha] at h
          simp only [] at h
          rw [get_int_reg_out K _ _ hb] at h
          cases h
      · simp only [op_divide, bind_run, next_byte_run, bounds_test_run] at h
        rw [clear_string_reg_run K _ _ hd (by simpa [clearable] using hc)] at h
        simp only [] at h
        rw [get_int_reg_out K _ _ ha] at h
        cases h
    · simp only [op_divide, bind_run, next_byte_run, bounds_test_run] at h
      rw [clear_string_reg_stale K _ _ hd (by simpa [clearable] using hc)] at h
      cases h
  · simp only [op_divide, bind_run, next_byte_run, bounds_test_run] at h
    rw [clear_string_reg_out K _ _ hd] at h
    cases h

/-! ## Handlers that always return -/

theorem returns_bind {α β : Type} {x : VM α} {f : α → VM β} (hx : always_returns x)
    (hf : ∀ a, always_returns (f a)) : always_returns (x >>= f) := by
  intro s
  obtain ⟨a, s1, h⟩ := hx s
  obtain ⟨b, s2, h2⟩ := hf a s1
  exact ⟨b, s2, by simp only [bind_run, h, h2]⟩

theorem returns_pure {α : Type} (a : α) : always_returns (pure a : VM α) :=
  fun s => ⟨a, s, rfl⟩

theorem returns_ite {α : Type} (c : Prop) [Decidable c] {x y : VM α} (hx : always_returns x)
    (hy : always_returns y) : always_returns (if c then x else y) := by
  split
  · exact hx
  · exact hy

theorem returns_modify (f : svm → svm) : always_returns (modify_state f) :=
  fun s => ⟨(), f s, rfl⟩

theorem returns_error (m : Msg) : always_returns (svm_default_error_handler m) :=
  fun _ => ⟨(), _, rfl⟩

theorem returns_read_reg (K : Params) (r : Nat) (h : r < K.REGISTER_COUNT) :
    always_returns (read_reg K r) :=
  fun s => ⟨_, _, read_reg_in K r s h⟩

theorem returns_write_reg_type (K : Params) (r : Nat) (t : reg_type)
    (h : r < K.REGISTER_COUNT) : always_returns (write_reg_type K r t) :=
  fun s => ⟨_, _, write_reg_type_in K r t s h⟩

theorem returns_write_reg_content (K : Params) (r : Nat) (v : Int)
    (h : r < K.REGISTER_COUNT) : always_returns (write_reg_content K r v) :=
  fun s => ⟨_, _, write_reg_content_in K r v s h⟩

theorem returns_get_int_reg (K : Params) (r : Nat) (h : r < K.REGISTER_COUNT) :
    always_returns (get_int_reg K r) :=
  fun s => ⟨_, _, get_int_reg_in K r s h⟩

theorem returns_get_float_reg (K : Params) (r : Nat) (h : r < K.REGISTER_COUNT) :
    always_returns (get_float_reg K r) := by
  unfold get_float_reg
  exact returns_bind (returns_read_reg K r h) fun a =>
    returns_ite _ (returns_pure _) (returns_bind (returns_error _) fun _ => returns_pure _)

theorem returns_float_operand (K : Params) (r : Nat) (h : r < K.REGISTER_COUNT) :
    always_returns (float_operand K r) := by
  unfold float_operand
  exact returns_bind (returns_read_reg K r h) fun a =>
    returns_ite _ (returns_get_float_reg K r h)
      (returns_bind (returns_get_int_reg K r h) fun _ => returns_pure _)

theorem returns_either_float (K : Params) (lhs rhs : Nat) (hl : lhs < K.REGISTER_COUNT)
    (hr : rhs < K.REGISTER_COUNT) : always_returns (either_float K lhs rhs) := by
  unfold either_float
  exact returns_bind (returns_read_reg K lhs hl) fun _ =>
    returns_bind (returns_read_reg K rhs hr) fun _ => returns_pure _

/-- With in-range operands each of the six operators returns, whatever the tags
of the two sources. -/
theorem operator_returns (K : Params) (op : arith_opcode) (out lhs rhs : Nat)
    (ho : out < K.REGISTER_COUNT) (hl : lhs < K.REGISTER_COUNT) (hr : rhs < K.REGISTER_COUNT) :
    always_returns (op.operator K out lhs rhs) := by
  have hint : ∀ g : Int → Int → Int, always_returns (do
      write_reg_type K out .INTEGER
      let a ← get_int_reg K lhs
      let b ← get_int_reg K rhs
      write_reg_content K out (g a b) : VM Unit) := fun g =>
    returns_bind (returns_write_reg_type K out _ ho) fun _ =>
      returns_bind (returns_get_int_reg K lhs hl) fun _ =>
        returns_bind (returns_get_int_reg K rhs hr) fun _ => returns_write_reg_content K out _ ho
  have hflt : ∀ g : Int → Int → Int, always_returns (do
      let a ← float_operand K lhs
      let b ← float_operand K rhs
      write_reg_content K out (g a b)
      write_reg_type K out .FLOAT : VM Unit) := fun g =>
    returns_bind (returns_float_operand K lhs hl) fun _ =>
      returns_bind (returns_float_operand K rhs hr) fun _ =>
        returns_bind (returns_write_reg_content K out _ ho) fun _ =>
          returns_write_reg_type K out _ ho
  have hbit : ∀ g : Int → Int → Int, always_returns (do
      let l ← read_reg K lhs
      let r ← read_reg K rhs
      write_reg_content K out (g l.content r.content)
      write_reg_type K out .FLOAT : VM Unit) := fun g =>
    returns_bind (returns_read_reg K lhs hl) fun _ =>
      returns_bind (returns_read_reg K rhs hr) fun _ =>
        returns_bind (returns_write_reg_content K out _ ho) fun _ =>
          returns_write_reg_type K out _ ho
  have he := returns_either_float K lhs rhs hl hr
  cases op
  · exact returns_bind he fun _ => returns_ite _ (hflt K.fadd) (hint fun a b => wrap32 (a + b))
  · exact returns_bind he fun _ => returns_ite _ (hflt K.fsub) (hint fun a b => wrap32 (a - b))
  · exact returns_bind he fun _ => returns_ite _ (hflt K.fmul) (hint fun a b => wrap32 (a * b))
  · exact returns_bind he fun _ => returns_ite _
      (hbit fun a b => K.i2f (of_u32 (to_u32 a &&& to_u32 b)))
      (hint fun a b => of_u32 (to_u32 a &&& to_u32 b))
  · exact returns_bind he fun _ => returns_ite _
      (hbit fun a b => K.i2f (of_u32 (to_u32 a ||| to_u32 b)))
      (hint fun a b => of_u32 (to_u32 a ||| to_u32 b))
  · exact returns_bind he fun _ => returns_ite _
      (hbit fun a b => K.i2f (of_u32 (to_u32 a ^^^ to_u32 b)))
      (hint fun a b => of_u32 (to_u32 a ^^^ to_u32 b))

/-- `math_operation` returns whenever the three operand bytes are in range and
the destination holds no stale string pointer. -/
theorem math_operation_returns (K : Params) (op : arith_opcode) (s : svm)
    (hd : s.code (nxt s.ip) < K.REGISTER_COUNT)
    (ha : s.code (nxt (nxt s.ip)) < K.REGISTER_COUNT)
    (hb : s.code (nxt (nxt (nxt s.ip))) < K.REGISTER_COUNT)
    (hc : clearable s (s.code (nxt s.ip))) :
    ∃ s', op.handler K s = .ok () s' := by
  have hh : op.handler K = math_operation K op.operator := by cases op <;> rfl
  rw [hh]
  simp only [math_operation, bind_run, next_byte_run]
  rw [bounds_test_in K _ _ hd]; simp only []
  rw [bounds_test_in K _ _ hd]; simp only []
  rw [bounds_test_in K _ _ hd]; simp only []
  rw [clear_string_reg_run K _ _ hd (by simpa [clearable] using hc)]
  simp only []
  obtain ⟨_, s1, h1⟩ := operator_returns K op _ _ _ hd ha hb
    { s with ip := nxt (nxt (nxt s.ip))
             heap := released s.registers s.heap (s.code (nxt s.ip)) }
  rw [h1]
  simp only []
  rw [read_reg_in K _ _ hd]
  simp only [ite_run, set_jmp_run, ip_incr_run]
  split <;> exact ⟨_, rfl⟩

/-- C2: whenever one of ADD, SUB, MUL, AND, OR, XOR, or DIV with a non-zero
divisor, returns, the Z-flag is 0 or 1 and it is 1 exactly when the integer
payload of the destination register (the register named by the first operand
byte) is 0. And the handler does return whenever its three operand bytes are in
range and the destination holds no stale string pointer (for DIV, unless the
quotient is INT_MIN / -1, whose overflow C leaves undefined). -/
theorem C2_zero_flag (K : Params) (op : arithmetic_opcode) (s : svm)
    (hdiv : op = .DIV → int_value s.registers (s.code (nxt (nxt (nxt s.ip)))) ≠ 0) :
    (∀ s', op.handler K s = .ok () s' →
      (s'.jmp = 0 ∨ s'.jmp = 1) ∧
        (s'.jmp = 1 ↔ (s'.registers (s.code (nxt s.ip))).content = 0)) ∧
    (s.code (nxt s.ip) < K.REGISTER_COUNT → s.code (nxt (nxt s.ip)) < K.REGISTER_COUNT →
      s.code (nxt (nxt (nxt s.ip))) < K.REGISTER_COUNT → clearable s (s.code (nxt s.ip)) →
      (op = .DIV → ¬ (int_value s.registers (s.code (nxt (nxt s.ip))) = -2147483648 ∧
        int_value s.registers (s.code (nxt (nxt (nxt s.ip)))) = -1)) →
      ∃ s', op.handler K s = .ok () s') := by
  constructor
  · intro s' h
    cases op with
    | math o =>
      have hh : o.handler K = math_operation K o.operator := by cases o <;> rfl
      exact math_operation_Z K o.operator s s' (by rw [← hh]; exact h)
    | DIV => exact op_divide_Z K s s' h (hdiv rfl)
  · intro hd ha hb hc hov
    cases op with
    | math o => exact math_operation_returns K o s hd ha hb hc
    | DIV =>
      have run := op_divide_run K s hd ha hb hc
      rw [if_neg (hdiv rfl), if_neg (hov rfl)] at run
      exact ⟨_, run⟩

/-- C2 at a concrete input: `DIV r2, r0, r1` with r0 = -7 and r1 = 2 returns
with r2 = Integer(-3) and the Z-flag clear. -/
theorem C2_witness :
    ∃ s', arithmetic_opcode.DIV.handler sample_params arith_example = .ok () s' ∧
      s'.registers 2 = ⟨.INTEGER, -3⟩ ∧ s'.jmp = 0 := by
  have h := C2_zero_flag sample_params .DIV arith_example (fun _ => by decide)
  obtain ⟨s', hs⟩ := h.2 (by decide) (by decide) (by decide)
    (fun ht => absurd ht (by decide)) (fun _ => by decide)
  have hz := h.1 s' hs
  have hs' : s' = (arithmetic_opcode.DIV.handler sample_params arith_example).state := by
    rw [hs]; rfl
  have hr : s'.registers 2 = ⟨.INTEGER, -3⟩ := by rw [hs']; decide
  refine ⟨s', hs, hr, ?_⟩
  have hc : (s'.registers (arith_example.code (nxt arith_example.ip))).content ≠ 0 := by
    rw [show arith_example.code (nxt arith_example.ip) = 2 from by decide, hr]; decide
  rcases hz.1 with h0 | h1
  · exact h0
  · exact absurd (hz.2.mp h1) hc

/-! ## C3: the scenario "integer add with Z-flag" -/

/-- C3 as stated fails: after `INT_STORE r0 <- 0x0002; INT_STORE r1 <- 0xFFFE;
ADD r2, r0, r1` from the initial state, register 2 is not Integer(0) and the
Z-flag is not set, and JUMP_Z leaves IP at 15, the EXIT that follows it, not at
a branch target. -/
theorem C3_counterexample :
    (add_scenario sample_params (svm_new add_scenario_bytes)).returned = true ∧
    (add_scenario sample_params (svm_new add_scenario_bytes)).state.registers 2
      ≠ ⟨.INTEGER, 0⟩ ∧
    (add_scenario sample_params (svm_new add_scenario_bytes)).state.jmp ≠ 1 ∧
    (add_scenario sample_params (svm_new add_scenario_bytes)).state.ip = 15 ∧
    (add_scenario sample_params (svm_new add_scenario_bytes)).state.ip ≠ 0x0020 ∧
    (add_scenario sample_params (svm_new add_scenario_bytes)).state.ip ≠ 0x2000 ∧
    (and_then (add_scenario sample_params) op_exit (svm_new add_scenario_bytes)).state.running
      = false ∧
    (and_then (add_scenario sample_params) op_exit (svm_new add_scenario_bytes)).state.registers 2
      ≠ ⟨.INTEGER, 0xAAAA⟩ := by
  decide

/-- C3 (amended): with at least three registers, from the initial state the
sequence `INT_STORE r0 <- 0x0002; INT_STORE r1 <- 0xFFFE; ADD r2, r0, r1; JUMP_Z`
returns with register 2 = Integer(0x10000) (the sum is not reduced to 16 bits),
the Z-flag clear, no report to the error sink, and IP = 15: JUMP_Z does not
branch, the EXIT after it runs next and register 2 stays Integer(0x10000). -/
theorem C3_add_scenario (K : Params) (hK : 2 < K.REGISTER_COUNT) :
    ∃ s', add_scenario K (svm_new add_scenario_bytes) = .ok () s' ∧
      s'.registers 0 = ⟨.INTEGER, 2⟩ ∧ s'.registers 1 = ⟨.INTEGER, 0xFFFE⟩ ∧
      s'.registers 2 = ⟨.INTEGER, 0x10000⟩ ∧ s'.jmp = 0 ∧ s'.ip = 15 ∧ s'.errors = [] ∧
      ∃ s'', op_exit s' = .ok () s'' ∧ s''.running = false ∧
        s''.registers 2 = ⟨.INTEGER, 0x10000⟩ := by
  have h0 : 0 < K.REGISTER_COUNT := by omega
  have h1 : 1 < K.REGISTER_COUNT := by omega
  have n0 : ¬ K.REGISTER_COUNT ≤ 0 := by omega
  have n1 : ¬ K.REGISTER_COUNT ≤ 1 := by omega
  have n2 : ¬ K.REGISTER_COUNT ≤ 2 := by omega
  have w1 : wrap32 2 = 2 := by decide
  have w2 : wrap32 65534 = 65534 := by decide
  have w3 : wrap32 65536 = 65536 := by decide
  simp [w1, w2, w3, add_scenario, and_then, op_int_store, op_add, math_operation, reg_add, either_float,
    op_jump_z, op_exit, BOUNDS_TEST_REGISTER, bound_test, clear_string_reg, read_reg,
    write_reg_content, write_reg_type, get_int_reg, svm_new, add_scenario_bytes, nxt, update,
    BYTES_TO_ADDR, h0, h1, hK, n0, n1, n2]

/-- C3 (amended) on a register file of ten registers. -/
theorem C3_witness :
    ∃ s', add_scenario sample_params (svm_new add_scenario_bytes) = .ok () s' ∧
      s'.registers 2 = ⟨.INTEGER, 0x10000⟩ ∧ s'.jmp = 0 ∧ s'.ip = 15 := by
  obtain ⟨s', h, _, _, h2, hj, hip, _⟩ := C3_add_scenario sample_params (by decide)
  exact ⟨s', h, h2, hj, hip⟩

/-! ## C4: division by zero -/

/-- C4: for DIV whose operand bytes dst, a, b are below REGISTER_COUNT, with
registers a and b holding Integer x and y (and dst not holding a stale string
pointer), the error sink is invoked if and only if y = 0; when y = 0 the sink
receives the one message "Division by zero!" and the handler returns with every
register (tag and payload, dst included), the Z-flag, both stacks, code memory
and the I/O arrays unchanged, so no quotient is stored. (IP stays on the last
operand byte, and a buffer owned by dst has been released by then.) -/
theorem C4_divide_by_zero (K : Params) (s : svm) (dst a b : Nat) (x y : Int)
    (hd : s.code (nxt s.ip) = dst) (ha : s.code (nxt (nxt s.ip)) = a)
    (hb : s.code (nxt (nxt (nxt s.ip))) = b)
    (hdr : dst < K.REGISTER_COUNT) (har : a < K.REGISTER_COUNT) (hbr : b < K.REGISTER_COUNT)
    (hx : s.registers a = ⟨.INTEGER, x⟩) (hy : s.registers b = ⟨.INTEGER, y⟩)
    (hc : clearable s dst) :
    ((op_divide K s).state.errors ≠ s.errors ↔ y = 0) ∧
    (y = 0 → ∃ s', op_divide K s = .ok () s' ∧
      s'.errors = s.errors ++ [.division_by_zero] ∧
      s'.registers = s.registers ∧ s'.jmp = s.jmp ∧
      s'.stack = s.stack ∧ s'.SP = s.SP ∧ s'.call_stack = s.call_stack ∧ s'.CSP = s.CSP ∧
      s'.code = s.code ∧
      s'.ANALOG_IN = s.ANALOG_IN ∧ s'.ANALOG_OUT = s.ANALOG_OUT ∧
      s'.BINARY_IN = s.BINARY_IN ∧ s'.BINARY_OUT = s.BINARY_OUT ∧
      s'.VARIABLE_IO = s.VARIABLE_IO ∧
      s'.ip = nxt (nxt (nxt s.ip)) ∧ s'.heap = released s.registers s.heap dst) := by
  have run := op_divide_run K s (by rw [hd]; exact hdr) (by rw [ha]; exact har)
    (by rw [hb]; exact hbr) (by rw [hd]; exact hc)
  rw [hd, ha, hb] at run
  have vx : int_value s.registers a = x := by simp [int_value, hx]
  have vy : int_value s.registers b = y := by simp [int_value, hy]
  have rx : int_reports s.registers a = [] := by simp [int_reports, hx]
  have ry : int_reports s.registers b = [] := by simp [int_reports, hy]
  rw [vx, vy, rx, ry] at run
  simp only [List.append_nil] at run
  constructor
  · by_cases hz : y = 0
    · rw [run, if_pos hz]
      simp [Outcome.state, hz]
    · rw [run, if_neg hz]
      split <;> simp [Outcome.state, hz]
  · intro hz
    rw [if_pos hz] at run
    exact ⟨_, run, rfl, rfl, rfl, rfl, rfl, rfl, rfl, rfl, rfl, rfl, rfl, rfl, rfl, rfl, rfl⟩

/-- C4 at a concrete input: `DIV r2, r0, r1` with r0 = Integer(-7) and
r1 = Integer(0) reports once and leaves r2 = Integer(5) and the Z-flag as they
were. -/
theorem C4_witness :
    (op_divide sample_params { arith_example with
        registers := update arith_example.registers 1 ⟨.INTEGER, 0⟩ }).state.errors ≠ [] ∧
    ∃ s', op_divide sample_params { arith_example with
        registers := update arith_example.registers 1 ⟨.INTEGER, 0⟩ } = .ok () s' ∧
      s'.errors = [.division_by_zero] ∧ s'.registers 2 = ⟨.INTEGER, 5⟩ ∧ s'.jmp = 0 := by
  have h := C4_divide_by_zero sample_params
    { arith_example with registers := update arith_example.registers 1 ⟨.INTEGER, 0⟩ }
    2 0 1 (-7) 0 (by decide) (by decide) (by decide) (by decide) (by decide) (by decide)
    (by decide) (by decide) (by simp [clearable, arith_example, update, svm_new])
  refine ⟨h.1.mpr rfl, ?_⟩
  obtain ⟨s', hs, he, hr, hj, _⟩ := h.2 rfl
  exact ⟨s', hs, he, by rw [hr]; decide, by rw [hj]; decide⟩

/-! ## C5: bounds tests on the operands of the three-register opcodes -/

/-- C5 at the failing input: with ten registers, ADD, DIV and STRING_CONCAT on
`r0, r200, r1` pass all three bound tests (each is applied to the destination),
so the error sink receives nothing, and the handler goes on to read register
200 outside the register file. -/
theorem C5_source_operand_unchecked :
    source_out_of_range.code (nxt (nxt source_out_of_range.ip))
      ≥ sample_params.REGISTER_COUNT ∧
    (op_add sample_params source_out_of_range).state.errors = [] ∧
    (op_add sample_params source_out_of_range).returned = false ∧
    (op_divide sample_params source_out_of_range).state.errors = [] ∧
    (op_divide sample_params source_out_of_range).returned = false ∧
    (op_string_concat sample_params source_out_of_range).state.errors = [] ∧
    (op_string_concat sample_params source_out_of_range).returned = false := by
  decide

/-! ## C7: type mismatch in ADD, SUB and MUL -/

/-- C7 at the failing input: ADD, SUB and MUL on `r0, r0, r1` with r0 tagged
Str and r1 = Integer(1) return without any report to the error sink: the
destination is retagged Integer before the source is fetched, so the released
string pointer (here 1) is taken as the left operand. -/
theorem C7_string_source_undetected :
    (string_destination.registers 0).type = .STRING ∧
    (op_add sample_params string_destination).returned = true ∧
    (op_add sample_params string_destination).state.errors = [] ∧
    (op_add sample_params string_destination).state.registers 0 = ⟨.INTEGER, 2⟩ ∧
    (op_sub sample_params string_destination).returned = true ∧
    (op_sub sample_params string_destination).state.errors = [] ∧
    (op_sub sample_params string_destination).state.registers 0 = ⟨.INTEGER, 0⟩ ∧
    (op_mul sample_params string_destination).returned = true ∧
    (op_mul sample_params string_destination).state.errors = [] ∧
    (op_mul sample_params string_destination).state.registers 0 = ⟨.INTEGER, 1⟩ ∧
    (op_add sample_params string_destination).state.heap 1 = none := by
  decide

/-! ## C8: decoding of inline strings -/

theorem copy_loop_no_wrap (code : Nat → Nat) (n ip : Nat) (h : ip + n ≤ 0xFFFF) :
    copy_loop code n ip = (code_bytes code ip n, ip + n) := by
  induction n generalizing ip with
  | zero => simp [copy_loop, code_bytes]
  | succ n ih =>
    have hlt : ¬ ip ≥ 0xFFFF := by omega
    have ih1 := ih (ip + 1) (by omega)
    simp only [copy_loop, hlt, if_false, ih1]
    simp only [code_bytes, List.range_succ_eq_map, List.map_cons, List.map_map, Nat.add_zero]
    refine Prod.ext ?_ (by simp; omega)
    simp only [List.cons.injEq, true_and]
    apply List.map_congr_left
    intro i _
    simp only [Function.comp]
    congr 1
    omega

/-- `string_from_stack` entered with IP on the byte before the length, when
nothing wraps: the payload is the `len` bytes after the two length bytes. -/
theorem string_from_stack_run (s : svm)
    (h : s.ip + 3 + BYTES_TO_ADDR (s.code (s.ip + 1)) (s.code (s.ip + 2)) ≤ 0xFFFF) :
    string_from_stack s = .ok s.brk
      { s with
        ip := s.ip + 2 + BYTES_TO_ADDR (s.code (s.ip + 1)) (s.code (s.ip + 2))
        heap := update s.heap s.brk (some (code_bytes s.code (s.ip + 3)
          (BYTES_TO_ADDR (s.code (s.ip + 1)) (s.code (s.ip + 2))) ++ [0]))
        brk := s.brk + 1 } := by
  have h1 : nxt s.ip = s.ip + 1 := nxt_eq _ (by omega)
  have h2 : nxt (s.ip + 1) = s.ip + 2 := nxt_eq _ (by omega)
  simp only [string_from_stack, bind_run, next_byte_run, ip_incr_run, get_state_run, h1, h2,
    malloc, modify_state_run, pure_run]
  rw [copy_loop_no_wrap _ _ _ (by omega)]
  simp only [Outcome.ok.injEq, true_and]
  congr 1
  omega

/-- `op_string_store` where nothing wraps: the new buffer is allocated first,
then the old one of the register is released. -/
theorem op_string_store_run (K : Params) (s : svm)
    (hr : s.code (s.ip + 1) < K.REGISTER_COUNT)
    (h : s.ip + 4 + BYTES_TO_ADDR (s.code (s.ip + 2)) (s.code (s.ip + 3)) ≤ 0xFFFF)
    (hc : clearable s (s.code (s.ip + 1))) :
    op_string_store K s = .ok ()
      { s with
        ip := s.ip + 4 + BYTES_TO_ADDR (s.code (s.ip + 2)) (s.code (s.ip + 3))
        heap := released s.registers
          (update s.heap s.brk (some (code_bytes s.code (s.ip + 4)
            (BYTES_TO_ADDR (s.code (s.ip + 2)) (s.code (s.ip + 3))) ++ [0])))
          (s.code (s.ip + 1))
        brk := s.brk + 1
        registers := update s.registers (s.code (s.ip + 1)) ⟨.STRING, s.brk⟩ } := by
  have h1 : nxt s.ip = s.ip + 1 := nxt_eq _ (by omega)
  simp only [op_string_store, bind_run, next_byte_run, h1]
  rw [bounds_test_in K _ _ hr]
  simp only []
  rw [string_from_stack_run _ (by simpa [Nat.add_assoc] using (by omega :
    s.ip + 1 + 3 + BYTES_TO_ADDR (s.code (s.ip + 2)) (s.code (s.ip + 3)) ≤ 0xFFFF))]
  simp only [Nat.add_assoc, Nat.reduceAdd]
  rw [clear_string_reg_run K _ _ hr (by
    intro ht hne
    by_cases e : (s.registers (s.code (s.ip + 1))).content = s.brk
    · simp [e]
    · simpa [update, e] using hc ht hne)]
  simp only []
  rw [write_reg_type_in K _ _ _ hr]
  simp only []
  rw [write_reg_content_in K _ _ _ hr]
  simp only [update_same, update_update, ip_incr_run, Nat.add_assoc, Nat.reduceAdd]
  have e : s.ip + (3 + (BYTES_TO_ADDR (s.code (s.ip + 2)) (s.code (s.ip + 3)) + 1))
      = s.ip + (4 + BYTES_TO_ADDR (s.code (s.ip + 2)) (s.code (s.ip + 3))) := by omega
  rw [e]

/-- C8 as stated fails: on `STRING_STORE 0 05 00 00 'H' 'e' 'l' 'l' 'o' EXIT` the
decoder takes the five bytes after the length, `00 'H' 'e' 'l' 'l'`, as the
payload, so register 0 does not hold "Hello" (as a C string it is empty), and IP
ends at 9, on the byte 'o', not on the EXIT at 10. -/
theorem C8_counterexample :
    (op_string_store sample_params (svm_new hello_with_reserved_byte)).returned = true ∧
    (op_string_store sample_params (svm_new hello_with_reserved_byte)).state.registers 0
      = ⟨.STRING, 1⟩ ∧
    (op_string_store sample_params (svm_new hello_with_reserved_byte)).state.heap 1
      = some [0, 72, 101, 108, 108, 0] ∧
    (op_string_store sample_params (svm_new hello_with_reserved_byte)).state.heap 1
      ≠ some [72, 101, 108, 108, 111, 0] ∧
    string_content (op_string_store sample_params (svm_new hello_with_reserved_byte)).state 0
      = [] ∧
    (op_string_store sample_params (svm_new hello_with_reserved_byte)).state.ip = 9 ∧
    (op_string_store sample_params (svm_new hello_with_reserved_byte)).state.ip ≠ 10 ∧
    (svm_new hello_with_reserved_byte).code 9 = 111 := by
  decide

/-- C8 (amended): for STRING_STORE at address p with register operand
r < REGISTER_COUNT, length bytes lo, hi (L = lo + 256*hi) and
p + 4 + L ≤ 0xFFFF (nothing wraps), in a state where r holds no stale string
pointer and the allocator invariant holds, the layout is opcode, reg, lo, hi,
then directly the L payload bytes: the handler returns with register r tagged
Str, pointing to a fresh buffer that holds the L bytes code[p+4 .. p+4+L) and a
terminating zero, every other register and code memory unchanged, no report to
the error sink, and IP = p + 4 + L. -/
theorem C8_string_store (K : Params) (s : svm) (r lo hi : Nat)
    (hr : s.code (s.ip + 1) = r) (hlo : s.code (s.ip + 2) = lo) (hhi : s.code (s.ip + 3) = hi)
    (hrr : r < K.REGISTER_COUNT) (hno : s.ip + 4 + (lo + 256 * hi) ≤ 0xFFFF)
    (hc : clearable s r) (halloc : allocator_ok s) :
    ∃ s', op_string_store K s = .ok () s' ∧
      (s'.registers r).type = .STRING ∧ (s'.registers r).content ≠ 0 ∧
      s'.heap (s'.registers r).content
        = some (code_bytes s.code (s.ip + 4) (lo + 256 * hi) ++ [0]) ∧
      (code_bytes s.code (s.ip + 4) (lo + 256 * hi)).length = lo + 256 * hi ∧
      (∀ i, i < lo + 256 * hi →
        (code_bytes s.code (s.ip + 4) (lo + 256 * hi))[i]? = some (s.code (s.ip + 4 + i))) ∧
      (∀ r', r' ≠ r → s'.registers r' = s.registers r') ∧
      s'.code = s.code ∧ s'.errors = s.errors ∧
      s'.ip = s.ip + 4 + (lo + 256 * hi) := by
  have run := op_string_store_run K s (by rw [hr]; exact hrr)
    (by rw [hlo, hhi]; exact hno) (by rw [hr]; exact hc)
  rw [hr, hlo, hhi] at run
  have hb : BYTES_TO_ADDR lo hi = lo + 256 * hi := rfl
  rw [hb] at run
  have hfresh : s.heap s.brk = none := halloc.2 _ (le_refl _)
  have hne : s.brk ≠ 0 := by have := halloc.1; omega
  refine ⟨_, run, by simp, by simpa using hne, ?_, by simp [code_bytes], ?_, ?_, rfl, rfl, rfl⟩
  · simp only [update_same, released]
    split
    · rename_i hs
      have hl := hc hs.1 hs.2
      have e : s.brk ≠ (s.registers r).content := by
        intro e; rw [← e] at hl; exact hl hfresh
      simp [update, e]
    · simp
  · intro i hi
    simp [code_bytes, hi]
  · intro r' hr'
    simp [update_other _ _ _ _ hr']

/-- C8 (amended) at a concrete input: `STRING_STORE 0 05 00 'H' 'e' 'l' 'l' 'o'`
from the initial state leaves register 0 = Str("Hello") with IP = 9, the
address of the following EXIT. -/
theorem C8_witness :
    ∃ s', op_string_store sample_params (svm_new hello_bytes) = .ok () s' ∧
      (s'.registers 0).type = .STRING ∧
      s'.heap (s'.registers 0).content = some [72, 101, 108, 108, 111, 0] ∧
      s'.ip = 9 := by
  obtain ⟨s', h, ht, _, hh, _, _, _, _, _, hip⟩ :=
    C8_string_store sample_params (svm_new hello_bytes) 0 5 0 (by decide) (by decide)
      (by decide) (by decide) (by decide) (by simp [clearable, svm_new])
      (by simp [allocator_ok, svm_new])
  exact ⟨s', h, ht, by rw [hh]; decide, by rw [hip]; decide⟩

/-! ## C9: CMP_REG -/

theorem load_string_owned (s : svm) (r : Nat) (ht : (s.registers r).type = .STRING)
    (ho : owns_buffer s r) :
    load_string (s.registers r).content s = .ok (string_content s r) s := by
  obtain ⟨hne, buf, hbuf, hz⟩ := ho ht
  simp [load_string, hne, hbuf, hz, string_content]

/-- C9 as stated fails where the instruction straddles the decoder's wrap point:
`CMP_REG r0, r1` at address 0xFFFD, with in-range operands, returns with IP = 1,
which is neither 0xFFFD + 3 nor that sum modulo 0x10000. -/
theorem C9_counterexample :
    cmp_at_wrap.code (nxt cmp_at_wrap.ip) < sample_params.REGISTER_COUNT ∧
    cmp_at_wrap.code (nxt (nxt cmp_at_wrap.ip)) < sample_params.REGISTER_COUNT ∧
    (op_cmp_reg sample_params cmp_at_wrap).returned = true ∧
    (op_cmp_reg sample_params cmp_at_wrap).state.ip = 1 ∧
    (op_cmp_reg sample_params cmp_at_wrap).state.ip ≠ cmp_at_wrap.ip + 3 ∧
    (op_cmp_reg sample_params cmp_at_wrap).state.ip ≠ (cmp_at_wrap.ip + 3) % 0x10000 := by
  decide

/-- C9 (amended): for CMP_REG at an address p with p + 3 ≤ 0xFFFF and operand
bytes a, b below REGISTER_COUNT (each register, if tagged Str, owning a live
zero-terminated buffer), the handler returns with Z = 1 exactly when both
registers carry the same tag and either both are Str and their strings (the
bytes before the first zero) are equal, or both are Integer or both Float and
their raw 32-bit payloads are equal; Z = 0 otherwise, in particular whenever the
tags differ; no register (nor stack, heap, code byte or I/O channel) is
modified, nothing is reported, and IP = p + 3. -/
theorem C9_cmp_reg (K : Params) (s : svm) (a b : Nat) (hip : s.ip + 3 ≤ 0xFFFF)
    (ha : s.code (s.ip + 1) = a) (hb : s.code (s.ip + 2) = b)
    (har : a < K.REGISTER_COUNT) (hbr : b < K.REGISTER_COUNT)
    (hoa : owns_buffer s a) (hob : owns_buffer s b) :
    ∃ s', op_cmp_reg K s = .ok () s' ∧
      (s'.jmp = 0 ∨ s'.jmp = 1) ∧
      (s'.jmp = 1 ↔
        (s.registers a).type = (s.registers b).type ∧
          (((s.registers a).type = .STRING ∧ string_content s a = string_content s b) ∨
           ((s.registers a).type ≠ .STRING ∧
              (s.registers a).content = (s.registers b).content))) ∧
      ((s.registers a).type ≠ (s.registers b).type → s'.jmp = 0) ∧
      s'.registers = s.registers ∧ s'.heap = s.heap ∧ s'.stack = s.stack ∧ s'.SP = s.SP ∧
      s'.code = s.code ∧ s'.errors = s.errors ∧
      s'.ip = s.ip + 3 := by
  have h1 : nxt s.ip = s.ip + 1 := nxt_eq _ (by omega)
  have h2 : nxt (s.ip + 1) = s.ip + 2 := nxt_eq _ (by omega)
  simp only [op_cmp_reg, bind_run, next_byte_run, h1, ha]
  rw [bounds_test_in K _ _ har]; simp only [h2, hb]
  rw [bounds_test_in K _ _ hbr]; simp only [set_jmp_run]
  rw [read_reg_in K _ _ har]; simp only []
  rw [read_reg_in K _ _ hbr]; simp only [ite_run, bind_run, pure_run, set_jmp_run]
  by_cases ht : (s.registers a).type = (s.registers b).type
  · by_cases hs : (s.registers a).type = .STRING
    · have hsb : (s.registers b).type = .STRING := by rw [← ht]; exact hs
      simp only [ht, hsb, if_true, strcmp_eq, bind_run, pure_run]
      rw [show load_string (s.registers a).content
          { s with ip := s.ip + 2, jmp := 0 }
        = .ok (string_content s a) { s with ip := s.ip + 2, jmp := 0 } from
          load_string_owned { s with ip := s.ip + 2, jmp := 0 } a hs hoa]
      simp only []
      rw [show load_string (s.registers b).content
          { s with ip := s.ip + 2, jmp := 0 }
        = .ok (string_content s b) { s with ip := s.ip + 2, jmp := 0 } from
          load_string_owned { s with ip := s.ip + 2, jmp := 0 } b hsb hob]
      simp only [decide_eq_true_eq]
      by_cases he : string_content s a = string_content s b
      · simp [he, hs, hsb, ip_incr_run]
      · simp [he, hs, hsb, ip_incr_run]
    · have hsb : (s.registers b).type ≠ .STRING := by rw [← ht]; exact hs
      simp only [ht, hsb, if_true, if_false]
      by_cases he : (s.registers a).content = (s.registers b).content
      · simp [he, ht, hsb, ip_incr_run]
      · simp [he, ht, hsb, ip_incr_run]
  · simp [ht, ip_incr_run]

/-- C9 (amended) at a concrete input: a buffer holding 'A', 0, 'B' and the
string "A" compare equal, as `strcmp` stops at the first zero byte. -/
theorem C9_witness :
    ∃ s', op_cmp_reg sample_params cmp_example = .ok () s' ∧ s'.jmp = 1 ∧ s'.ip = 3 := by
  obtain ⟨s', h, _, hz, _, _, _, _, _, _, _, hip⟩ :=
    C9_cmp_reg sample_params cmp_example 0 1 (by decide) (by decide) (by decide) (by decide)
      (by decide) (by simp [owns_buffer, cmp_example]) (by simp [owns_buffer, cmp_example])
  refine ⟨s', h, hz.mpr ⟨by decide, Or.inl ⟨by decide, by decide⟩⟩, by rw [hip]; decide⟩

/-! ## C10: strings through the data stack -/

theorem c_str_cons (b : Nat) (t : List Nat) :
    c_str (b :: t) = if b = 0 then [] else b :: c_str t := by
  by_cases hb : b = 0 <;> simp [c_str, List.takeWhile_cons, hb]

theorem c_str_append_zero (str : List Nat) : c_str (str ++ [0]) = c_str str := by
  induction str with
  | nil => simp [c_str]
  | cons b t ih => rw [List.cons_append, c_str_cons, c_str_cons, ih]

theorem c_str_idem (str : List Nat) : c_str (c_str str) = c_str str := by
  induction str with
  | nil => simp [c_str]
  | cons b t ih =>
    by_cases hb : b = 0
    · simp [c_str_cons, hb, c_str]
    · rw [c_str_cons, if_neg hb, c_str_cons, if_neg hb, ih]

theorem c_str_of_no_zero (str : List Nat) (h : 0 ∉ str) : c_str str = str := by
  induction str with
  | nil => simp [c_str]
  | cons b t ih =>
    have hb : b ≠ 0 := fun e => h (by simp [e])
    have ht : 0 ∉ t := fun e => h (by simp [e])
    rw [c_str_cons, if_neg hb, ih ht]

theorem released_other (registers : Nat → reg_t) (heap : Int → Option (List Nat)) (r : Nat)
    (p : Int) (h : p ≠ (registers r).content) : released registers heap r p = heap p := by
  unfold released
  split
  · exact update_other _ _ _ _ h
  · rfl

/-- `op_stack_push` of a STRING register that owns its buffer, when nothing
wraps and the slot above SP is inside the stack. -/
theorem op_stack_push_string (K : Params) (s : svm)
    (hip : s.ip + 1 < 0xFFFF) (hr : s.code (s.ip + 1) < K.REGISTER_COUNT)
    (ht : (s.registers (s.code (s.ip + 1))).type = .STRING)
    (ho : owns_buffer s (s.code (s.ip + 1)))
    (hsp0 : 0 ≤ s.SP + 1) (hsp1 : s.SP + 1 < K.STACK_SIZE) :
    op_stack_push K s = .ok ()
      { s with
        ip := s.ip + 2
        heap := update s.heap s.brk (some (string_content s (s.code (s.ip + 1)) ++ [0]))
        brk := s.brk + 1
        SP := s.SP + 1
        stack := update s.stack (s.SP + 1) ⟨.STRING, s.brk⟩ } := by
  have h1 : nxt s.ip = s.ip + 1 := nxt_eq _ (by omega)
  simp only [op_stack_push, bind_run, next_byte_run, h1]
  rw [bounds_test_in K _ _ hr]; simp only []
  rw [read_reg_in K _ _ hr]; simp only [ht, if_true, bind_run, strdup]
  rw [show load_string (s.registers (s.code (s.ip + 1))).content { s with ip := s.ip + 1 }
      = .ok (string_content s (s.code (s.ip + 1))) { s with ip := s.ip + 1 } from
        load_string_owned { s with ip := s.ip + 1 } _ ht ho]
  have hge : ¬ s.SP + 1 ≥ (K.STACK_SIZE : Int) := by omega
  simp [malloc, write_stack, hsp0, hsp1, hge]

/-- `op_stack_pop` when nothing wraps, SP is on a slot inside the stack above
slot 0, and the target register holds no stale string pointer. -/
theorem op_stack_pop_run (K : Params) (s : svm)
    (hip : s.ip + 1 < 0xFFFF) (hr : s.code (s.ip + 1) < K.REGISTER_COUNT)
    (hsp0 : 0 < s.SP) (hsp1 : s.SP < K.STACK_SIZE)
    (hc : clearable s (s.code (s.ip + 1))) :
    op_stack_pop K s = .ok ()
      { s with
        ip := s.ip + 2
        SP := s.SP - 1
        heap := released s.registers s.heap (s.code (s.ip + 1))
        registers := update s.registers (s.code (s.ip + 1)) (s.stack s.SP) } := by
  have h1 : nxt s.ip = s.ip + 1 := nxt_eq _ (by omega)
  have hle : ¬ s.SP ≤ 0 := by omega
  have h0 : 0 ≤ s.SP := by omega
  simp only [op_stack_pop, bind_run, next_byte_run, h1]
  rw [bounds_test_in K _ _ hr]
  simp only [get_state_run, hle, if_false, pure_run, read_stack, h0, hsp1, and_self, if_true,
    modify_state_run, ite_run, bind_run]
  rw [clear_string_reg_run K _ _ hr (by simpa [clearable] using hc)]
  simp only []
  rw [write_reg_in K _ _ _ hr]
  simp [ip_incr_run]

/-- A live pointer lies below the allocator's next address. -/
theorem live_below_brk (s : svm) (p : Int) (halloc : allocator_ok s) (h : s.heap p ≠ none) :
    p < s.brk := by
  by_contra hge
  exact h (halloc.2 p (by omega))

/-- Away from the defect recorded for C10: for every byte string `str` laid out
as the payload of
`STRING_STORE r, str; STACK_PUSH r; STRING_STORE r, ""; STACK_POP r2` (contiguous
in code memory below the wrap point), in-range registers r and r2 (equal or
not), a data stack that is not full, and a state that satisfies the allocator
invariant and in which r and r2 hold no stale string pointer and do not share a
buffer, the sequence returns with register r2 tagged Str, holding in a live
buffer the bytes of `str` before its first zero byte, hence `str` itself when
it has none, whatever r2 held before, with SP equal to its value before the
sequence and nothing reported. -/
theorem stack_round_trip_c_string (K : Params) (s : svm) (r r2 lo hi : Nat) (str : List Nat)
    (h1 : s.code (s.ip + 1) = r) (h2 : s.code (s.ip + 2) = lo) (h3 : s.code (s.ip + 3) = hi)
    (hstr : code_bytes s.code (s.ip + 4) (lo + 256 * hi) = str)
    (h4 : s.code (s.ip + 4 + (lo + 256 * hi) + 1) = r)
    (h5 : s.code (s.ip + 4 + (lo + 256 * hi) + 3) = r)
    (h6 : s.code (s.ip + 4 + (lo + 256 * hi) + 4) = 0)
    (h7 : s.code (s.ip + 4 + (lo + 256 * hi) + 5) = 0)
    (h8 : s.code (s.ip + 4 + (lo + 256 * hi) + 7) = r2)
    (hfit : s.ip + 4 + (lo + 256 * hi) + 8 ≤ 0xFFFF)
    (hr : r < K.REGISTER_COUNT) (hr2 : r2 < K.REGISTER_COUNT)
    (hsp0 : 0 ≤ s.SP) (hsp1 : s.SP + 1 < K.STACK_SIZE)
    (halloc : allocator_ok s) (hc : clearable s r) (hc2 : clearable s r2)
    (hna : no_alias s r r2) :
    ∃ s', stack_round_trip K s = .ok () s' ∧
      (s'.registers r2).type = .STRING ∧ (s'.registers r2).content ≠ 0 ∧
      s'.heap (s'.registers r2).content = some (c_str str ++ [0]) ∧
      string_content s' r2 = c_str str ∧
      (0 ∉ str → string_content s' r2 = str) ∧
      s'.SP = s.SP ∧ s'.errors = s.errors ∧
      s'.ip = s.ip + 4 + (lo + 256 * hi) + 8 := by
  have hbrk : 0 < s.brk := halloc.1
  have hfresh : s.heap s.brk = none := halloc.2 _ (le_refl _)
  -- first STRING_STORE
  have run1 := op_string_store_run K s (by rw [h1]; exact hr)
    (by rw [h2, h3]; exact (by omega : s.ip + 4 + (lo + 256 * hi) ≤ 0xFFFF))
    (by rw [h1]; exact hc)
  rw [h1, h2, h3, show BYTES_TO_ADDR lo hi = lo + 256 * hi from rfl, hstr] at run1
  obtain ⟨s1, e1, ip1, code1, regs1, heap1, brk1, sp1, stack1, err1⟩ :
      ∃ s1, op_string_store K s = .ok () s1 ∧ s1.ip = s.ip + 4 + (lo + 256 * hi) ∧
        s1.code = s.code ∧ s1.registers = update s.registers r ⟨.STRING, s.brk⟩ ∧
        s1.heap = released s.registers (update s.heap s.brk (some (str ++ [0]))) r ∧
        s1.brk = s.brk + 1 ∧ s1.SP = s.SP ∧ s1.stack = s.stack ∧ s1.errors = s.errors :=
    ⟨_, run1, rfl, rfl, rfl, rfl, rfl, rfl, rfl, rfl⟩
  have old_ne : (s.registers r).type = .STRING ∧ (s.registers r).content ≠ 0 →
      (s.registers r).content < s.brk := fun hs =>
    live_below_brk s _ halloc (hc hs.1 hs.2)
  have heap1_new : s1.heap s.brk = some (str ++ [0]) := by
    rw [heap1]
    unfold released
    split
    · rename_i hs
      have := old_ne hs
      rw [update_other _ _ _ _ (by omega)]
      simp
    · simp
  have r1 : s1.registers r = ⟨.STRING, s.brk⟩ := by rw [regs1]; simp
  -- STACK_PUSH
  have run2 := op_stack_push_string K s1 (by rw [ip1]; omega)
    (by rw [ip1, code1, h4]; exact hr) (by rw [ip1, code1, h4, r1])
    (by
      rw [ip1, code1, h4]
      intro _
      rw [r1]
      exact ⟨by simp; omega, str ++ [0], heap1_new, by simp⟩)
    (by rw [sp1]; omega) (by rw [sp1]; exact hsp1)
  have sc1 : string_content s1 r = c_str str := by
    simp [string_content, r1, heap1_new, c_str_append_zero]
  rw [ip1, code1, h4, sc1, brk1, sp1, stack1] at run2
  obtain ⟨s2, e2, ip2, code2, regs2, heap2, brk2, sp2, stack2, err2⟩ :
      ∃ s2, op_stack_push K s1 = .ok () s2 ∧ s2.ip = s.ip + 4 + (lo + 256 * hi) + 2 ∧
        s2.code = s.code ∧ s2.registers = s1.registers ∧
        s2.heap = update s1.heap (s.brk + 1) (some (c_str str ++ [0])) ∧
        s2.brk = s.brk + 1 + 1 ∧ s2.SP = s.SP + 1 ∧
        s2.stack = update s.stack (s.SP + 1) ⟨.STRING, s.brk + 1⟩ ∧ s2.errors = s.errors :=
    ⟨_, run2, rfl, rfl, rfl, rfl, rfl, rfl, rfl, err1⟩
  have r2a : s2.registers r = ⟨.STRING, s.brk⟩ := by rw [regs2, r1]
  have heap2_old : s2.heap s.brk = some (str ++ [0]) := by
    rw [heap2, update_other _ _ _ _ (by omega), heap1_new]
  -- second STRING_STORE
  have c3 : s2.code (s2.ip + 1) = r := by rw [ip2, code2, ← h5]
  have c4 : s2.code (s2.ip + 2) = 0 := by rw [ip2, code2, ← h6]
  have c5 : s2.code (s2.ip + 3) = 0 := by rw [ip2, code2, ← h7]
  have run3 := op_string_store_run K s2 (by rw [c3]; exact hr)
    (by rw [c4, c5, ip2]; simp [BYTES_TO_ADDR]; omega)
    (by
      rw [c3]
      intro _ _
      rw [r2a]
      simp [heap2_old])
  rw [c3, c4, c5, show BYTES_TO_ADDR 0 0 = 0 from rfl, ip2, brk2, regs2,
    show code_bytes s2.code (s.ip + 4 + (lo + 256 * hi) + 2 + 4) 0 = [] from rfl] at run3
  obtain ⟨s3, e3, ip3, code3, regs3, heap3, sp3, stack3, err3⟩ :
      ∃ s3, op_string_store K s2 = .ok () s3 ∧ s3.ip = s.ip + 4 + (lo + 256 * hi) + 2 + 4 + 0 ∧
        s3.code = s.code ∧ s3.registers = update s1.registers r ⟨.STRING, s.brk + 1 + 1⟩ ∧
        s3.heap = released s1.registers
          (update s2.heap (s.brk + 1 + 1) (some ([] ++ [0]))) r ∧
        s3.SP = s.SP + 1 ∧
        s3.stack = update s.stack (s.SP + 1) ⟨.STRING, s.brk + 1⟩ ∧ s3.errors = s.errors :=
    ⟨_, run3, rfl, code2, rfl, rfl, sp2, stack2, err2⟩
  have heap3_at : ∀ p, p ≠ s.brk → p ≠ s.brk + 1 + 1 → s3.heap p = s2.heap p := by
    intro p hp1 hp2
    rw [heap3, released_other _ _ _ _ (by rw [r1]; exact hp1), update_other _ _ _ _ hp2]
  have heap3_new : s3.heap (s.brk + 1 + 1) = some [0] := by
    rw [heap3, released_other _ _ _ _ (by rw [r1]; show s.brk + 1 + 1 ≠ s.brk; omega)]
    simp
  have heap2_copy : s2.heap (s.brk + 1) = some (c_str str ++ [0]) := by
    rw [heap2]; simp
  have heap3_copy : s3.heap (s.brk + 1) = some (c_str str ++ [0]) := by
    rw [heap3_at _ (by omega) (by omega), heap2_copy]
  -- what register r2 holds before the pop, if it is a string, is live and old or the new ""
  have r2cases : (s3.registers r2).type = .STRING → (s3.registers r2).content ≠ 0 →
      s3.heap (s3.registers r2).content ≠ none ∧ (s3.registers r2).content ≠ s.brk + 1 := by
    intro ht hne
    by_cases e : r2 = r
    · subst e
      have : s3.registers r2 = ⟨.STRING, s.brk + 1 + 1⟩ := by rw [regs3]; simp
      rw [this]
      simp only []
      exact ⟨by rw [heap3_new]; simp, by omega⟩
    · have hreg : s3.registers r2 = s.registers r2 := by
        rw [regs3, update_other _ _ _ _ e, regs1, update_other _ _ _ _ e]
      rw [hreg] at ht hne ⊢
      have hlive := hc2 ht hne
      have hlt := live_below_brk s _ halloc hlive
      refine ⟨?_, by omega⟩
      rw [heap3_at _ (by omega) (by omega), heap2, update_other _ _ _ _ (by omega), heap1]
      unfold released
      split
      · rename_i hs
        have hdiff := hna (fun h => e h.symm) hs.1 ht hs.2
        rw [update_other _ _ _ _ (fun h => hdiff h.symm), update_other _ _ _ _ (by omega)]
        exact hlive
      · rw [update_other _ _ _ _ (by omega)]
        exact hlive
  -- STACK_POP
  have c7 : s3.code (s3.ip + 1) = r2 := by rw [ip3, code3, ← h8]
  have run4 := op_stack_pop_run K s3 (by rw [ip3]; omega) (by rw [c7]; exact hr2)
    (by rw [sp3]; omega) (by rw [sp3]; exact hsp1)
    (by rw [c7]; intro ht hne; exact (r2cases ht hne).1)
  rw [c7, sp3, stack3] at run4
  simp only [update_same] at run4
  obtain ⟨s4, e4, regs4, heap4, sp4, err4, ip4⟩ :
      ∃ s4, op_stack_pop K s3 = .ok () s4 ∧
        s4.registers = update s3.registers r2 ⟨.STRING, s.brk + 1⟩ ∧
        s4.heap = released s3.registers s3.heap r2 ∧ s4.SP = s.SP + 1 - 1 ∧
        s4.errors = s.errors ∧ s4.ip = s3.ip + 2 :=
    ⟨_, run4, rfl, rfl, rfl, err3, rfl⟩
  have reg4 : s4.registers r2 = ⟨.STRING, s.brk + 1⟩ := by rw [regs4]; simp
  have hfinal : s4.heap (s.brk + 1) = some (c_str str ++ [0]) := by
    rw [heap4]
    unfold released
    split
    · rename_i hs
      rw [update_other _ _ _ _ (fun h => (r2cases hs.1 hs.2).2 h.symm), heap3_copy]
    · exact heap3_copy
  have hsc : string_content s4 r2 = c_str str := by
    simp [string_content, reg4, hfinal, c_str_append_zero, c_str_idem]
  refine ⟨s4, ?_, by rw [reg4], by rw [reg4]; show s.brk + 1 ≠ 0; omega,
    by rw [reg4]; exact hfinal, hsc, ?_, by rw [sp4]; omega, err4, by rw [ip4, ip3]⟩
  · simp only [stack_round_trip, and_then, bind_run, e1, e2, e3]
    exact e4
  · intro hz
    rw [hsc, c_str_of_no_zero str hz]

/-- The round trip at a concrete input without zero byte: "Hi" stored in
register 0, pushed, register 0 overwritten with "", and popped into register 1,
which held "Z". -/
theorem stack_round_trip_example :
    ∃ s', stack_round_trip sample_params round_trip_example = .ok () s' ∧
      (s'.registers 1).type = .STRING ∧ string_content s' 1 = [72, 105] ∧ s'.SP = 0 := by
  obtain ⟨s', h, ht, _, _, _, hs, hsp, _, _⟩ :=
    stack_round_trip_c_string sample_params round_trip_example 0 1 2 0 [72, 105]
      (by decide) (by decide) (by decide) (by decide) (by decide) (by decide) (by decide)
      (by decide) (by decide) (by decide) (by decide) (by decide) (by decide) (by decide)
      (by
        refine ⟨by decide, fun p hp => ?_⟩
        have : p ≠ 1 := by
          have h2 : round_trip_example.brk = 2 := rfl
          omega
        simp [round_trip_example, this])
      (by simp [clearable, round_trip_example]) (by simp [clearable, round_trip_example])
      (by simp [no_alias, round_trip_example])
  exact ⟨s', h, ht, hs (by decide), hsp⟩

/-! ## C11: the data stack at its bounds -/

/-- C11 fails in the code: with the stack array of 1024 slots and SP = 1023
(inside [0, capacity - 1]), `STACK_PUSH r0` increments SP to 1024 and stores to
`stack[1024]`, outside the array, before the overflow test is reached; nothing
has been reported when the store happens. `STACK_POP r0` with SP = 0 reports,
reads slot 0 and, once the sink has returned, leaves SP = -1. -/
theorem C11_push_writes_outside_stack :
    (0 ≤ full_stack.SP ∧ full_stack.SP ≤ sample_params.STACK_SIZE - 1) ∧
    full_stack.code (nxt full_stack.ip) < sample_params.REGISTER_COUNT ∧
    (op_stack_push sample_params full_stack).returned = false ∧
    (op_stack_push sample_params full_stack).state.SP = sample_params.STACK_SIZE ∧
    (op_stack_push sample_params full_stack).state.errors = [] ∧
    (0 ≤ empty_stack.SP ∧ empty_stack.SP ≤ sample_params.STACK_SIZE - 1) ∧
    (op_stack_pop sample_params empty_stack).returned = true ∧
    (op_stack_pop sample_params empty_stack).state.errors = [.stack_empty] ∧
    (op_stack_pop sample_params empty_stack).state.SP = -1 := by
  decide

/-! ## C12: call and return -/

theorem read_call_stack_in (K : Params) (s : svm) (h0 : 0 ≤ s.CSP)
    (h1 : s.CSP < K.CALL_STACK_SIZE) : read_call_stack K s = .ok (s.call_stack s.CSP) s := by
  simp [read_call_stack, h0, h1]

theorem write_call_stack_in (K : Params) (v : Int) (s : svm) (h0 : 0 ≤ s.CSP)
    (h1 : s.CSP < K.CALL_STACK_SIZE) :
    write_call_stack K v s = .ok () { s with call_stack := update s.call_stack s.CSP v } := by
  simp [write_call_stack, h0, h1]

/-- What `op_stack_call` does below the wrap point with room on the call stack. -/
theorem op_stack_call_run (K : Params) (s : svm) (hip : s.ip + 3 ≤ 0xFFFF)
    (h0 : 0 ≤ s.CSP) (h1 : s.CSP + 1 < K.CALL_STACK_SIZE) :
    op_stack_call K s = .ok ()
      { s with
        ip := BYTES_TO_ADDR (s.code (s.ip + 1)) (s.code (s.ip + 2))
        CSP := s.CSP + 1
        call_stack := update s.call_stack (s.CSP + 1) ((s.ip + 3 : Nat) : Int) } := by
  have e1 : nxt s.ip = s.ip + 1 := nxt_eq _ (by omega)
  have e2 : nxt (s.ip + 1) = s.ip + 2 := nxt_eq _ (by omega)
  have hn : ¬ s.CSP + 1 ≥ K.CALL_STACK_SIZE := by omega
  simp only [op_stack_call, bind_run, next_byte_run, modify_state_run, get_state_run, e1, e2,
    hn, if_false, pure_run]
  rw [write_call_stack_in K _ _ (by show 0 ≤ s.CSP + 1; omega) (by show s.CSP + 1 < _; omega)]

/-- What `op_stack_ret` does with a return address on the call stack. -/
theorem op_stack_ret_run (K : Params) (s : svm) (h0 : 0 < s.CSP)
    (h1 : s.CSP < K.CALL_STACK_SIZE) :
    op_stack_ret K s = .ok ()
      { s with ip := (s.call_stack s.CSP).toNat, CSP := s.CSP - 1 } := by
  have hn : ¬ s.CSP ≤ 0 := by omega
  simp only [op_stack_ret, bind_run, get_state_run, hn, if_false, pure_run]
  rw [read_call_stack_in K s (by omega) h1]
  simp only [modify_state_run]

/-- C12: STACK_CALL at an address p with p + 3 ≤ 0xFFFF, operand bytes lo, hi
and the call stack not full (0 ≤ CSP and CSP + 1 below the number of slots)
returns with IP = lo + 256 * hi, CSP one higher and p + 3 in the slot CSP now
points to; nothing else changes and nothing is reported. STACK_RET, executed in
any later state in which CSP and that slot are as the call left them, returns
with IP = p + 3 and CSP at its value before the call, changing nothing else and
reporting nothing. -/
theorem C12_call_return (K : Params) (s : svm) (lo hi : Nat) (hip : s.ip + 3 ≤ 0xFFFF)
    (hlo : s.code (s.ip + 1) = lo) (hhi : s.code (s.ip + 2) = hi)
    (h0 : 0 ≤ s.CSP) (hroom : s.CSP + 1 < K.CALL_STACK_SIZE) :
    ∃ s1, op_stack_call K s = .ok () s1 ∧
      s1 = { s with
             ip := lo + 256 * hi
             CSP := s.CSP + 1
             call_stack := update s.call_stack (s.CSP + 1) ((s.ip + 3 : Nat) : Int) } ∧
      s1.ip = lo + 256 * hi ∧ s1.CSP = s.CSP + 1 ∧ s1.call_stack s1.CSP = ((s.ip + 3 : Nat) : Int) ∧
      ∀ s2 : svm, s2.CSP = s1.CSP → s2.call_stack s2.CSP = s1.call_stack s1.CSP →
        ∃ s3, op_stack_ret K s2 = .ok () s3 ∧ s3 = { s2 with ip := s.ip + 3, CSP := s.CSP } ∧
          s3.ip = s.ip + 3 ∧ s3.CSP = s.CSP := by
  refine ⟨_, op_stack_call_run K s hip h0 hroom, ?_, ?_, rfl, ?_, ?_⟩
  · simp only [BYTES_TO_ADDR, hlo, hhi]
  · simp only [BYTES_TO_ADDR, hlo, hhi]
  · simp only [update_same]
  · intro s2 hc ht
    simp only [update_same] at hc ht
    have e : op_stack_ret K s2 = _ := op_stack_ret_run K s2 (by omega) (by omega)
    rw [ht, hc] at e
    simp only [Int.toNat_ofNat, add_sub_cancel_right] at e
    exact ⟨_, e, rfl, rfl, rfl⟩

/-- C12 at a concrete call: `STACK_CALL 0x0005` at address 0 of a fresh machine. -/
theorem C12_witness :
    ∃ s1, op_stack_call sample_params call_example = .ok () s1 ∧
      s1 = { call_example with
             ip := 5 + 256 * 0
             CSP := call_example.CSP + 1
             call_stack := update call_example.call_stack (call_example.CSP + 1)
               ((call_example.ip + 3 : Nat) : Int) } ∧
      s1.ip = 5 + 256 * 0 ∧ s1.CSP = call_example.CSP + 1 ∧
      s1.call_stack s1.CSP = ((call_example.ip + 3 : Nat) : Int) ∧
      ∀ s2 : svm, s2.CSP = s1.CSP → s2.call_stack s2.CSP = s1.call_stack s1.CSP →
        ∃ s3, op_stack_ret sample_params s2 = .ok () s3 ∧
          s3 = { s2 with ip := call_example.ip + 3, CSP := call_example.CSP } ∧
          s3.ip = call_example.ip + 3 ∧ s3.CSP = call_example.CSP :=
  C12_call_return sample_params call_example 5 0 (by decide) (by decide) (by decide)
    (by decide) (by decide)

/-! ## C16: the decoder at the end of the address space -/

/-- C16 as stated fails: from IP = 0xFFFE `next_byte` sets IP to 0, not to
0xFFFF = (0xFFFE + 1) mod 0x10000, and returns the byte at address 0 (here 9),
not the byte at address 0xFFFF (here 7). -/
theorem C16_counterexample :
    decoder_at_end.ip = 0xFFFE ∧ decoder_at_end.code 0xFFFF = 7 ∧
    decoder_at_end.code 0 = 9 ∧
    ∃ s1, next_byte decoder_at_end = .ok 9 s1 ∧ s1.ip = 0 ∧
      s1.ip ≠ (decoder_at_end.ip + 1) % 0x10000 :=
  ⟨by decide, by decide, by decide, _, rfl, by decide, by decide⟩

/-- C16 (amended): from every IP value p, `next_byte` moves IP to an address q
and returns the code byte at q, changing nothing else, where q = p + 1 for
p ≤ 0xFFFD and q = 0 for p = 0xFFFE as well as for p = 0xFFFF (and beyond): the
comparison is `ip >= 0xFFFF`, so the decoder wraps one address early and never
reads address 0xFFFF. -/
theorem C16_next_byte (s : svm) :
    ∃ q, next_byte s = .ok (s.code q) { s with ip := q } ∧
      (s.ip ≤ 0xFFFD → q = s.ip + 1) ∧ (0xFFFE ≤ s.ip → q = 0) ∧ q ≤ 0xFFFE := by
  refine ⟨nxt s.ip, rfl, ?_, ?_, ?_⟩ <;> unfold nxt <;> split <;> omega

/-! ## C18: jumps -/

/-- C18: for a jump at an address p with p + 3 ≤ 0xFFFF and operand bytes lo, hi,
JUMP_TO returns with IP = lo + 256 * hi; JUMP_Z returns with IP = lo + 256 * hi
if Z is set (non-zero) and with IP = p + 3 otherwise; JUMP_NZ returns with
IP = p + 3 if Z is set and with IP = lo + 256 * hi otherwise. In each case the
state returned differs from the state entered in IP only, so in every state
exactly one of JUMP_Z and JUMP_NZ takes its branch. -/
theorem C18_jumps (s : svm) (lo hi : Nat) (hip : s.ip + 3 ≤ 0xFFFF)
    (hlo : s.code (s.ip + 1) = lo) (hhi : s.code (s.ip + 2) = hi) :
    op_jump_to s = .ok () { s with ip := lo + 256 * hi } ∧
    op_jump_z s = .ok () { s with ip := if s.jmp ≠ 0 then lo + 256 * hi else s.ip + 3 } ∧
    op_jump_nz s = .ok () { s with ip := if s.jmp ≠ 0 then s.ip + 3 else lo + 256 * hi } := by
  have e1 : nxt s.ip = s.ip + 1 := nxt_eq _ (by omega)
  have e2 : nxt (s.ip + 1) = s.ip + 2 := nxt_eq _ (by omega)
  refine ⟨?_, ?_, ?_⟩
  · simp only [op_jump_to, bind_run, next_byte_run, modify_state_run, e1, e2, BYTES_TO_ADDR,
      hlo, hhi]
  · by_cases hz : s.jmp = 0 <;>
      simp [op_jump_z, e1, e2, BYTES_TO_ADDR, hlo, hhi, hz]
  · by_cases hz : s.jmp = 0 <;>
      simp [op_jump_nz, e1, e2, BYTES_TO_ADDR, hlo, hhi, hz]

/-- C18 at a concrete jump: operand bytes 0x34, 0x12 at address 0 with Z set. -/
theorem C18_witness :
    op_jump_to jump_example = .ok () { jump_example with ip := 0x34 + 256 * 0x12 } ∧
    op_jump_z jump_example = .ok ()
      { jump_example with ip := if jump_example.jmp ≠ 0 then 0x34 + 256 * 0x12
                                else jump_example.ip + 3 } ∧
    op_jump_nz jump_example = .ok ()
      { jump_example with ip := if jump_example.jmp ≠ 0 then jump_example.ip + 3
                                else 0x34 + 256 * 0x12 } :=
  C18_jumps jump_example 0x34 0x12 (by decide) (by decide) (by decide)

/-! ## C19: the unknown-opcode handler and the dispatch table -/

/-- An entry of a table after a list of assignments: either no assignment names
the index and the entry is as before, or it holds a handler the list assigns to
that index. -/
theorem table_entry (l : List (Nat × handler)) (t : Nat → Option handler) (i : Nat) :
    (l.foldl (fun table a => update table a.1 (some a.2)) t i = t i ∧ ∀ a ∈ l, a.1 ≠ i) ∨
    ∃ h, l.foldl (fun table a => update table a.1 (some a.2)) t i = some h ∧ (i, h) ∈ l := by
  induction l generalizing t with
  | nil => left; exact ⟨rfl, by simp⟩
  | cons a l ih =>
    rcases ih (update t a.1 (some a.2)) with ⟨e, hne⟩ | ⟨h, e, hm⟩
    · by_cases ha : a.1 = i
      · right
        refine ⟨a.2, ?_, ?_⟩
        · rw [List.foldl_cons, e, ← ha, update_same]
        · rw [← ha]; exact List.mem_cons_self _ _
      · left
        refine ⟨?_, ?_⟩
        · rw [List.foldl_cons, e, update_other _ _ _ _ (Ne.symm ha)]
        · intro b hb
          rcases List.mem_cons.1 hb with rfl | hb
          · exact ha
          · exact hne b hb
    · right
      exact ⟨h, by rw [List.foldl_cons, e], List.mem_cons_of_mem _ hm⟩

theorem read_code_in (a : Nat) (s : svm) (h : a ≤ 0xFFFF) :
    read_code (a : Int) s = .ok (s.code a) s := by
  have h1 : (a : Int) ≤ 0xFFFF := by omega
  have h0 : (0 : Int) ≤ (a : Int) := by omega
  simp [read_code, h0, h1]

theorem write_code_in (a : Nat) (v : Int) (s : svm) (h : a ≤ 0xFFFF) :
    write_code (a : Int) v s = .ok () { s with code := update s.code a (v % 256).toNat } := by
  have h1 : (a : Int) ≤ 0xFFFF := by omega
  have h0 : (0 : Int) ≤ (a : Int) := by omega
  simp [write_code, h0, h1]

/-- C19: entered with IP inside the code memory, the unknown-opcode handler
returns a state that differs from the one entered in IP only, which is one
higher (so the error log, the running flag, registers, Z, stacks, code memory
and I/O arrays are as before); and after `opcode_init` each of the 256 table
entries holds a handler, which is the unknown-opcode handler or a handler
assigned to that opcode number, and is the unknown-opcode handler for every
number no assignment names. -/
theorem C19_unknown_opcode (O : Opcodes) (s : svm) (i : Nat) (hip : s.ip ≤ 0xFFFF)
    (hi : i ≤ 255) :
    op_unknown s = .ok () { s with ip := s.ip + 1 } ∧
    (∃ h, opcode_init O i = some h ∧ (h = .op_unknown ∨ (i, h) ∈ assignments O)) ∧
    ((∀ a ∈ assignments O, a.1 ≠ i) → opcode_init O i = some .op_unknown) := by
  refine ⟨?_, ?_, ?_⟩
  · simp only [op_unknown, bind_run, get_state_run]
    rw [read_code_in _ _ hip]
    simp only [ip_incr_run]
  · rcases table_entry (assignments O)
        (fun i => if i ≤ 255 then some handler.op_unknown else none) i with ⟨e, _⟩ | ⟨h, e, hm⟩
    · exact ⟨.op_unknown, by rw [opcode_init, e]; simp [hi], Or.inl rfl⟩
    · exact ⟨h, e, Or.inr hm⟩
  · intro hno
    rcases table_entry (assignments O)
        (fun i => if i ≤ 255 then some handler.op_unknown else none) i with ⟨e, _⟩ | ⟨h, _, hm⟩
    · rw [opcode_init, e]; simp [hi]
    · exact absurd rfl (hno _ hm)

/-- C19 at a concrete point: the fresh machine and opcode byte 200 under the
sample numbering. -/
theorem C19_witness :
    op_unknown (svm_new []) = .ok () { svm_new [] with ip := (svm_new []).ip + 1 } ∧
    (∃ h, opcode_init sample_opcodes 200 = some h ∧
      (h = .op_unknown ∨ (200, h) ∈ assignments sample_opcodes)) ∧
    ((∀ a ∈ assignments sample_opcodes, a.1 ≠ 200) →
      opcode_init sample_opcodes 200 = some .op_unknown) :=
  C19_unknown_opcode sample_opcodes (svm_new []) 200 (by decide) (by decide)

/-! ## C20: POKE then PEEK -/

/-- What `op_poke` does below the wrap point with integer operands and an
address inside the code memory. -/
theorem op_poke_run (K : Params) (s : svm) (v : Int) (a : Nat) (hip : s.ip + 3 ≤ 0xFFFF)
    (hr : s.code (s.ip + 1) < K.REGISTER_COUNT) (hra : s.code (s.ip + 2) < K.REGISTER_COUNT)
    (hv : s.registers (s.code (s.ip + 1)) = ⟨.INTEGER, v⟩)
    (ha : s.registers (s.code (s.ip + 2)) = ⟨.INTEGER, (a : Int)⟩) (hrange : a ≤ 0xFFFF) :
    op_poke K s = .ok ()
      { s with ip := s.ip + 3, code := update s.code a (v % 256).toNat } := by
  have e1 : nxt s.ip = s.ip + 1 := nxt_eq _ (by omega)
  have e2 : nxt (s.ip + 1) = s.ip + 2 := nxt_eq _ (by omega)
  have hno : ¬ ((a : Int) < 0 ∨ (a : Int) > 0xffff) := by omega
  simp only [op_poke, bind_run, next_byte_run, e1]
  rw [bounds_test_in K _ _ hr]
  simp only [next_byte_run, e2]
  rw [bounds_test_in K _ _ hra]
  simp only []
  rw [get_int_reg_in K _ _ hr]
  simp only [bind_run]
  rw [get_int_reg_in K _ _ hra]
  simp only [int_value, int_reports, hv, ha, if_true, List.append_nil, hno, if_false, pure_run,
    bind_run]
  rw [write_code_in _ _ _ hrange]
  simp only [ip_incr_run]

/-- What `op_peek` does below the wrap point with an integer address inside the
code memory. -/
theorem op_peek_run (K : Params) (s : svm) (a : Nat) (hip : s.ip + 3 ≤ 0xFFFF)
    (hr : s.code (s.ip + 1) < K.REGISTER_COUNT) (hra : s.code (s.ip + 2) < K.REGISTER_COUNT)
    (ha : s.registers (s.code (s.ip + 2)) = ⟨.INTEGER, (a : Int)⟩) (hrange : a ≤ 0xFFFF)
    (hc : clearable s (s.code (s.ip + 1))) :
    op_peek K s = .ok ()
      { s with
        ip := s.ip + 3
        heap := released s.registers s.heap (s.code (s.ip + 1))
        registers := update s.registers (s.code (s.ip + 1)) ⟨.INTEGER, (s.code a : Int)⟩ } := by
  have e1 : nxt s.ip = s.ip + 1 := nxt_eq _ (by omega)
  have e2 : nxt (s.ip + 1) = s.ip + 2 := nxt_eq _ (by omega)
  have hno : ¬ ((a : Int) < 0 ∨ (a : Int) > 0xffff) := by omega
  simp only [op_peek, bind_run, next_byte_run, e1]
  rw [bounds_test_in K _ _ hr]
  simp only [next_byte_run, e2]
  rw [bounds_test_in K _ _ hra]
  simp only []
  rw [get_int_reg_in K _ _ hra]
  simp only [int_value, int_reports, ha, if_true, List.append_nil, hno, if_false, pure_run,
    bind_run]
  rw [read_code_in _ _ hrange]
  simp only []
  rw [clear_string_reg_run K _ _ hr (by simpa [clearable] using hc)]
  simp only []
  rw [write_reg_content_in K _ _ _ hr]
  simp only []
  rw [write_reg_type_in K _ _ _ hr]
  simp [ip_incr_run, update_same]

/-- C20: let POKE valReg, addrReg be followed by PEEK dst, addrReg, both below
the wrap point, with in-range registers, valReg = Integer(v), addrReg =
Integer(a), 0 ≤ a ≤ 0xFFFF, the operand bytes of the PEEK not at address a, and
dst not holding a released buffer. POKE returns with code[a] = v mod 256 (the
low byte of v, in [0, 255] also for negative v), every other code byte and
every register unchanged and IP advanced by 3. PEEK then returns with
dst = Integer(v mod 256), every other register unchanged, code memory as POKE
left it, IP advanced by 3 again and nothing reported. -/
theorem C20_poke_peek (K : Params) (s : svm) (valReg addrReg dst : Nat) (v : Int) (a : Nat)
    (hip : s.ip + 6 ≤ 0xFFFF)
    (h1 : s.code (s.ip + 1) = valReg) (h2 : s.code (s.ip + 2) = addrReg)
    (h4 : s.code (s.ip + 4) = dst) (h5 : s.code (s.ip + 5) = addrReg)
    (hvr : valReg < K.REGISTER_COUNT) (har : addrReg < K.REGISTER_COUNT)
    (hdr : dst < K.REGISTER_COUNT)
    (hv : s.registers valReg = ⟨.INTEGER, v⟩)
    (ha : s.registers addrReg = ⟨.INTEGER, (a : Int)⟩)
    (hrange : a ≤ 0xFFFF) (hn4 : a ≠ s.ip + 4) (hn5 : a ≠ s.ip + 5)
    (hc : clearable s dst) :
    ∃ s1, op_poke K s = .ok () s1 ∧
      s1 = { s with ip := s.ip + 3, code := update s.code a (v % 256).toNat } ∧
      (s1.code a : Int) = v % 256 ∧ (∀ b, b ≠ a → s1.code b = s.code b) ∧
      s1.registers = s.registers ∧
      ∃ s2, op_peek K s1 = .ok () s2 ∧
        s2.registers dst = ⟨.INTEGER, v % 256⟩ ∧ 0 ≤ v % 256 ∧ v % 256 ≤ 255 ∧
        (∀ r, r ≠ dst → s2.registers r = s.registers r) ∧
        s2.code = s1.code ∧ s2.ip = s.ip + 6 ∧ s2.errors = s.errors := by
  have hpos : 0 ≤ v % 256 := Int.emod_nonneg _ (by decide)
  have hlt : v % 256 < 256 := Int.emod_lt_of_pos _ (by decide)
  have hbyte : ((v % 256).toNat : Int) = v % 256 := Int.toNat_of_nonneg hpos
  obtain ⟨s1, e1, run1⟩ : ∃ s1,
      s1 = ({ s with ip := s.ip + 3, code := update s.code a (v % 256).toNat } : svm) ∧
      op_poke K s = .ok () s1 :=
    ⟨_, rfl, op_poke_run K s v a (by omega) (by rw [h1]; exact hvr) (by rw [h2]; exact har)
      (by rw [h1]; exact hv) (by rw [h2]; exact ha) hrange⟩
  have ip1 : s1.ip = s.ip + 3 := by rw [e1]
  have reg1 : s1.registers = s.registers := by rw [e1]
  have heap1 : s1.heap = s.heap := by rw [e1]
  have err1 : s1.errors = s.errors := by rw [e1]
  have code1 : s1.code = update s.code a (v % 256).toNat := by rw [e1]
  have c4 : s1.code (s1.ip + 1) = dst := by
    rw [code1, ip1, update_other _ _ _ _ (by omega)]; exact h4
  have c5 : s1.code (s1.ip + 2) = addrReg := by
    rw [code1, ip1, update_other _ _ _ _ (by omega)]; exact h5
  have run2 := op_peek_run K s1 a (by omega) (by rw [c4]; exact hdr) (by rw [c5]; exact har)
    (by rw [c5, reg1]; exact ha) hrange
    (by rw [c4]; simpa [clearable, reg1, heap1] using hc)
  rw [c4] at run2
  refine ⟨s1, run1, e1, ?_, ?_, reg1, _, run2, ?_, hpos, by omega, ?_, rfl, ?_, err1⟩
  · rw [code1, update_same]; exact hbyte
  · intro b hb; rw [code1, update_other _ _ _ _ hb]
  · show update s1.registers dst _ dst = _
    rw [update_same, code1, update_same, hbyte]
  · intro r hr
    show update s1.registers dst _ r = _
    rw [update_other _ _ _ _ hr, reg1]
  · show s1.ip + 3 = _
    omega

/-- C20 at a concrete point: `POKE r1, r2; PEEK r3, r2` at address 0 with
r1 = Integer(-1) and r2 = Integer(0x1234) stores 255 and reads it back. -/
theorem C20_witness :
    ∃ s1, op_poke sample_params poke_example = .ok () s1 ∧ s1.code 0x1234 = 255 ∧
      ∃ s2, op_peek sample_params s1 = .ok () s2 ∧ s2.registers 3 = ⟨.INTEGER, 255⟩ := by
  obtain ⟨s1, r1, _, c, _, _, s2, r2, g, _⟩ :=
    C20_poke_peek sample_params poke_example 1 2 3 (-1) 0x1234 (by decide) (by decide)
      (by decide) (by decide) (by decide) (by decide) (by decide) (by decide) (by decide)
      (by decide) (by decide) (by decide) (by decide) (by simp [clearable, poke_example, update, svm_new])
  have e : (-1 : Int) % 256 = 255 := by decide
  rw [e] at c g
  exact ⟨s1, r1, by exact_mod_cast c, s2, r2, g⟩

/-! ## C15: the addresses MEMCPY uses -/

/-- With enough fuel the subtraction loop computes the remainder modulo 0xFFFF. -/
theorem wrap_around_eq (fuel x : Nat) (h : x ≤ fuel) :
    wrap_around fuel (x : Int) = ((x % 0xFFFF : Nat) : Int) := by
  induction fuel generalizing x with
  | zero =>
    have : x = 0 := by omega
    subst this
    rfl
  | succ fuel ih =>
    unfold wrap_around
    by_cases hx : (x : Int) ≥ 0xFFFF
    · have e : (x : Int) - 0xFFFF = ((x - 0xFFFF : Nat) : Int) := by omega
      have hm : (x - 0xFFFF) % 0xFFFF = x % 0xFFFF := by omega
      rw [if_pos hx, e, ih _ (by omega), hm]
    · have hm : x % 0xFFFF = x := by omega
      rw [if_neg hx, hm]

/-- The copy loop of `op_memcpy` makes the assignments of `copy_modulo` with
modulus 0xFFFF, as long as no index overflows an `int`. -/
theorem memcpy_loop_run (src dest : Nat) (n i : Nat) (s : svm)
    (hs : src + i + n ≤ 2147483648) (hd : dest + i + n ≤ 2147483648) :
    memcpy_loop (src : Int) (dest : Int) n (i : Int) s =
      .ok () { s with code := copy_modulo 0xFFFF src dest n i s.code } := by
  induction n generalizing i s with
  | zero => rfl
  | succ n ih =>
    have hno : ¬ ((src : Int) + (i : Int) > 2147483647 ∨ (dest : Int) + (i : Int) > 2147483647) := by
      omega
    have es : (src : Int) + (i : Int) = ((src + i : Nat) : Int) := by push_cast; rfl
    have ed : (dest : Int) + (i : Int) = ((dest + i : Nat) : Int) := by push_cast; rfl
    have ei : (i : Int) + 1 = ((i + 1 : Nat) : Int) := by push_cast; rfl
    unfold memcpy_loop
    rw [if_neg hno]
    simp only [bind_run, modify_state_run]
    rw [es, ed, ei, Int.toNat_ofNat, Int.toNat_ofNat, wrap_around_eq _ _ (le_refl _),
      wrap_around_eq _ _ (le_refl _), Int.toNat_ofNat, Int.toNat_ofNat,
      ih (i + 1) _ (by omega) (by omega)]
    rfl

/-- What `op_memcpy` does below the wrap point of the decoder with in-range
integer operands that are not negative. -/
theorem op_memcpy_run (K : Params) (s : svm) (src dest size : Nat)
    (hip : s.ip + 4 ≤ 0xFFFF)
    (hrd : s.code (s.ip + 1) < K.REGISTER_COUNT) (hrs : s.code (s.ip + 2) < K.REGISTER_COUNT)
    (hrn : s.code (s.ip + 3) < K.REGISTER_COUNT)
    (hd : s.registers (s.code (s.ip + 1)) = ⟨.INTEGER, (dest : Int)⟩)
    (hs : s.registers (s.code (s.ip + 2)) = ⟨.INTEGER, (src : Int)⟩)
    (hn : s.registers (s.code (s.ip + 3)) = ⟨.INTEGER, (size : Int)⟩)
    (hos : src + size ≤ 2147483648) (hod : dest + size ≤ 2147483648) :
    op_memcpy K s = .ok ()
      { s with ip := s.ip + 4, code := copy_modulo 0xFFFF src dest size 0 s.code } := by
  have e1 : nxt s.ip = s.ip + 1 := nxt_eq _ (by omega)
  have e2 : nxt (s.ip + 1) = s.ip + 2 := nxt_eq _ (by omega)
  have e3 : nxt (s.ip + 2) = s.ip + 3 := nxt_eq _ (by omega)
  have hno : ¬ ((src : Int) < 0 ∨ (dest : Int) < 0) := by omega
  simp only [op_memcpy, bind_run, next_byte_run, e1]
  rw [bounds_test_in K _ _ hrd]
  simp only [next_byte_run, e2]
  rw [bounds_test_in K _ _ hrs]
  simp only [next_byte_run, e3]
  rw [bounds_test_in K _ _ hrn]
  simp only []
  rw [get_int_reg_in K _ _ hrs]
  simp only [bind_run]
  rw [get_int_reg_in K _ _ hrd]
  simp only [bind_run]
  rw [get_int_reg_in K _ _ hrn]
  simp only [int_value, int_reports, hd, hs, hn, if_true, List.append_nil, hno, if_false,
    bind_run, Int.toNat_ofNat]
  have run := memcpy_loop_run src dest size 0
    { s with ip := s.ip + 3 } (by omega) (by omega)
  simp only [Nat.cast_zero] at run
  rw [run]
  simp only [ip_incr_run]

/-- A byte that is no destination of the copy keeps its value. -/
theorem copy_modulo_untouched (m src dest n i0 : Nat) (code : Nat → Nat) (x : Nat)
    (hx : ∀ i, i0 ≤ i → i < i0 + n → x ≠ (dest + i) % m) :
    copy_modulo m src dest n i0 code x = code x := by
  induction n generalizing i0 code with
  | zero => rfl
  | succ n ih =>
    unfold copy_modulo
    rw [ih (i0 + 1) _ (fun i h1 h2 => hx i (by omega) (by omega)),
      update_other _ _ _ _ (hx i0 (le_refl _) (by omega))]

/-- When no destination address is hit twice and no source address is a
destination, each destination byte ends up with the original source byte. -/
theorem copy_modulo_disjoint (m src dest n i0 : Nat) (code : Nat → Nat)
    (hinj : ∀ i j, i0 ≤ i → i < j → j < i0 + n → (dest + i) % m ≠ (dest + j) % m)
    (hdisj : ∀ i j, i0 ≤ i → i < i0 + n → i0 ≤ j → j < i0 + n →
      (src + i) % m ≠ (dest + j) % m)
    (i : Nat) (h0 : i0 ≤ i) (h1 : i < i0 + n) :
    copy_modulo m src dest n i0 code ((dest + i) % m) = code ((src + i) % m) := by
  induction n generalizing i0 code with
  | zero => omega
  | succ n ih =>
    unfold copy_modulo
    by_cases hi : i = i0
    · subst hi
      rw [copy_modulo_untouched _ _ _ _ _ _ _
        (fun j h1 h2 => hinj i j (le_refl _) (by omega) (by omega)), update_same]
    · rw [ih (i0 + 1) _ (fun a b ha hab hb => hinj a b (by omega) hab (by omega))
        (fun a b ha1 ha2 hb1 hb2 => hdisj a b (by omega) (by omega) (by omega) (by omega))
        (by omega) (by omega),
        update_other _ _ _ _ (hdisj i i0 h0 h1 (le_refl _) (by omega))]

/-- C15 as stated fails: with src = 0xFFF0, dest = 0x100 and size = 0x20 the
16th byte copied (i = 15, stored at 0x10F) is the byte at address 0, not the one
at (0xFFF0 + 15) mod 0x10000 = 0xFFFF, and the 17th (i = 16, stored at 0x110) is
the byte at address 1, not the one at address 0. -/
theorem C15_counterexample :
    memcpy_at_end.code 0xFFFF = 9 ∧ memcpy_at_end.code 0 = 40 ∧ memcpy_at_end.code 1 = 3 ∧
    (0xFFF0 + 15) % 0x10000 = 0xFFFF ∧ (0xFFF0 + 16) % 0x10000 = 0 ∧
    (op_memcpy sample_params memcpy_at_end).returned = true ∧
    (op_memcpy sample_params memcpy_at_end).state.code (0x100 + 15) = 40 ∧
    (op_memcpy sample_params memcpy_at_end).state.code (0x100 + 15) ≠ memcpy_at_end.code 0xFFFF ∧
    (op_memcpy sample_params memcpy_at_end).state.code (0x100 + 16) = 3 ∧
    (op_memcpy sample_params memcpy_at_end).state.code (0x100 + 16) ≠ memcpy_at_end.code 0 := by
  decide!


/-- C15 (amended): for MEMCPY below the wrap point of the decoder, with in-range
registers holding integers dest, src and size that are not negative (and with
src + size and dest + size within the range of an `int`), the handler returns
after making, for i = 0, 1, ..., size - 1 in this order, the assignment
`code[(dest + i) mod 0xFFFF] = code[(src + i) mod 0xFFFF]`: the modulus is
0xFFFF, not 0x10000, so the byte at address 0xFFFF is neither read nor written.
Registers, stacks and the error log are unchanged and IP has advanced by 4. -/
theorem C15_memcpy_addresses (K : Params) (s : svm) (dest_reg src_reg size_reg : Nat)
    (src dest size : Nat) (hip : s.ip + 4 ≤ 0xFFFF)
    (h1 : s.code (s.ip + 1) = dest_reg) (h2 : s.code (s.ip + 2) = src_reg)
    (h3 : s.code (s.ip + 3) = size_reg)
    (hrd : dest_reg < K.REGISTER_COUNT) (hrs : src_reg < K.REGISTER_COUNT)
    (hrn : size_reg < K.REGISTER_COUNT)
    (hd : s.registers dest_reg = ⟨.INTEGER, (dest : Int)⟩)
    (hs : s.registers src_reg = ⟨.INTEGER, (src : Int)⟩)
    (hn : s.registers size_reg = ⟨.INTEGER, (size : Int)⟩)
    (hos : src + size ≤ 2147483648) (hod : dest + size ≤ 2147483648) :
    op_memcpy K s = .ok ()
      { s with ip := s.ip + 4, code := copy_modulo 0xFFFF src dest size 0 s.code } ∧
    copy_modulo 0xFFFF src dest size 0 s.code 0xFFFF = s.code 0xFFFF := by
  refine ⟨op_memcpy_run K s src dest size hip (by rw [h1]; exact hrd) (by rw [h2]; exact hrs)
    (by rw [h3]; exact hrn) (by rw [h1]; exact hd) (by rw [h2]; exact hs)
    (by rw [h3]; exact hn) hos hod, ?_⟩
  exact copy_modulo_untouched _ _ _ _ _ _ _ (fun i _ _ => by omega)

/-- C15 at a concrete point: `MEMCPY r1, r0, r2` with r0 = 0, r1 = 0x10, r2 = 2. -/
theorem C15_witness :
    op_memcpy sample_params memcpy_round_trip = .ok ()
      { memcpy_round_trip with
        ip := memcpy_round_trip.ip + 4
        code := copy_modulo 0xFFFF 0 0x10 2 0 memcpy_round_trip.code } ∧
    copy_modulo 0xFFFF 0 0x10 2 0 memcpy_round_trip.code 0xFFFF = memcpy_round_trip.code 0xFFFF :=
  C15_memcpy_addresses sample_params memcpy_round_trip 1 0 2 0 0x10 2 (by decide) (by decide)
    (by decide) (by decide) (by decide) (by decide) (by decide) (by decide) (by decide)
    (by decide) (by decide) (by decide)


/-! ## C14: copying there and back -/

/-- C14 as stated fails: with a = 0, b = 0xFFFE and n = 2 the ranges {0, 1} and
{0xFFFE, 0xFFFF} are disjoint modulo 0x10000, but the second byte of the first
copy is stored at address 0 (0xFFFF is reduced to 0), and after the copy back
the byte at address 1 is the original byte of address 0 (11), not its own
original value (22). -/
theorem C14_counterexample :
    memcpy_there_and_back.code 0 = 11 ∧ memcpy_there_and_back.code 1 = 22 ∧
    (∀ i j, i < 2 → j < 2 → (0 + i) % 0x10000 ≠ (0xFFFE + j) % 0x10000) ∧
    (and_then (op_memcpy sample_params) (op_memcpy sample_params)
      memcpy_there_and_back).returned = true ∧
    (and_then (op_memcpy sample_params) (op_memcpy sample_params)
      memcpy_there_and_back).state.code 1 = 11 ∧
    (and_then (op_memcpy sample_params) (op_memcpy sample_params)
      memcpy_there_and_back).state.code 1 ≠ memcpy_there_and_back.code 1 :=
  ⟨by decide, by decide, by intro i j hi hj; omega, by decide!, by decide!, by decide!⟩


/-- C14 (amended): let `MEMCPY rb, ra, rn` be followed by `MEMCPY ra, rb, rn`,
both below the wrap point of the decoder, with in-range registers ra, rb, rn
holding integers a, b, n that are not negative, n ≤ 0xFFFF, such that the
addresses the loop uses, (a + i) mod 0xFFFF and (b + j) mod 0xFFFF for
i, j < n, are disjoint, and the operand bytes of the second instruction are
none of the latter. Then both handlers return, the first leaves the byte of
address (a + i) mod 0xFFFF at address (b + i) mod 0xFFFF, and after the second
every byte at an address (a + i) mod 0xFFFF, i < n, has its value from before
the first copy; in particular every byte of [a, a + n) when a + n ≤ 0xFFFF. -/
theorem C14_memcpy_round_trip (K : Params) (s : svm) (ra rb rn a b n : Nat)
    (hip : s.ip + 8 ≤ 0xFFFF)
    (c1 : s.code (s.ip + 1) = rb) (c2 : s.code (s.ip + 2) = ra) (c3 : s.code (s.ip + 3) = rn)
    (c5 : s.code (s.ip + 5) = ra) (c6 : s.code (s.ip + 6) = rb) (c7 : s.code (s.ip + 7) = rn)
    (hra : ra < K.REGISTER_COUNT) (hrb : rb < K.REGISTER_COUNT) (hrn : rn < K.REGISTER_COUNT)
    (ha : s.registers ra = ⟨.INTEGER, (a : Int)⟩) (hb : s.registers rb = ⟨.INTEGER, (b : Int)⟩)
    (hn : s.registers rn = ⟨.INTEGER, (n : Int)⟩)
    (hsize : n ≤ 0xFFFF) (hoa : a + n ≤ 2147483648) (hob : b + n ≤ 2147483648)
    (hdisj : ∀ i j, i < n → j < n → (a + i) % 0xFFFF ≠ (b + j) % 0xFFFF)
    (hcode : ∀ j, j < n → (b + j) % 0xFFFF ≠ s.ip + 5 ∧ (b + j) % 0xFFFF ≠ s.ip + 6 ∧
      (b + j) % 0xFFFF ≠ s.ip + 7) :
    ∃ s1 s2, op_memcpy K s = .ok () s1 ∧ op_memcpy K s1 = .ok () s2 ∧
      (∀ i, i < n → s1.code ((b + i) % 0xFFFF) = s.code ((a + i) % 0xFFFF)) ∧
      (∀ i, i < n → s2.code ((a + i) % 0xFFFF) = s.code ((a + i) % 0xFFFF)) ∧
      (a + n ≤ 0xFFFF → ∀ i, i < n → s2.code (a + i) = s.code (a + i)) ∧
      s2.registers = s.registers ∧ s2.errors = s.errors ∧ s2.ip = s.ip + 8 := by
  obtain ⟨s1, e1, run1⟩ : ∃ s1,
      s1 = ({ s with ip := s.ip + 4, code := copy_modulo 0xFFFF a b n 0 s.code } : svm) ∧
      op_memcpy K s = .ok () s1 :=
    ⟨_, rfl, op_memcpy_run K s a b n (by omega) (by rw [c1]; exact hrb) (by rw [c2]; exact hra)
      (by rw [c3]; exact hrn) (by rw [c1]; exact hb) (by rw [c2]; exact ha)
      (by rw [c3]; exact hn) hoa hob⟩
  have ip1 : s1.ip = s.ip + 4 := by rw [e1]
  have reg1 : s1.registers = s.registers := by rw [e1]
  have err1 : s1.errors = s.errors := by rw [e1]
  have code1 : s1.code = copy_modulo 0xFFFF a b n 0 s.code := by rw [e1]
  have keep : ∀ x, (∀ j, j < n → (b + j) % 0xFFFF ≠ x) → s1.code x = s.code x := by
    intro x hx
    rw [code1]
    exact copy_modulo_untouched _ _ _ _ _ _ _ (fun j _ hj => Ne.symm (hx j (by omega)))
  have d5 : s1.code (s1.ip + 1) = ra := by
    rw [ip1, keep _ (fun j hj => by have := hcode j hj; omega)]; exact c5
  have d6 : s1.code (s1.ip + 2) = rb := by
    rw [ip1, keep _ (fun j hj => by have := hcode j hj; omega)]; exact c6
  have d7 : s1.code (s1.ip + 3) = rn := by
    rw [ip1, keep _ (fun j hj => by have := hcode j hj; omega)]; exact c7
  have there : ∀ i, i < n → s1.code ((b + i) % 0xFFFF) = s.code ((a + i) % 0xFFFF) := by
    intro i hi
    rw [code1]
    exact copy_modulo_disjoint _ _ _ _ _ _ (fun i j _ hij hj => by omega)
      (fun i j _ hi _ hj => hdisj i j (by omega) (by omega)) i (Nat.zero_le _) (by omega)
  obtain ⟨s2, e2, run2⟩ : ∃ s2,
      s2 = ({ s1 with ip := s1.ip + 4, code := copy_modulo 0xFFFF b a n 0 s1.code } : svm) ∧
      op_memcpy K s1 = .ok () s2 :=
    ⟨_, rfl, op_memcpy_run K s1 b a n (by omega) (by rw [d5]; exact hra) (by rw [d6]; exact hrb)
      (by rw [d7]; exact hrn) (by rw [d5, reg1]; exact ha) (by rw [d6, reg1]; exact hb)
      (by rw [d7, reg1]; exact hn) hob hoa⟩
  have back : ∀ i, i < n → s2.code ((a + i) % 0xFFFF) = s.code ((a + i) % 0xFFFF) := by
    intro i hi
    rw [e2]
    show copy_modulo 0xFFFF b a n 0 s1.code ((a + i) % 0xFFFF) = _
    rw [copy_modulo_disjoint _ _ _ _ _ _ (fun i j _ hij hj => by omega)
      (fun i j _ hi _ hj => Ne.symm (hdisj j i (by omega) (by omega))) i (Nat.zero_le _)
      (by omega)]
    exact there i hi
  refine ⟨s1, s2, run1, run2, there, back, ?_, ?_, ?_, ?_⟩
  · intro hfit i hi
    have := back i hi
    rwa [Nat.mod_eq_of_lt (by omega)] at this
  · rw [e2]; exact reg1
  · rw [e2]; exact err1
  · rw [e2]; show s1.ip + 4 = _; omega


/-- C14 at a concrete point: a = 0, b = 0x10, n = 2 with the two instructions
at address 0x100. -/
theorem C14_witness :
    ∃ s1 s2, op_memcpy sample_params memcpy_round_trip = .ok () s1 ∧
      op_memcpy sample_params s1 = .ok () s2 ∧
      (∀ i, i < 2 → s2.code (0 + i) = memcpy_round_trip.code (0 + i)) := by
  obtain ⟨s1, s2, r1, r2, _, _, h, _⟩ :=
    C14_memcpy_round_trip sample_params memcpy_round_trip 0 1 2 0 0x10 2 (by decide)
      (by decide) (by decide) (by decide) (by decide) (by decide) (by decide) (by decide)
      (by decide) (by decide) (by decide) (by decide) (by decide) (by decide) (by decide)
      (by decide) (by intro i j hi hj; omega)
      (by intro j hj; have e : memcpy_round_trip.ip = 0x100 := rfl; rw [e]; omega)
  exact ⟨s1, s2, r1, r2, h (by decide)⟩

/-! ## C13: integer to string and back -/

theorem decimal_digits_are_digits (fuel n : Nat) :
    ∀ c ∈ decimal_digits fuel n, 48 ≤ c ∧ c ≤ 57 := by
  induction fuel generalizing n with
  | zero => intro c hc; simp [decimal_digits] at hc
  | succ fuel ih =>
    intro c hc
    unfold decimal_digits at hc
    by_cases hn : n < 10
    · rw [if_pos hn, List.mem_singleton] at hc
      omega
    · rw [if_neg hn, List.mem_append, List.mem_singleton] at hc
      rcases hc with hc | hc
      · exact ih _ c hc
      · omega

theorem decimal_digits_length (fuel n j : Nat) (hn : n < 10 ^ (j + 1)) :
    (decimal_digits fuel n).length ≤ j + 1 := by
  induction fuel generalizing n j with
  | zero => simp [decimal_digits]
  | succ fuel ih =>
    unfold decimal_digits
    by_cases h10 : n < 10
    · rw [if_pos h10]; simp
    · rw [if_neg h10, List.length_append, List.length_singleton]
      cases j with
      | zero => simp at hn; omega
      | succ j =>
        have hdiv : n / 10 < 10 ^ (j + 1) := by
          rw [pow_succ] at hn
          exact Nat.div_lt_of_lt_mul (by rw [Nat.mul_comm]; exact hn)
        have := ih (n / 10) j hdiv
        omega

theorem decimal_digits_head (fuel n : Nat) :
    ∃ c t, decimal_digits (fuel + 1) n = c :: t ∧ 48 ≤ c ∧ c ≤ 57 := by
  induction fuel generalizing n with
  | zero =>
    unfold decimal_digits
    by_cases h10 : n < 10
    · exact ⟨48 + n, [], by rw [if_pos h10], by omega, by omega⟩
    · exact ⟨48 + n % 10, [], by rw [if_neg h10]; rfl, by omega, by omega⟩
  | succ fuel ih =>
    unfold decimal_digits
    by_cases h10 : n < 10
    · exact ⟨48 + n, [], by rw [if_pos h10], by omega, by omega⟩
    · obtain ⟨c, t, e, h1, h2⟩ := ih (n / 10)
      exact ⟨c, t ++ [48 + n % 10], by rw [if_neg h10, e]; rfl, h1, h2⟩

/-- The digit loop of `atoi` reads back what `decimal_digits` wrote. -/
theorem atoi_digits_decimal (fuel n : Nat) (hn : n < 10 ^ fuel) :
    ∃ m : Int, ∀ rest acc,
      atoi_digits (decimal_digits fuel n ++ rest) acc = atoi_digits rest (acc * m + (n : Int)) := by
  induction fuel generalizing n with
  | zero =>
    have : n = 0 := by simpa using hn
    subst this
    exact ⟨1, fun rest acc => by simp [decimal_digits]⟩
  | succ fuel ih =>
    unfold decimal_digits
    by_cases h10 : n < 10
    · refine ⟨10, fun rest acc => ?_⟩
      have hd : 48 ≤ 48 + n ∧ 48 + n ≤ 57 := by omega
      rw [if_pos h10, List.singleton_append, atoi_digits, if_pos hd, Nat.add_sub_cancel_left,
        Int.mul_comm]
    · have hdiv : n / 10 < 10 ^ fuel := by
        rw [pow_succ] at hn
        exact Nat.div_lt_of_lt_mul (by rw [Nat.mul_comm]; exact hn)
      obtain ⟨m, hm⟩ := ih (n / 10) hdiv
      refine ⟨m * 10, fun rest acc => ?_⟩
      have hd : 48 ≤ 48 + n % 10 ∧ 48 + n % 10 ≤ 57 := by omega
      have hsplit : (n : Int) = 10 * ((n / 10 : Nat) : Int) + ((n % 10 : Nat) : Int) := by omega
      rw [if_neg h10, List.append_assoc, hm, List.singleton_append, atoi_digits, if_pos hd,
        Nat.add_sub_cancel_left]
      congr 1
      rw [hsplit]
      push_cast
      ring

/-- `atoi` reads back the decimal rendering of a natural number. -/
theorem atoi_decimal (fuel n : Nat) (hn : n < 10 ^ (fuel + 1)) :
    atoi (decimal_digits (fuel + 1) n) = (n : Int) := by
  obtain ⟨c, t, e, h1, h2⟩ := decimal_digits_head fuel n
  obtain ⟨m, hm⟩ := atoi_digits_decimal (fuel + 1) n hn
  have hval := hm [] 0
  rw [List.append_nil, e] at hval
  have hsp : is_space c = false := by
    unfold is_space
    simp only [Bool.or_eq_false_iff, decide_eq_false_iff_not, Bool.and_eq_false_iff]
    omega
  have hdrop : List.dropWhile is_space (c :: t) = c :: t := by
    rw [List.dropWhile_cons, hsp]; rfl
  unfold atoi
  rw [e, hdrop]
  split
  · rename_i heq; injection heq with hc _; omega
  · rename_i heq; injection heq with hc _; omega
  · rw [hval]; simp [atoi_digits]

/-- A text without zero byte, padded with at least one zero, is the C string
of its buffer. -/
theorem c_str_padded (text : List Nat) (m : Nat) (h : 0 ∉ text) :
    c_str (text ++ List.replicate (m + 1) 0) = text := by
  induction text with
  | nil => rw [List.nil_append, List.replicate_succ, c_str_cons, if_pos rfl]
  | cons b t ih =>
    have hb : b ≠ 0 := fun e => h (by simp [e])
    have ht : 0 ∉ t := fun e => h (by simp [e])
    rw [List.cons_append, c_str_cons, if_neg hb, ih ht]

/-- What `op_int_store` does below the wrap point with an in-range register. -/
theorem op_int_store_run (K : Params) (s : svm) (hip : s.ip + 4 ≤ 0xFFFF)
    (hr : s.code (s.ip + 1) < K.REGISTER_COUNT) (hc : clearable s (s.code (s.ip + 1))) :
    op_int_store K s = .ok ()
      { s with
        ip := s.ip + 4
        heap := released s.registers s.heap (s.code (s.ip + 1))
        registers := update s.registers (s.code (s.ip + 1))
          ⟨.INTEGER, wrap32 (BYTES_TO_ADDR (s.code (s.ip + 2)) (s.code (s.ip + 3)))⟩ } := by
  have e1 : nxt s.ip = s.ip + 1 := nxt_eq _ (by omega)
  have e2 : nxt (s.ip + 1) = s.ip + 2 := nxt_eq _ (by omega)
  have e3 : nxt (s.ip + 2) = s.ip + 3 := nxt_eq _ (by omega)
  simp only [op_int_store, bind_run, next_byte_run, e1]
  rw [bounds_test_in K _ _ hr]
  simp only [next_byte_run, e2, e3]
  rw [clear_string_reg_run K _ _ hr (by simpa [clearable] using hc)]
  simp only []
  rw [write_reg_content_in K _ _ _ hr]
  simp only []
  rw [write_reg_type_in K _ _ _ hr]
  simp [ip_incr_run, update_same]

/-- What `op_int_tostring` does below the wrap point on an integer register
whose rendering fits the ten-byte buffer. -/
theorem op_int_tostring_run (K : Params) (s : svm) (x : Int) (hip : s.ip + 2 ≤ 0xFFFF)
    (hr : s.code (s.ip + 1) < K.REGISTER_COUNT)
    (hx : s.registers (s.code (s.ip + 1)) = ⟨.INTEGER, x⟩)
    (hlen : (sprintf_d x).length + 1 ≤ 10) :
    op_int_tostring K s = .ok ()
      { s with
        ip := s.ip + 2
        heap := update s.heap s.brk
          (some (sprintf_d x ++ List.replicate (10 - (sprintf_d x).length) 0))
        brk := s.brk + 1
        registers := update s.registers (s.code (s.ip + 1)) ⟨.STRING, s.brk⟩ } := by
  have e1 : nxt s.ip = s.ip + 1 := nxt_eq _ (by omega)
  have hno : ¬ (sprintf_d x).length + 1 > 10 := by omega
  simp only [op_int_tostring, bind_run, next_byte_run, e1]
  rw [bounds_test_in K _ _ hr]
  simp only []
  rw [get_int_reg_in K _ _ hr]
  simp only [int_value, int_reports, hx, if_true, List.append_nil]
  rw [write_reg_type_in K _ _ _ hr]
  simp only [sprintf_into_ten, hno, if_false, malloc]
  rw [write_reg_content_in K _ _ _ hr]
  simp [ip_incr_run, update_same]

/-- What `op_string_toint` does below the wrap point on a string register
that owns a zero-terminated buffer whose value `atoi` can represent. -/
theorem op_string_toint_run (K : Params) (s : svm) (p : Int) (buf : List Nat)
    (hip : s.ip + 2 ≤ 0xFFFF) (hr : s.code (s.ip + 1) < K.REGISTER_COUNT)
    (hreg : s.registers (s.code (s.ip + 1)) = ⟨.STRING, p⟩) (hp : p ≠ 0)
    (hbuf : s.heap p = some buf) (hz : 0 ∈ buf)
    (h1 : -2147483648 ≤ atoi (c_str buf)) (h2 : atoi (c_str buf) ≤ 2147483647) :
    op_string_toint K s = .ok ()
      { s with
        ip := s.ip + 2
        heap := update s.heap p none
        registers := update s.registers (s.code (s.ip + 1)) ⟨.INTEGER, atoi (c_str buf)⟩ } := by
  have e1 : nxt s.ip = s.ip + 1 := nxt_eq _ (by omega)
  have hno : ¬ (atoi (c_str buf) < -2147483648 ∨ 2147483647 < atoi (c_str buf)) := by omega
  simp only [op_string_toint, bind_run, next_byte_run, e1]
  rw [bounds_test_in K _ _ hr]
  simp only [get_string_reg, bind_run]
  rw [read_reg_in K _ _ hr]
  simp only [hreg, if_true, pure_run, load_string, hp, if_false, hbuf, hz, hno, bind_run]
  rw [read_reg_in K _ _ hr]
  simp only [hreg, free, hp, if_false, hbuf]
  rw [write_reg_type_in K _ _ _ hr]
  simp only []
  rw [write_reg_content_in K _ _ _ hr]
  simp [ip_incr_run, update_same]

/-- C13: for every k in [0, 0xFFFF] and every in-range register r, the sequence
`INT_STORE r, k; INT_TOSTRING r; STRING_TOINT r`, laid out contiguously below
the wrap point of the decoder and entered in a well-formed state (the
allocator's next address is not null; r does not hold an already released
buffer), returns from all three handlers: after INT_STORE r = Integer(k),
after INT_TOSTRING r is a Str whose C string is the decimal rendering of k, and
after STRING_TOINT r = Integer(k) again; no other register changes, nothing is
reported and IP has advanced by 8. -/
theorem C13_int_string_round_trip (K : Params) (s : svm) (r k : Nat)
    (hip : s.ip + 8 ≤ 0xFFFF)
    (c1 : s.code (s.ip + 1) = r) (c2 : s.code (s.ip + 2) = k % 256)
    (c3 : s.code (s.ip + 3) = k / 256)
    (c5 : s.code (s.ip + 5) = r) (c7 : s.code (s.ip + 7) = r)
    (hk : k ≤ 0xFFFF) (hr : r < K.REGISTER_COUNT) (hc : clearable s r)
    (halloc : allocator_ok s) :
    ∃ s1 s2 s3, op_int_store K s = .ok () s1 ∧ op_int_tostring K s1 = .ok () s2 ∧
      op_string_toint K s2 = .ok () s3 ∧
      s1.registers r = ⟨.INTEGER, (k : Int)⟩ ∧
      (s2.registers r).type = .STRING ∧ string_content s2 r = decimal_digits 10 k ∧
      s3.registers r = ⟨.INTEGER, (k : Int)⟩ ∧
      (∀ q, q ≠ r → s3.registers q = s.registers q) ∧
      s3.errors = s.errors ∧ s3.ip = s.ip + 8 := by
  have ek : wrap32 ((BYTES_TO_ADDR (k % 256) (k / 256) : Nat) : Int) = (k : Int) := by
    have : BYTES_TO_ADDR (k % 256) (k / 256) = k := by unfold BYTES_TO_ADDR; omega
    rw [this]
    exact wrap32_id _ (by omega) (by omega)
  have hbrk : s.brk ≠ 0 := by have := halloc.1; omega
  have hsp : sprintf_d (k : Int) = decimal_digits 10 k := by
    unfold sprintf_d
    rw [if_neg (by omega), Int.toNat_ofNat]
  have hlen : (decimal_digits 10 k).length ≤ 5 :=
    decimal_digits_length 10 k 4 (by norm_num; omega)
  have hnz : 0 ∉ decimal_digits 10 k := fun h => by
    have := decimal_digits_are_digits 10 k 0 h
    omega
  have hpad : 10 - (decimal_digits 10 k).length = (9 - (decimal_digits 10 k).length) + 1 := by
    omega
  -- INT_STORE
  obtain ⟨s1, run1, ip1, code1, reg1, brk1, err1⟩ : ∃ s1 : svm,
      op_int_store K s = .ok () s1 ∧ s1.ip = s.ip + 4 ∧ s1.code = s.code ∧
      s1.registers = update s.registers r ⟨.INTEGER, (k : Int)⟩ ∧ s1.brk = s.brk ∧
      s1.errors = s.errors := by
    have run := op_int_store_run K s (by omega) (by rw [c1]; exact hr)
      (by rw [c1]; exact hc)
    rw [c1, c2, c3, ek] at run
    exact ⟨_, run, rfl, rfl, rfl, rfl, rfl⟩
  have d5 : s1.code (s1.ip + 1) = r := by rw [code1, ip1]; exact c5
  have hx1 : s1.registers r = ⟨.INTEGER, (k : Int)⟩ := by rw [reg1, update_same]
  -- INT_TOSTRING
  obtain ⟨s2, run2, ip2, code2, reg2, heap2, err2⟩ : ∃ s2 : svm,
      op_int_tostring K s1 = .ok () s2 ∧ s2.ip = s1.ip + 2 ∧ s2.code = s1.code ∧
      s2.registers = update s1.registers r ⟨.STRING, s1.brk⟩ ∧
      s2.heap = update s1.heap s1.brk (some (decimal_digits 10 k ++
        List.replicate (10 - (decimal_digits 10 k).length) 0)) ∧
      s2.errors = s1.errors := by
    have run := op_int_tostring_run K s1 (k : Int) (by omega) (by rw [d5]; exact hr)
      (by rw [d5]; exact hx1) (by rw [hsp]; omega)
    rw [d5, hsp] at run
    exact ⟨_, run, rfl, rfl, rfl, rfl, rfl⟩
  have d7 : s2.code (s2.ip + 1) = r := by rw [code2, code1, ip2, ip1]; exact c7
  have hx2 : s2.registers r = ⟨.STRING, s1.brk⟩ := by rw [reg2, update_same]
  have hb2 : s2.heap s1.brk = some (decimal_digits 10 k ++
      List.replicate (10 - (decimal_digits 10 k).length) 0) := by rw [heap2, update_same]
  have hstr : c_str (decimal_digits 10 k ++
      List.replicate (10 - (decimal_digits 10 k).length) 0) = decimal_digits 10 k := by
    rw [hpad]; exact c_str_padded _ _ hnz
  have hat : atoi (decimal_digits 10 k) = (k : Int) := atoi_decimal 9 k (by norm_num; omega)
  -- STRING_TOINT
  have run3 := op_string_toint_run K s2 s1.brk _ (by omega) (by rw [d7]; exact hr)
    (by rw [d7]; exact hx2) (by rw [brk1]; exact hbrk) hb2
    (by rw [hpad, List.replicate_succ]; simp)
    (by rw [hstr, hat]; omega) (by rw [hstr, hat]; omega)
  rw [d7, hstr, hat] at run3
  refine ⟨s1, s2, _, run1, run2, run3, hx1, ?_, ?_, ?_, ?_, ?_, ?_⟩
  · rw [hx2]
  · unfold string_content
    rw [hx2]
    show (match s2.heap s1.brk with | some buf => c_str buf | none => []) = _
    rw [hb2]
    exact hstr
  · show update s2.registers r _ r = _
    rw [update_same]
  · intro q hq
    show update s2.registers r _ q = _
    rw [update_other _ _ _ _ hq, reg2, update_other _ _ _ _ hq, reg1, update_other _ _ _ _ hq]
  · show s2.errors = _
    rw [err2, err1]
  · show s2.ip + 2 = _
    omega

/-- C13 at a concrete point: `INT_STORE r1, 0xFFFF; INT_TOSTRING r1;
STRING_TOINT r1` on a fresh machine. -/
theorem C13_witness :
    ∃ s1 s2 s3, op_int_store sample_params int_string_example = .ok () s1 ∧
      op_int_tostring sample_params s1 = .ok () s2 ∧
      op_string_toint sample_params s2 = .ok () s3 ∧
      string_content s2 1 = [54, 53, 53, 51, 53] ∧
      s3.registers 1 = ⟨.INTEGER, 65535⟩ := by
  obtain ⟨s1, s2, s3, r1, r2, r3, _, _, hs, h3, _⟩ :=
    C13_int_string_round_trip sample_params int_string_example 1 0xFFFF (by decide)
      (by decide) (by decide) (by decide) (by decide) (by decide) (by decide) (by decide)
      (by simp [clearable, int_string_example, svm_new])
      (by simp [allocator_ok, int_string_example, svm_new])
  exact ⟨s1, s2, s3, r1, r2, r3, by rw [hs]; decide, h3⟩

/-! ## C17: the range of IP -/

theorem ip_bound_mono {n m k : Nat} {α : Type} {x : VM α} (h : ip_bound n x m) (hk : m ≤ k) :
    ip_bound n x k :=
  ⟨fun s a s1 hs hrun => ⟨(h.out s a s1 hs hrun).1, le_trans (h.out s a s1 hs hrun).2 hk⟩⟩

/-- A computation that leaves IP, the code memory and the call stack as they
are keeps every bound. -/
theorem ip_bound_of_frame {α : Type} (x : VM α) (n : Nat)
    (h : ∀ s a s1, x s = .ok a s1 →
      s1.ip = s.ip ∧ s1.code = s.code ∧ s1.call_stack = s.call_stack) :
    ip_bound n x n := by
  refine ⟨fun s a s1 hs hrun => ?_⟩
  obtain ⟨e1, e2, e3⟩ := h s a s1 hrun
  unfold ip_at_most addresses_ok at *
  rw [e1, e2, e3]
  exact hs

@[instance] theorem ip_bound_bind {n m k : Nat} {α β : Type} (x : VM α) (f : α → VM β)
    [hx : ip_bound n x m] [hf : ∀ a, ip_bound m (f a) k] : ip_bound n (x >>= f) k := by
  refine ⟨fun s b s2 hs hrun => ?_⟩
  rw [bind_run] at hrun
  cases hxs : x s with
  | ok a s1 =>
    rw [hxs] at hrun
    exact (hf a).out s1 b s2 (hx.out s a s1 hs hxs) hrun
  | undef s1 =>
    rw [hxs] at hrun
    cases hrun

@[instance] theorem ip_bound_ite {n m k : Nat} {α : Type} (c : Prop) [Decidable c]
    (x y : VM α) [hx : ip_bound n x m] [hy : ip_bound n y k] :
    ip_bound n (if c then x else y) (max m k) := by
  by_cases hc : c
  · rw [if_pos hc]; exact ip_bound_mono hx (le_max_left _ _)
  · rw [if_neg hc]; exact ip_bound_mono hy (le_max_right _ _)

@[instance] theorem ip_bound_pure {α : Type} (n : Nat) (a : α) :
    ip_bound n (pure a : VM α) n :=
  ip_bound_of_frame _ _ (fun s b s1 h => by cases h; exact ⟨rfl, rfl, rfl⟩)

@[instance] theorem ip_bound_undefined {α : Type} (n : Nat) :
    ip_bound n (undefined_behaviour : VM α) n :=
  ⟨fun s a s1 _ h => by cases h⟩

@[instance] theorem ip_bound_get_state (n : Nat) : ip_bound n get_state n :=
  ip_bound_of_frame _ _ (fun s b s1 h => by cases h; exact ⟨rfl, rfl, rfl⟩)

@[instance] theorem ip_bound_next_byte (n : Nat) : ip_bound n next_byte 0xFFFE := by
  refine ⟨fun s a s1 hs hrun => ?_⟩
  rw [next_byte_run] at hrun
  cases hrun
  refine ⟨hs.1, ?_⟩
  show nxt s.ip ≤ 0xFFFE
  unfold nxt
  split <;> omega

@[instance] theorem ip_bound_ip_incr (n : Nat) : ip_bound n ip_incr (n + 1) := by
  refine ⟨fun s a s1 hs hrun => ?_⟩
  rw [ip_incr_run] at hrun
  cases hrun
  exact ⟨hs.1, Nat.succ_le_succ hs.2⟩

@[instance] theorem ip_bound_error (n : Nat) (m : Msg) :
    ip_bound n (svm_default_error_handler m) n :=
  ip_bound_of_frame _ _ (fun s b s1 h => by cases h; exact ⟨rfl, rfl, rfl⟩)

@[instance] theorem ip_bound_set_jmp (n z : Nat) : ip_bound n (set_jmp z) n :=
  ip_bound_of_frame _ _ (fun s b s1 h => by cases h; exact ⟨rfl, rfl, rfl⟩)

@[instance] theorem ip_bound_malloc (n : Nat) (bytes : List Nat) : ip_bound n (malloc bytes) n :=
  ip_bound_of_frame _ _ (fun s b s1 h => by cases h; exact ⟨rfl, rfl, rfl⟩)

@[instance] theorem ip_bound_free (n : Nat) (p : Int) : ip_bound n (free p) n := by
  refine ip_bound_of_frame _ _ (fun s b s1 h => ?_)
  unfold free at h
  split at h
  · cases h; exact ⟨rfl, rfl, rfl⟩
  · split at h
    · cases h; exact ⟨rfl, rfl, rfl⟩
    · cases h

@[instance] theorem ip_bound_load_string (n : Nat) (p : Int) : ip_bound n (load_string p) n := by
  refine ip_bound_of_frame _ _ (fun s b s1 h => ?_)
  unfold load_string at h
  split at h
  · cases h
  · split at h
    · split at h
      · cases h; exact ⟨rfl, rfl, rfl⟩
      · cases h
    · cases h

@[instance] theorem ip_bound_read_reg (n : Nat) (K : Params) (r : Nat) :
    ip_bound n (read_reg K r) n := by
  refine ip_bound_of_frame _ _ (fun s b s1 h => ?_)
  unfold read_reg at h
  split at h
  · cases h; exact ⟨rfl, rfl, rfl⟩
  · cases h

@[instance] theorem ip_bound_write_reg_type (n : Nat) (K : Params) (r : Nat) (t : reg_type) :
    ip_bound n (write_reg_type K r t) n := by
  refine ip_bound_of_frame _ _ (fun s b s1 h => ?_)
  unfold write_reg_type at h
  split at h
  · cases h; exact ⟨rfl, rfl, rfl⟩
  · cases h

@[instance] theorem ip_bound_write_reg_content (n : Nat) (K : Params) (r : Nat) (v : Int) :
    ip_bound n (write_reg_content K r v) n := by
  refine ip_bound_of_frame _ _ (fun s b s1 h => ?_)
  unfold write_reg_content at h
  split at h
  · cases h; exact ⟨rfl, rfl, rfl⟩
  · cases h

@[instance] theorem ip_bound_write_reg (n : Nat) (K : Params) (r : Nat) (v : reg_t) :
    ip_bound n (write_reg K r v) n := by
  refine ip_bound_of_frame _ _ (fun s b s1 h => ?_)
  unfold write_reg at h
  split at h
  · cases h; exact ⟨rfl, rfl, rfl⟩
  · cases h

@[instance] theorem ip_bound_bound_test (n test count : Nat) :
    ip_bound n (bound_test test count) n := by
  unfold bound_test
  exact ip_bound_mono inferInstance (by simp)

@[instance] theorem ip_bound_bounds_test_register (n : Nat) (K : Params) (r : Nat) :
    ip_bound n (BOUNDS_TEST_REGISTER K r) n := by
  unfold BOUNDS_TEST_REGISTER
  exact ip_bound_mono inferInstance (by simp)

@[instance] theorem ip_bound_get_int_reg (n : Nat) (K : Params) (r : Nat) :
    ip_bound n (get_int_reg K r) n := by
  unfold get_int_reg
  exact ip_bound_mono inferInstance (by simp)

@[instance] theorem ip_bound_clear_string_reg (n : Nat) (K : Params) (r : Nat) :
    ip_bound n (clear_string_reg K r) n := by
  unfold clear_string_reg
  exact ip_bound_mono inferInstance (by simp)

@[instance] theorem ip_bound_get_string_reg (n : Nat) (K : Params) (r : Nat) :
    ip_bound n (get_string_reg K r) n := by
  unfold get_string_reg
  exact ip_bound_mono inferInstance (by simp)

@[instance] theorem ip_bound_get_float_reg (n : Nat) (K : Params) (r : Nat) :
    ip_bound n (get_float_reg K r) n := by
  unfold get_float_reg
  exact ip_bound_mono inferInstance (by simp)

@[instance] theorem ip_bound_strdup (n : Nat) (p : Int) : ip_bound n (strdup p) n := by
  unfold strdup
  exact ip_bound_mono inferInstance (by simp)

@[instance] theorem ip_bound_strcmp_eq (n : Nat) (p q : Int) : ip_bound n (strcmp_eq p q) n := by
  unfold strcmp_eq
  exact ip_bound_mono inferInstance (by simp)

@[instance] theorem ip_bound_either_float (n : Nat) (K : Params) (l r : Nat) :
    ip_bound n (either_float K l r) n := by
  unfold either_float
  exact ip_bound_mono inferInstance (by simp)

@[instance] theorem ip_bound_float_operand (n : Nat) (K : Params) (r : Nat) :
    ip_bound n (float_operand K r) n := by
  unfold float_operand
  exact ip_bound_mono inferInstance (by simp)

@[instance] theorem ip_bound_sprintf_into_ten (n : Nat) (text : List Nat) :
    ip_bound n (sprintf_into_ten text) n := by
  unfold sprintf_into_ten
  exact ip_bound_mono inferInstance (by simp)

@[instance] theorem ip_bound_read_code (n : Nat) (adr : Int) : ip_bound n (read_code adr) n := by
  refine ip_bound_of_frame _ _ (fun s b s1 h => ?_)
  unfold read_code at h
  split at h
  · cases h; exact ⟨rfl, rfl, rfl⟩
  · cases h

@[instance] theorem ip_bound_write_code (n : Nat) (adr v : Int) :
    ip_bound n (write_code adr v) n := by
  refine ⟨fun s a s1 hs hrun => ?_⟩
  unfold write_code at hrun
  split at hrun
  · cases hrun
    refine ⟨⟨fun b => ?_, hs.1.2⟩, hs.2⟩
    show update s.code adr.toNat (v % 256).toNat b < 256
    unfold update
    split
    · have h1 : 0 ≤ v % 256 := Int.emod_nonneg _ (by decide)
      have h2 : v % 256 < 256 := Int.emod_lt_of_pos _ (by decide)
      omega
    · exact hs.1.1 b
  · cases hrun

@[instance] theorem ip_bound_read_stack (n : Nat) (K : Params) : ip_bound n (read_stack K) n := by
  refine ip_bound_of_frame _ _ (fun s b s1 h => ?_)
  unfold read_stack at h
  split at h
  · cases h; exact ⟨rfl, rfl, rfl⟩
  · cases h

@[instance] theorem ip_bound_write_stack (n : Nat) (K : Params) (v : reg_t) :
    ip_bound n (write_stack K v) n := by
  refine ip_bound_of_frame _ _ (fun s b s1 h => ?_)
  unfold write_stack at h
  split at h
  · cases h; exact ⟨rfl, rfl, rfl⟩
  · cases h

@[instance] theorem ip_bound_write_analog_out (n : Nat) (K : Params) (dst : Nat) (x : Int) :
    ip_bound n (write_analog_out K dst x) n := by
  refine ip_bound_of_frame _ _ (fun s b s1 h => ?_)
  unfold write_analog_out at h
  split at h
  · cases h; exact ⟨rfl, rfl, rfl⟩
  · cases h

@[instance] theorem ip_bound_modify_running (n : Nat) (b : Bool) :
    ip_bound n (modify_state fun s => { s with running := b }) n :=
  ip_bound_of_frame _ _ (fun s b s1 h => by cases h; exact ⟨rfl, rfl, rfl⟩)

@[instance] theorem ip_bound_modify_sp_incr (n : Nat) :
    ip_bound n (modify_state fun s => { s with SP := s.SP + 1 }) n :=
  ip_bound_of_frame _ _ (fun s b s1 h => by cases h; exact ⟨rfl, rfl, rfl⟩)

@[instance] theorem ip_bound_modify_sp_decr (n : Nat) :
    ip_bound n (modify_state fun s => { s with SP := s.SP - 1 }) n :=
  ip_bound_of_frame _ _ (fun s b s1 h => by cases h; exact ⟨rfl, rfl, rfl⟩)

@[instance] theorem ip_bound_modify_binary_out (n dst v : Nat) :
    ip_bound n (modify_state fun s => { s with BINARY_OUT := update s.BINARY_OUT dst v }) n :=
  ip_bound_of_frame _ _ (fun s b s1 h => by cases h; exact ⟨rfl, rfl, rfl⟩)

@[instance] theorem ip_bound_modify_variable (n dst : Nat) (r : reg_t) :
    ip_bound n (modify_state fun s => { s with VARIABLE_IO := update s.VARIABLE_IO dst r }) n :=
  ip_bound_of_frame _ _ (fun s b s1 h => by cases h; exact ⟨rfl, rfl, rfl⟩)

@[instance] theorem ip_bound_copy_byte (n dt sc : Nat) :
    ip_bound n (modify_state fun s => { s with code := update s.code dt (s.code sc) }) n := by
  refine ⟨fun s a s1 hs hrun => ?_⟩
  cases hrun
  refine ⟨⟨fun b => ?_, hs.1.2⟩, hs.2⟩
  show update s.code dt (s.code sc) b < 256
  unfold update
  split
  · exact hs.1.1 sc
  · exact hs.1.1 b

@[instance] theorem ip_bound_memcpy_loop (n : Nat) (src dest : Int) (left : Nat) (i : Int) :
    ip_bound n (memcpy_loop src dest left i) n := by
  induction left generalizing i with
  | zero => unfold memcpy_loop; infer_instance
  | succ left ih =>
    unfold memcpy_loop
    haveI := ih
    exact ip_bound_mono inferInstance (by simp)

theorem copy_loop_ip (code : Nat → Nat) (n ip : Nat) (h : ip ≤ 0xFFFF) :
    (copy_loop code n ip).2 ≤ 0xFFFF := by
  induction n generalizing ip with
  | zero => exact h
  | succ n ih =>
    unfold copy_loop
    exact ih _ (by split <;> omega)

@[instance] theorem ip_bound_string_from_stack (n : Nat) :
    ip_bound n string_from_stack 0xFFFE := by
  refine ⟨fun s a s1 hs hrun => ?_⟩
  simp only [string_from_stack, bind_run, next_byte_run, ip_incr_run, get_state_run, malloc,
    modify_state_run, pure_run] at hrun
  cases hrun
  refine ⟨hs.1, ?_⟩
  have h1 : nxt (nxt s.ip) + 1 ≤ 0xFFFF := by unfold nxt; split <;> split <;> omega
  have := copy_loop_ip s.code (BYTES_TO_ADDR (s.code (nxt s.ip)) (s.code (nxt (nxt s.ip))))
    (nxt (nxt s.ip) + 1) h1
  show (copy_loop s.code _ _).2 - 1 ≤ 0xFFFE
  omega

@[instance] theorem ip_bound_reg_add (n : Nat) (K : Params) (out lhs rhs : Nat) :
    ip_bound n (reg_add K out lhs rhs) n := by
  unfold reg_add
  exact ip_bound_mono inferInstance (by simp)

@[instance] theorem ip_bound_reg_and (n : Nat) (K : Params) (out lhs rhs : Nat) :
    ip_bound n (reg_and K out lhs rhs) n := by
  unfold reg_and
  exact ip_bound_mono inferInstance (by simp)

@[instance] theorem ip_bound_reg_sub (n : Nat) (K : Params) (out lhs rhs : Nat) :
    ip_bound n (reg_sub K out lhs rhs) n := by
  unfold reg_sub
  exact ip_bound_mono inferInstance (by simp)

@[instance] theorem ip_bound_reg_mul (n : Nat) (K : Params) (out lhs rhs : Nat) :
    ip_bound n (reg_mul K out lhs rhs) n := by
  unfold reg_mul
  exact ip_bound_mono inferInstance (by simp)

@[instance] theorem ip_bound_reg_xor (n : Nat) (K : Params) (out lhs rhs : Nat) :
    ip_bound n (reg_xor K out lhs rhs) n := by
  unfold reg_xor
  exact ip_bound_mono inferInstance (by simp)

@[instance] theorem ip_bound_reg_or (n : Nat) (K : Params) (out lhs rhs : Nat) :
    ip_bound n (reg_or K out lhs rhs) n := by
  unfold reg_or
  exact ip_bound_mono inferInstance (by simp)

set_option synthInstance.maxSize 4096 in
theorem ip_bound_math_operation (K : Params)
    (operator : Params → Nat → Nat → Nat → VM Unit)
    (h : ∀ n a b c, ip_bound n (operator K a b c) n) :
    ip_bound 0xFFFF (math_operation K operator) 0xFFFF := by
  unfold math_operation
  haveI := h
  exact ip_bound_mono inferInstance (by decide)

set_option synthInstance.maxSize 4096 in
theorem ip_bound_op_int_store (K : Params) : ip_bound 0xFFFF (op_int_store K) 0xFFFF := by
  unfold op_int_store
  exact ip_bound_mono inferInstance (by decide)

set_option synthInstance.maxSize 4096 in
theorem ip_bound_op_int_print (K : Params) : ip_bound 0xFFFF (op_int_print K) 0xFFFF := by
  unfold op_int_print
  exact ip_bound_mono inferInstance (by decide)

set_option synthInstance.maxSize 4096 in
theorem ip_bound_op_int_tostring (K : Params) : ip_bound 0xFFFF (op_int_tostring K) 0xFFFF := by
  unfold op_int_tostring
  exact ip_bound_mono inferInstance (by decide)

set_option synthInstance.maxSize 4096 in
theorem ip_bound_op_float_print (K : Params) : ip_bound 0xFFFF (op_float_print K) 0xFFFF := by
  unfold op_float_print
  exact ip_bound_mono inferInstance (by decide)

set_option synthInstance.maxSize 4096 in
theorem ip_bound_op_binary_load (K : Params) : ip_bound 0xFFFF (op_binary_load K) 0xFFFF := by
  unfold op_binary_load
  exact ip_bound_mono inferInstance (by decide)

set_option synthInstance.maxSize 4096 in
theorem ip_bound_op_binary_save (K : Params) : ip_bound 0xFFFF (op_binary_save K) 0xFFFF := by
  unfold op_binary_save
  exact ip_bound_mono inferInstance (by decide)

set_option synthInstance.maxSize 4096 in
theorem ip_bound_op_analog_load (K : Params) : ip_bound 0xFFFF (op_analog_load K) 0xFFFF := by
  unfold op_analog_load
  exact ip_bound_mono inferInstance (by decide)

set_option synthInstance.maxSize 4096 in
theorem ip_bound_op_analog_save (K : Params) : ip_bound 0xFFFF (op_analog_save K) 0xFFFF := by
  unfold op_analog_save
  exact ip_bound_mono inferInstance (by decide)

set_option synthInstance.maxSize 4096 in
theorem ip_bound_op_variable_load (K : Params) : ip_bound 0xFFFF (op_variable_load K) 0xFFFF := by
  unfold op_variable_load
  exact ip_bound_mono inferInstance (by decide)

set_option synthInstance.maxSize 4096 in
theorem ip_bound_op_variable_save (K : Params) : ip_bound 0xFFFF (op_variable_save K) 0xFFFF := by
  unfold op_variable_save
  exact ip_bound_mono inferInstance (by decide)

set_option synthInstance.maxSize 4096 in
theorem ip_bound_op_divide (K : Params) : ip_bound 0xFFFF (op_divide K) 0xFFFF := by
  unfold op_divide
  exact ip_bound_mono inferInstance (by decide)

set_option synthInstance.maxSize 4096 in
theorem ip_bound_op_inc (K : Params) : ip_bound 0xFFFF (op_inc K) 0xFFFF := by
  unfold op_inc
  exact ip_bound_mono inferInstance (by decide)

set_option synthInstance.maxSize 4096 in
theorem ip_bound_op_dec (K : Params) : ip_bound 0xFFFF (op_dec K) 0xFFFF := by
  unfold op_dec
  exact ip_bound_mono inferInstance (by decide)

set_option synthInstance.maxSize 4096 in
theorem ip_bound_op_string_store (K : Params) : ip_bound 0xFFFF (op_string_store K) 0xFFFF := by
  unfold op_string_store
  exact ip_bound_mono inferInstance (by decide)

set_option synthInstance.maxSize 4096 in
theorem ip_bound_op_string_print (K : Params) : ip_bound 0xFFFF (op_string_print K) 0xFFFF := by
  unfold op_string_print
  exact ip_bound_mono inferInstance (by decide)

set_option synthInstance.maxSize 4096 in
theorem ip_bound_op_string_concat (K : Params) : ip_bound 0xFFFF (op_string_concat K) 0xFFFF := by
  unfold op_string_concat
  exact ip_bound_mono inferInstance (by decide)

set_option synthInstance.maxSize 4096 in
theorem ip_bound_op_string_toint (K : Params) : ip_bound 0xFFFF (op_string_toint K) 0xFFFF := by
  unfold op_string_toint
  exact ip_bound_mono inferInstance (by decide)

set_option synthInstance.maxSize 4096 in
theorem ip_bound_op_cmp_reg (K : Params) : ip_bound 0xFFFF (op_cmp_reg K) 0xFFFF := by
  unfold op_cmp_reg
  exact ip_bound_mono inferInstance (by decide)

set_option synthInstance.maxSize 4096 in
theorem ip_bound_op_cmp_immediate (K : Params) : ip_bound 0xFFFF (op_cmp_immediate K) 0xFFFF := by
  unfold op_cmp_immediate
  exact ip_bound_mono inferInstance (by decide)

set_option synthInstance.maxSize 4096 in
theorem ip_bound_op_cmp_string (K : Params) : ip_bound 0xFFFF (op_cmp_string K) 0xFFFF := by
  unfold op_cmp_string
  exact ip_bound_mono inferInstance (by decide)

set_option synthInstance.maxSize 4096 in
theorem ip_bound_op_is_string (K : Params) : ip_bound 0xFFFF (op_is_string K) 0xFFFF := by
  unfold op_is_string
  exact ip_bound_mono inferInstance (by decide)

set_option synthInstance.maxSize 4096 in
theorem ip_bound_op_is_integer (K : Params) : ip_bound 0xFFFF (op_is_integer K) 0xFFFF := by
  unfold op_is_integer
  exact ip_bound_mono inferInstance (by decide)

set_option synthInstance.maxSize 4096 in
theorem ip_bound_op_reg_store (K : Params) : ip_bound 0xFFFF (op_reg_store K) 0xFFFF := by
  unfold op_reg_store
  exact ip_bound_mono inferInstance (by decide)

set_option synthInstance.maxSize 4096 in
theorem ip_bound_op_peek (K : Params) : ip_bound 0xFFFF (op_peek K) 0xFFFF := by
  unfold op_peek
  exact ip_bound_mono inferInstance (by decide)

set_option synthInstance.maxSize 4096 in
theorem ip_bound_op_poke (K : Params) : ip_bound 0xFFFF (op_poke K) 0xFFFF := by
  unfold op_poke
  exact ip_bound_mono inferInstance (by decide)

set_option synthInstance.maxSize 4096 in
theorem ip_bound_op_memcpy (K : Params) : ip_bound 0xFFFF (op_memcpy K) 0xFFFF := by
  unfold op_memcpy
  exact ip_bound_mono inferInstance (by decide)

set_option synthInstance.maxSize 4096 in
theorem ip_bound_op_stack_push (K : Params) : ip_bound 0xFFFF (op_stack_push K) 0xFFFF := by
  unfold op_stack_push
  exact ip_bound_mono inferInstance (by decide)

set_option synthInstance.maxSize 4096 in
theorem ip_bound_op_stack_pop (K : Params) : ip_bound 0xFFFF (op_stack_pop K) 0xFFFF := by
  unfold op_stack_pop
  exact ip_bound_mono inferInstance (by decide)

set_option synthInstance.maxSize 4096 in
theorem ip_bound_op_int_random (K : Params) (H : Host) : ip_bound 0xFFFF (op_int_random K H) 0xFFFF := by
  unfold op_int_random
  exact ip_bound_mono inferInstance (by decide)

set_option synthInstance.maxSize 4096 in
theorem ip_bound_op_float_store (K : Params) (H : Host) : ip_bound 0xFFFF (op_float_store K H) 0xFFFF := by
  unfold op_float_store
  exact ip_bound_mono inferInstance (by decide)

set_option synthInstance.maxSize 4096 in
theorem ip_bound_op_float_tostring (K : Params) (H : Host) : ip_bound 0xFFFF (op_float_tostring K H) 0xFFFF := by
  unfold op_float_tostring
  exact ip_bound_mono inferInstance (by decide)

set_option synthInstance.maxSize 4096 in
theorem ip_bound_op_string_system (K : Params) (H : Host) : ip_bound 0xFFFF (op_string_system K H) 0xFFFF := by
  unfold op_string_system
  exact ip_bound_mono inferInstance (by decide)


theorem bytes_to_addr_le (a b : Nat) (ha : a < 256) (hb : b < 256) :
    BYTES_TO_ADDR a b ≤ 0xFFFF := by
  unfold BYTES_TO_ADDR
  omega

theorem ip_bound_op_jump_to : ip_bound 0xFFFF op_jump_to 0xFFFF := by
  refine ⟨fun s a s1 hs hrun => ?_⟩
  simp only [op_jump_to, bind_run, next_byte_run, modify_state_run] at hrun
  cases hrun
  exact ⟨hs.1, bytes_to_addr_le _ _ (hs.1.1 _) (hs.1.1 _)⟩

theorem ip_bound_op_jump_z : ip_bound 0xFFFF op_jump_z 0xFFFF := by
  refine ⟨fun s a s1 hs hrun => ?_⟩
  simp only [op_jump_z, bind_run, next_byte_run, get_state_run] at hrun
  split at hrun
  · cases hrun
    exact ⟨hs.1, bytes_to_addr_le _ _ (hs.1.1 _) (hs.1.1 _)⟩
  · cases hrun
    refine ⟨hs.1, ?_⟩
    show nxt (nxt s.ip) + 1 ≤ 0xFFFF
    unfold nxt
    split <;> split <;> omega

theorem ip_bound_op_jump_nz : ip_bound 0xFFFF op_jump_nz 0xFFFF := by
  refine ⟨fun s a s1 hs hrun => ?_⟩
  simp only [op_jump_nz, bind_run, next_byte_run, get_state_run] at hrun
  split at hrun
  · cases hrun
    exact ⟨hs.1, bytes_to_addr_le _ _ (hs.1.1 _) (hs.1.1 _)⟩
  · cases hrun
    refine ⟨hs.1, ?_⟩
    show nxt (nxt s.ip) + 1 ≤ 0xFFFF
    unfold nxt
    split <;> split <;> omega

theorem ip_bound_op_stack_ret (K : Params) : ip_bound 0xFFFF (op_stack_ret K) 0xFFFF := by
  refine ⟨fun s a s1 hs hrun => ?_⟩
  have hslot := hs.1.2 s.CSP
  have hval : (s.call_stack s.CSP).toNat ≤ 0xFFFF := by omega
  by_cases hb : 0 ≤ s.CSP ∧ s.CSP < K.CALL_STACK_SIZE
  · by_cases hc : s.CSP ≤ 0
    · simp only [op_stack_ret, bind_run, get_state_run, hc, if_true, error_handler_run,
        read_call_stack, hb, and_self, modify_state_run] at hrun
      cases hrun
      exact ⟨hs.1, hval⟩
    · simp only [op_stack_ret, bind_run, get_state_run, hc, if_false, pure_run,
        read_call_stack, hb, and_self, if_true, modify_state_run] at hrun
      cases hrun
      exact ⟨hs.1, hval⟩
  · by_cases hc : s.CSP ≤ 0
    · simp only [op_stack_ret, bind_run, get_state_run, hc, if_true, error_handler_run,
        read_call_stack, hb, if_false] at hrun
      cases hrun
    · simp only [op_stack_ret, bind_run, get_state_run, hc, if_false, pure_run,
        read_call_stack, hb] at hrun
      cases hrun

/-- Storing a return address below 0x10000 keeps the call stack in range. -/
theorem call_stack_update_ok (cs : Int → Int) (i : Int) (v : Nat) (hv : v ≤ 0xFFFF)
    (h : ∀ j, 0 ≤ cs j ∧ cs j ≤ 0xFFFF) :
    ∀ j, 0 ≤ update cs i (v : Int) j ∧ update cs i (v : Int) j ≤ 0xFFFF := by
  intro j
  unfold update
  split
  · omega
  · exact h j

theorem ip_bound_op_stack_call (K : Params) : ip_bound 0xFFFF (op_stack_call K) 0xFFFF := by
  refine ⟨fun s a s1 hs hrun => ?_⟩
  have hret : nxt (nxt s.ip) + 1 ≤ 0xFFFF := by unfold nxt; split <;> split <;> omega
  by_cases hb : 0 ≤ s.CSP + 1 ∧ s.CSP + 1 < K.CALL_STACK_SIZE
  · by_cases hc : s.CSP + 1 ≥ K.CALL_STACK_SIZE
    · simp only [op_stack_call, bind_run, next_byte_run, modify_state_run, get_state_run, hc,
        if_true, error_handler_run, write_call_stack, hb, and_self] at hrun
      cases hrun
      exact ⟨⟨hs.1.1, call_stack_update_ok _ _ _ hret hs.1.2⟩,
        bytes_to_addr_le _ _ (hs.1.1 _) (hs.1.1 _)⟩
    · simp only [op_stack_call, bind_run, next_byte_run, modify_state_run, get_state_run, hc,
        if_false, pure_run, write_call_stack, hb, and_self, if_true] at hrun
      cases hrun
      exact ⟨⟨hs.1.1, call_stack_update_ok _ _ _ hret hs.1.2⟩,
        bytes_to_addr_le _ _ (hs.1.1 _) (hs.1.1 _)⟩
  · by_cases hc : s.CSP + 1 ≥ K.CALL_STACK_SIZE
    · simp only [op_stack_call, bind_run, next_byte_run, modify_state_run, get_state_run, hc,
        if_true, error_handler_run, write_call_stack, hb, if_false] at hrun
      cases hrun
    · simp only [op_stack_call, bind_run, next_byte_run, modify_state_run, get_state_run, hc,
        if_false, pure_run, write_call_stack, hb] at hrun
      cases hrun

theorem ip_bound_op_unknown (n : Nat) : ip_bound n op_unknown (n + 1) := by
  unfold op_unknown
  exact ip_bound_mono inferInstance (by simp)

theorem ip_bound_op_exit (n : Nat) : ip_bound n op_exit (n + 1) := by
  unfold op_exit
  exact ip_bound_mono inferInstance (by simp)

theorem ip_bound_op_nop (n : Nat) : ip_bound n op_nop (n + 1) := by
  unfold op_nop
  exact ip_bound_mono inferInstance (by simp)

/-- A handler that keeps IP within 0xFFFF. -/
theorem regular_handler {x : VM Unit} (B : ip_bound 0xFFFF x 0xFFFF) (h : handler)
    (s s1 : svm) (hok : addresses_ok s) (hip : s.ip ≤ 0xFFFF) (hrun : x s = .ok () s1) :
    addresses_ok s1 ∧ (s1.ip ≤ 0xFFFF ∨ (s1.ip = 0x10000 ∧ s.ip = 0xFFFF ∧
      (h = .op_unknown ∨ h = .op_nop ∨ h = .op_exit))) :=
  ⟨(B.out s () s1 ⟨hok, hip⟩ hrun).1, Or.inl (B.out s () s1 ⟨hok, hip⟩ hrun).2⟩

/-- A handler that only increments IP. -/
theorem advancing_handler {x : VM Unit} (B : ∀ n, ip_bound n x (n + 1)) (h : handler)
    (hh : h = .op_unknown ∨ h = .op_nop ∨ h = .op_exit)
    (s s1 : svm) (hok : addresses_ok s) (hip : s.ip ≤ 0xFFFF) (hrun : x s = .ok () s1) :
    addresses_ok s1 ∧ (s1.ip ≤ 0xFFFF ∨ (s1.ip = 0x10000 ∧ s.ip = 0xFFFF ∧
      (h = .op_unknown ∨ h = .op_nop ∨ h = .op_exit))) := by
  have hb := (B s.ip).out s () s1 ⟨hok, le_refl _⟩ hrun
  refine ⟨hb.1, ?_⟩
  by_cases hle : s1.ip ≤ 0xFFFF
  · exact Or.inl hle
  · have h2 := hb.2
    exact Or.inr ⟨by omega, by omega, hh⟩

/-- Every handler, entered in an `addresses_ok` state with IP in [0, 0xFFFF],
returns in an `addresses_ok` state with IP in [0, 0xFFFF], except that the
three handlers that only increment IP return with IP = 0x10000 when entered at
0xFFFF. -/
theorem handler_ip (K : Params) (H : Host) (h : handler) (s s1 : svm)
    (hok : addresses_ok s) (hip : s.ip ≤ 0xFFFF) (hrun : h.run K H s = .ok () s1) :
    addresses_ok s1 ∧ (s1.ip ≤ 0xFFFF ∨ (s1.ip = 0x10000 ∧ s.ip = 0xFFFF ∧
      (h = .op_unknown ∨ h = .op_nop ∨ h = .op_exit))) := by
  cases h with
  | op_unknown => exact advancing_handler ip_bound_op_unknown _ (Or.inl rfl) s s1 hok hip hrun
  | op_exit => exact advancing_handler ip_bound_op_exit _ (Or.inr (Or.inr rfl)) s s1 hok hip hrun
  | op_int_store => exact regular_handler (ip_bound_op_int_store K) _ s s1 hok hip hrun
  | op_int_print => exact regular_handler (ip_bound_op_int_print K) _ s s1 hok hip hrun
  | op_int_tostring => exact regular_handler (ip_bound_op_int_tostring K) _ s s1 hok hip hrun
  | op_int_random => exact regular_handler (ip_bound_op_int_random K H) _ s s1 hok hip hrun
  | op_float_store => exact regular_handler (ip_bound_op_float_store K H) _ s s1 hok hip hrun
  | op_float_print => exact regular_handler (ip_bound_op_float_print K) _ s s1 hok hip hrun
  | op_float_tostring => exact regular_handler (ip_bound_op_float_tostring K H) _ s s1 hok hip hrun
  | op_binary_load => exact regular_handler (ip_bound_op_binary_load K) _ s s1 hok hip hrun
  | op_binary_save => exact regular_handler (ip_bound_op_binary_save K) _ s s1 hok hip hrun
  | op_analog_load => exact regular_handler (ip_bound_op_analog_load K) _ s s1 hok hip hrun
  | op_analog_save => exact regular_handler (ip_bound_op_analog_save K) _ s s1 hok hip hrun
  | op_variable_load => exact regular_handler (ip_bound_op_variable_load K) _ s s1 hok hip hrun
  | op_variable_save => exact regular_handler (ip_bound_op_variable_save K) _ s s1 hok hip hrun
  | op_jump_to => exact regular_handler ip_bound_op_jump_to _ s s1 hok hip hrun
  | op_jump_nz => exact regular_handler ip_bound_op_jump_nz _ s s1 hok hip hrun
  | op_jump_z => exact regular_handler ip_bound_op_jump_z _ s s1 hok hip hrun
  | op_add =>
    exact regular_handler (ip_bound_math_operation K reg_add (fun _ _ _ _ => inferInstance))
      _ s s1 hok hip hrun
  | op_and =>
    exact regular_handler (ip_bound_math_operation K reg_and (fun _ _ _ _ => inferInstance))
      _ s s1 hok hip hrun
  | op_sub =>
    exact regular_handler (ip_bound_math_operation K reg_sub (fun _ _ _ _ => inferInstance))
      _ s s1 hok hip hrun
  | op_mul =>
    exact regular_handler (ip_bound_math_operation K reg_mul (fun _ _ _ _ => inferInstance))
      _ s s1 hok hip hrun
  | op_divide => exact regular_handler (ip_bound_op_divide K) _ s s1 hok hip hrun
  | op_xor =>
    exact regular_handler (ip_bound_math_operation K reg_xor (fun _ _ _ _ => inferInstance))
      _ s s1 hok hip hrun
  | op_or =>
    exact regular_handler (ip_bound_math_operation K reg_or (fun _ _ _ _ => inferInstance))
      _ s s1 hok hip hrun
  | op_inc => exact regular_handler (ip_bound_op_inc K) _ s s1 hok hip hrun
  | op_dec => exact regular_handler (ip_bound_op_dec K) _ s s1 hok hip hrun
  | op_string_store => exact regular_handler (ip_bound_op_string_store K) _ s s1 hok hip hrun
  | op_string_print => exact regular_handler (ip_bound_op_string_print K) _ s s1 hok hip hrun
  | op_string_concat => exact regular_handler (ip_bound_op_string_concat K) _ s s1 hok hip hrun
  | op_string_system => exact regular_handler (ip_bound_op_string_system K H) _ s s1 hok hip hrun
  | op_string_toint => exact regular_handler (ip_bound_op_string_toint K) _ s s1 hok hip hrun
  | op_cmp_reg => exact regular_handler (ip_bound_op_cmp_reg K) _ s s1 hok hip hrun
  | op_cmp_immediate => exact regular_handler (ip_bound_op_cmp_immediate K) _ s s1 hok hip hrun
  | op_cmp_string => exact regular_handler (ip_bound_op_cmp_string K) _ s s1 hok hip hrun
  | op_is_string => exact regular_handler (ip_bound_op_is_string K) _ s s1 hok hip hrun
  | op_is_integer => exact regular_handler (ip_bound_op_is_integer K) _ s s1 hok hip hrun
  | op_nop => exact advancing_handler ip_bound_op_nop _ (Or.inr (Or.inl rfl)) s s1 hok hip hrun
  | op_reg_store => exact regular_handler (ip_bound_op_reg_store K) _ s s1 hok hip hrun
  | op_peek => exact regular_handler (ip_bound_op_peek K) _ s s1 hok hip hrun
  | op_poke => exact regular_handler (ip_bound_op_poke K) _ s s1 hok hip hrun
  | op_memcpy => exact regular_handler (ip_bound_op_memcpy K) _ s s1 hok hip hrun
  | op_stack_push => exact regular_handler (ip_bound_op_stack_push K) _ s s1 hok hip hrun
  | op_stack_pop => exact regular_handler (ip_bound_op_stack_pop K) _ s s1 hok hip hrun
  | op_stack_ret => exact regular_handler (ip_bound_op_stack_ret K) _ s s1 hok hip hrun
  | op_stack_call => exact regular_handler (ip_bound_op_stack_call K) _ s s1 hok hip hrun

theorem getD_byte (l : List Nat) (h : ∀ b ∈ l, b < 256) (a : Nat) : l.getD a 0 < 256 := by
  induction l generalizing a with
  | nil => simp
  | cons x t ih =>
    cases a with
    | zero => simpa using h x (by simp)
    | succ a => simpa using ih (fun b hb => h b (by simp [hb])) a

/-- Every state the machine passes through is `addresses_ok` with IP at most
0x10000. -/
theorem reachable_addresses (K : Params) (O : Opcodes) (s : svm) (h : reachable K O s) :
    addresses_ok s ∧ s.ip ≤ 0x10000 := by
  induction h with
  | start bytecode ai bi hlen hb hbi =>
    refine ⟨⟨fun a => ?_, fun i => ?_⟩, Nat.zero_le _⟩
    rotate_left
    · show (0 : Int) ≤ 0 ∧ (0 : Int) ≤ 0xFFFF
      decide
    show (if a < 0x10000 then bytecode.getD a 0 else 0) < 256
    split
    · exact getD_byte _ hb a
    · decide
  | turn H s s1 hreach hrunning hstep ih =>
    unfold svm_step at hstep
    split at hstep
    · rename_i hip
      split at hstep
      · rename_i h heq
        have := handler_ip K H h s s1 ih.1 hip hstep
        refine ⟨this.1, ?_⟩
        rcases this.2 with h1 | ⟨h1, _⟩ <;> omega
      · cases hstep
    · cases hstep

/-- C17 as stated fails: the program `JUMP_TO 0xFFFF` reaches, after its first
instruction, a state with IP = 0xFFFF, where the code byte is 0 (EXIT under the
sample numbering); entered there, `op_exit` returns with IP = 0x10000, outside
[0, 0xFFFF], and so do `op_nop` and `op_unknown`, none of which wraps its
increment of IP. -/
theorem C17_counterexample :
    reachable sample_params sample_opcodes at_last_address ∧
    at_last_address.ip = 0xFFFF ∧
    opcode_init sample_opcodes (at_last_address.code at_last_address.ip) = some .op_exit ∧
    (op_exit at_last_address).returned = true ∧
    (op_exit at_last_address).state.ip = 0x10000 ∧
    (op_nop at_last_address).returned = true ∧
    (op_nop at_last_address).state.ip = 0x10000 ∧
    (op_unknown at_last_address).returned = true ∧
    (op_unknown at_last_address).state.ip = 0x10000 ∧
    ¬ (op_exit at_last_address).state.ip ≤ 0xFFFF :=
  ⟨reachable.turn sample_host jump_to_end at_last_address
      (reachable.start [14, 0xFF, 0xFF] (fun _ => 0) (fun _ => 0) (by decide) (by decide)
        (fun _ => by show (0 : Nat) < 256; decide)) rfl rfl,
    by decide, by decide, by decide, by decide, by decide, by decide, by decide, by decide,
    by decide⟩

/-- C17 (amended): for every opcode handler entered with IP in [0, 0xFFFF] in a
state whose code cells hold bytes and whose call-stack slots hold addresses in
[0, 0xFFFF] (every state reachable from the initial state is such a state), the
state in which the handler returns is again of this kind and its IP is in
[0, 0xFFFF], except for NOP, EXIT and the unknown-opcode handler entered at
IP = 0xFFFF, which return with IP = 0x10000: their `ip += 1` is not wrapped.
So IP is in [0, 0x10000] after every handler. -/
theorem C17_ip_range (K : Params) (H : Host) (h : handler) (s s1 : svm)
    (hok : addresses_ok s) (hip : s.ip ≤ 0xFFFF) (hrun : h.run K H s = .ok () s1) :
    addresses_ok s1 ∧ s1.ip ≤ 0x10000 ∧
    (s1.ip ≤ 0xFFFF ∨ (s1.ip = 0x10000 ∧ s.ip = 0xFFFF ∧
      (h = .op_unknown ∨ h = .op_nop ∨ h = .op_exit))) := by
  have hh := handler_ip K H h s s1 hok hip hrun
  refine ⟨hh.1, ?_, hh.2⟩
  rcases hh.2 with h1 | ⟨h1, _⟩ <;> omega

/-- C17 at a concrete point: the jump of the program `JUMP_TO 0xFFFF`, entered
in the initial state, returns with IP = 0xFFFF. -/
theorem C17_witness :
    addresses_ok at_last_address ∧ at_last_address.ip ≤ 0x10000 ∧
    (at_last_address.ip ≤ 0xFFFF ∨ (at_last_address.ip = 0x10000 ∧ jump_to_end.ip = 0xFFFF ∧
      (handler.op_jump_to = .op_unknown ∨ handler.op_jump_to = .op_nop ∨
        handler.op_jump_to = .op_exit))) :=
  C17_ip_range sample_params sample_host .op_jump_to jump_to_end at_last_address
    (reachable_addresses sample_params sample_opcodes jump_to_end
      (reachable.start [14, 0xFF, 0xFF] (fun _ => 0) (fun _ => 0) (by decide) (by decide)
        (fun _ => by show (0 : Nat) < 256; decide))).1
    (by decide) rfl

/-! ## C24: the bound on the channel of VARIABLE_LOAD and VARIABLE_SAVE -/

/-- C24 fails in the code: the channel is compared with `ANALOG_IN_COUNT`
(load) and `ANALOG_OUT_COUNT` (save), not with the length `BINARY_IN_COUNT` of
`VARIABLE_IO`. With 16 analog channels and 8 slots, channel 10 is accepted
without a report and `VARIABLE_IO[10]` is accessed outside the array; with 4
analog channels and 8 slots, channel 5, which lies inside the array, is
reported. -/
theorem C24_channel_bound_mismatch :
    more_analog_params.BINARY_IN_COUNT ≤
      variable_channel_ten.code (nxt (nxt variable_channel_ten.ip)) ∧
    (op_variable_load more_analog_params variable_channel_ten).state.errors = [] ∧
    (op_variable_load more_analog_params variable_channel_ten).returned = false ∧
    (op_variable_save more_analog_params variable_channel_ten).state.errors = [] ∧
    (op_variable_save more_analog_params variable_channel_ten).returned = false ∧
    variable_channel_five.code (nxt (nxt variable_channel_five.ip)) <
      fewer_analog_params.BINARY_IN_COUNT ∧
    (op_variable_load fewer_analog_params variable_channel_five).state.errors =
      [.register_out_of_bounds] ∧
    (op_variable_load fewer_analog_params variable_channel_five).returned = true ∧
    (op_variable_save fewer_analog_params variable_channel_five).state.errors =
      [.register_out_of_bounds] ∧
    (op_variable_save fewer_analog_params variable_channel_five).returned = true := by
  decide

/-! ## C28: STORE_REG -/

/-- C28 fails in the code: `STORE_REG r0, r0` with r0 holding the string "A"
first frees the buffer of the destination, which is the buffer of the source,
and then calls `strdup` on the freed pointer; nothing is reported and the
handler does not return with r0 holding "A". -/
theorem C28_store_reg_self_frees_source :
    store_reg_self.registers 0 = ⟨.STRING, 1⟩ ∧ store_reg_self.heap 1 = some [65, 0] ∧
    store_reg_self.code (nxt store_reg_self.ip) = 0 ∧
    store_reg_self.code (nxt (nxt store_reg_self.ip)) = 0 ∧
    (op_reg_store sample_params store_reg_self).returned = false ∧
    (op_reg_store sample_params store_reg_self).state.heap 1 = none ∧
    (op_reg_store sample_params store_reg_self).state.errors = [] ∧
    (load_string 1 (op_reg_store sample_params store_reg_self).state).returned = false := by
  decide

/-! ## C25: what the handlers leave of the I/O arrays -/

theorem keeps_of_frame {α : Type} (x : VM α) (ao bo rn : Bool)
    (h : ∀ s a s1, x s = .ok a s1 →
      s1.ANALOG_IN = s.ANALOG_IN ∧ s1.BINARY_IN = s.BINARY_IN ∧
      s1.ANALOG_OUT = s.ANALOG_OUT ∧ s1.BINARY_OUT = s.BINARY_OUT ∧
      s1.running = s.running) :
    keeps ao bo rn x :=
  ⟨fun s a s1 hrun =>
    ⟨(h s a s1 hrun).1, (h s a s1 hrun).2.1, fun _ => (h s a s1 hrun).2.2.1,
      fun _ => (h s a s1 hrun).2.2.2.1, fun _ => (h s a s1 hrun).2.2.2.2⟩⟩

theorem kept_trans {ao bo rn : Bool} {s s1 s2 : svm} (h1 : kept ao bo rn s s1)
    (h2 : kept ao bo rn s1 s2) : kept ao bo rn s s2 :=
  ⟨h2.1.trans h1.1, h2.2.1.trans h1.2.1, fun h => (h2.2.2.1 h).trans (h1.2.2.1 h),
    fun h => (h2.2.2.2.1 h).trans (h1.2.2.2.1 h), fun h => (h2.2.2.2.2 h).trans (h1.2.2.2.2 h)⟩

@[instance] theorem keeps_bind {ao bo rn : Bool} {α β : Type} (x : VM α) (f : α → VM β)
    [hx : keeps ao bo rn x] [hf : ∀ a, keeps ao bo rn (f a)] : keeps ao bo rn (x >>= f) := by
  refine ⟨fun s b s2 hrun => ?_⟩
  rw [bind_run] at hrun
  cases hxs : x s with
  | ok a s1 =>
    rw [hxs] at hrun
    exact kept_trans (hx.out s a s1 hxs) ((hf a).out s1 b s2 hrun)
  | undef s1 =>
    rw [hxs] at hrun
    cases hrun

@[instance] theorem keeps_ite {ao bo rn : Bool} {α : Type} (c : Prop) [Decidable c]
    (x y : VM α) [hx : keeps ao bo rn x] [hy : keeps ao bo rn y] :
    keeps ao bo rn (if c then x else y) := by
  by_cases hc : c
  · rw [if_pos hc]; exact hx
  · rw [if_neg hc]; exact hy

@[instance] theorem keeps_undefined {α : Type} (ao bo rn : Bool) :
    keeps ao bo rn (undefined_behaviour : VM α) :=
  ⟨fun s a s1 h => by cases h⟩

@[instance] theorem keeps_pure {α : Type} (ao bo rn : Bool) (a : α) :
    keeps ao bo rn (pure a : VM α) :=
  keeps_of_frame _ _ _ _ (fun s b s1 h => by cases h; exact ⟨rfl, rfl, rfl, rfl, rfl⟩)

@[instance] theorem keeps_get_state (ao bo rn : Bool)  :
    keeps ao bo rn (get_state) :=
  keeps_of_frame _ _ _ _ (fun s b s1 h => by cases h; exact ⟨rfl, rfl, rfl, rfl, rfl⟩)

@[instance] theorem keeps_next_byte (ao bo rn : Bool)  :
    keeps ao bo rn (next_byte) :=
  keeps_of_frame _ _ _ _ (fun s b s1 h => by cases h; exact ⟨rfl, rfl, rfl, rfl, rfl⟩)

@[instance] theorem keeps_ip_incr (ao bo rn : Bool)  :
    keeps ao bo rn (ip_incr) :=
  keeps_of_frame _ _ _ _ (fun s b s1 h => by cases h; exact ⟨rfl, rfl, rfl, rfl, rfl⟩)

@[instance] theorem keeps_error (ao bo rn : Bool) (m : Msg) :
    keeps ao bo rn (svm_default_error_handler m) :=
  keeps_of_frame _ _ _ _ (fun s b s1 h => by cases h; exact ⟨rfl, rfl, rfl, rfl, rfl⟩)

@[instance] theorem keeps_set_jmp (ao bo rn : Bool) (z : Nat) :
    keeps ao bo rn (set_jmp z) :=
  keeps_of_frame _ _ _ _ (fun s b s1 h => by cases h; exact ⟨rfl, rfl, rfl, rfl, rfl⟩)

@[instance] theorem keeps_malloc (ao bo rn : Bool) (bytes : List Nat) :
    keeps ao bo rn (malloc bytes) :=
  keeps_of_frame _ _ _ _ (fun s b s1 h => by cases h; exact ⟨rfl, rfl, rfl, rfl, rfl⟩)

@[instance] theorem keeps_modify_ip (ao bo rn : Bool) (f : svm → Nat) :
    keeps ao bo rn (modify_state fun s => { s with ip := f s }) :=
  keeps_of_frame _ _ _ _ (fun s b s1 h => by cases h; exact ⟨rfl, rfl, rfl, rfl, rfl⟩)

@[instance] theorem keeps_modify_sp (ao bo rn : Bool) (f : svm → Int) :
    keeps ao bo rn (modify_state fun s => { s with SP := f s }) :=
  keeps_of_frame _ _ _ _ (fun s b s1 h => by cases h; exact ⟨rfl, rfl, rfl, rfl, rfl⟩)

@[instance] theorem keeps_modify_csp (ao bo rn : Bool) (f : svm → Int) :
    keeps ao bo rn (modify_state fun s => { s with CSP := f s }) :=
  keeps_of_frame _ _ _ _ (fun s b s1 h => by cases h; exact ⟨rfl, rfl, rfl, rfl, rfl⟩)

@[instance] theorem keeps_modify_code (ao bo rn : Bool) (f : svm → Nat → Nat) :
    keeps ao bo rn (modify_state fun s => { s with code := f s }) :=
  keeps_of_frame _ _ _ _ (fun s b s1 h => by cases h; exact ⟨rfl, rfl, rfl, rfl, rfl⟩)

@[instance] theorem keeps_modify_variable (ao bo rn : Bool) (f : svm → Nat → reg_t) :
    keeps ao bo rn (modify_state fun s => { s with VARIABLE_IO := f s }) :=
  keeps_of_frame _ _ _ _ (fun s b s1 h => by cases h; exact ⟨rfl, rfl, rfl, rfl, rfl⟩)

@[instance] theorem keeps_modify_binary_out (ao rn : Bool) (f : svm → Nat → Nat) :
    keeps ao false rn (modify_state fun s => { s with BINARY_OUT := f s }) :=
  ⟨fun s b s1 h => by
    cases h
    exact ⟨rfl, rfl, fun _ => rfl, fun h => Bool.noConfusion h, fun _ => rfl⟩⟩

@[instance] theorem keeps_modify_running (ao bo : Bool) (f : svm → Bool) :
    keeps ao bo false (modify_state fun s => { s with running := f s }) :=
  ⟨fun s b s1 h => by
    cases h
    exact ⟨rfl, rfl, fun _ => rfl, fun _ => rfl, fun h => Bool.noConfusion h⟩⟩

@[instance] theorem keeps_write_analog_out (bo rn : Bool) (K : Params) (dst : Nat) (x : Int) :
    keeps false bo rn (write_analog_out K dst x) := by
  refine ⟨fun s b s1 h => ?_⟩
  unfold write_analog_out at h
  split at h
  · cases h
    exact ⟨rfl, rfl, fun h => Bool.noConfusion h, fun _ => rfl, fun _ => rfl⟩
  · cases h

@[instance] theorem keeps_read_reg (ao bo rn : Bool) (K : Params) (r : Nat) :
    keeps ao bo rn (read_reg K r) := by
  refine keeps_of_frame _ _ _ _ (fun s b s1 h => ?_)
  unfold read_reg at h
  split at h
  · cases h; exact ⟨rfl, rfl, rfl, rfl, rfl⟩
  · cases h

@[instance] theorem keeps_write_reg_type (ao bo rn : Bool) (K : Params) (r : Nat) (t : reg_type) :
    keeps ao bo rn (write_reg_type K r t) := by
  refine keeps_of_frame _ _ _ _ (fun s b s1 h => ?_)
  unfold write_reg_type at h
  split at h
  · cases h; exact ⟨rfl, rfl, rfl, rfl, rfl⟩
  · cases h

@[instance] theorem keeps_write_reg_content (ao bo rn : Bool) (K : Params) (r : Nat) (v : Int) :
    keeps ao bo rn (write_reg_content K r v) := by
  refine keeps_of_frame _ _ _ _ (fun s b s1 h => ?_)
  unfold write_reg_content at h
  split at h
  · cases h; exact ⟨rfl, rfl, rfl, rfl, rfl⟩
  · cases h

@[instance] theorem keeps_write_reg (ao bo rn : Bool) (K : Params) (r : Nat) (v : reg_t) :
    keeps ao bo rn (write_reg K r v) := by
  refine keeps_of_frame _ _ _ _ (fun s b s1 h => ?_)
  unfold write_reg at h
  split at h
  · cases h; exact ⟨rfl, rfl, rfl, rfl, rfl⟩
  · cases h

@[instance] theorem keeps_read_code (ao bo rn : Bool) (adr : Int) :
    keeps ao bo rn (read_code adr) := by
  refine keeps_of_frame _ _ _ _ (fun s b s1 h => ?_)
  unfold read_code at h
  split at h
  · cases h; exact ⟨rfl, rfl, rfl, rfl, rfl⟩
  · cases h

@[instance] theorem keeps_write_code (ao bo rn : Bool) (adr v : Int) :
    keeps ao bo rn (write_code adr v) := by
  refine keeps_of_frame _ _ _ _ (fun s b s1 h => ?_)
  unfold write_code at h
  split at h
  · cases h; exact ⟨rfl, rfl, rfl, rfl, rfl⟩
  · cases h

@[instance] theorem keeps_read_stack (ao bo rn : Bool) (K : Params) :
    keeps ao bo rn (read_stack K) := by
  refine keeps_of_frame _ _ _ _ (fun s b s1 h => ?_)
  unfold read_stack at h
  split at h
  · cases h; exact ⟨rfl, rfl, rfl, rfl, rfl⟩
  · cases h

@[instance] theorem keeps_write_stack (ao bo rn : Bool) (K : Params) (v : reg_t) :
    keeps ao bo rn (write_stack K v) := by
  refine keeps_of_frame _ _ _ _ (fun s b s1 h => ?_)
  unfold write_stack at h
  split at h
  · cases h; exact ⟨rfl, rfl, rfl, rfl, rfl⟩
  · cases h

@[instance] theorem keeps_read_call_stack (ao bo rn : Bool) (K : Params) :
    keeps ao bo rn (read_call_stack K) := by
  refine keeps_of_frame _ _ _ _ (fun s b s1 h => ?_)
  unfold read_call_stack at h
  split at h
  · cases h; exact ⟨rfl, rfl, rfl, rfl, rfl⟩
  · cases h

@[instance] theorem keeps_write_call_stack (ao bo rn : Bool) (K : Params) (v : Int) :
    keeps ao bo rn (write_call_stack K v) := by
  refine keeps_of_frame _ _ _ _ (fun s b s1 h => ?_)
  unfold write_call_stack at h
  split at h
  · cases h; exact ⟨rfl, rfl, rfl, rfl, rfl⟩
  · cases h

@[instance] theorem keeps_free (ao bo rn : Bool) (p : Int) : keeps ao bo rn (free p) := by
  refine keeps_of_frame _ _ _ _ (fun s b s1 h => ?_)
  unfold free at h
  split at h
  · cases h; exact ⟨rfl, rfl, rfl, rfl, rfl⟩
  · split at h
    · cases h; exact ⟨rfl, rfl, rfl, rfl, rfl⟩
    · cases h

@[instance] theorem keeps_load_string (ao bo rn : Bool) (p : Int) :
    keeps ao bo rn (load_string p) := by
  refine keeps_of_frame _ _ _ _ (fun s b s1 h => ?_)
  unfold load_string at h
  split at h
  · cases h
  · split at h
    · split at h
      · cases h; exact ⟨rfl, rfl, rfl, rfl, rfl⟩
      · cases h
    · cases h

@[instance] theorem keeps_bound_test (ao bo rn : Bool) (test count : Nat) :
    keeps ao bo rn (bound_test test count) := by
  unfold bound_test
  infer_instance

@[instance] theorem keeps_bounds_test_register (ao bo rn : Bool) (K : Params) (r : Nat) :
    keeps ao bo rn (BOUNDS_TEST_REGISTER K r) := by
  unfold BOUNDS_TEST_REGISTER
  infer_instance

@[instance] theorem keeps_get_int_reg (ao bo rn : Bool) (K : Params) (r : Nat) :
    keeps ao bo rn (get_int_reg K r) := by
  unfold get_int_reg
  infer_instance

@[instance] theorem keeps_get_string_reg (ao bo rn : Bool) (K : Params) (r : Nat) :
    keeps ao bo rn (get_string_reg K r) := by
  unfold get_string_reg
  infer_instance

@[instance] theorem keeps_get_float_reg (ao bo rn : Bool) (K : Params) (r : Nat) :
    keeps ao bo rn (get_float_reg K r) := by
  unfold get_float_reg
  infer_instance

@[instance] theorem keeps_clear_string_reg (ao bo rn : Bool) (K : Params) (r : Nat) :
    keeps ao bo rn (clear_string_reg K r) := by
  unfold clear_string_reg
  infer_instance

@[instance] theorem keeps_strdup (ao bo rn : Bool) (p : Int) :
    keeps ao bo rn (strdup p) := by
  unfold strdup
  infer_instance

@[instance] theorem keeps_strcmp_eq (ao bo rn : Bool) (p q : Int) :
    keeps ao bo rn (strcmp_eq p q) := by
  unfold strcmp_eq
  infer_instance

@[instance] theorem keeps_either_float (ao bo rn : Bool) (K : Params) (l r : Nat) :
    keeps ao bo rn (either_float K l r) := by
  unfold either_float
  infer_instance

@[instance] theorem keeps_float_operand (ao bo rn : Bool) (K : Params) (r : Nat) :
    keeps ao bo rn (float_operand K r) := by
  unfold float_operand
  infer_instance

@[instance] theorem keeps_sprintf_into_ten (ao bo rn : Bool) (text : List Nat) :
    keeps ao bo rn (sprintf_into_ten text) := by
  unfold sprintf_into_ten
  infer_instance

@[instance] theorem keeps_string_from_stack (ao bo rn : Bool)  :
    keeps ao bo rn (string_from_stack) := by
  unfold string_from_stack
  infer_instance

@[instance] theorem keeps_reg_add (ao bo rn : Bool) (K : Params) (out lhs rhs : Nat) :
    keeps ao bo rn (reg_add K out lhs rhs) := by
  unfold reg_add
  infer_instance

@[instance] theorem keeps_reg_and (ao bo rn : Bool) (K : Params) (out lhs rhs : Nat) :
    keeps ao bo rn (reg_and K out lhs rhs) := by
  unfold reg_and
  infer_instance

@[instance] theorem keeps_reg_sub (ao bo rn : Bool) (K : Params) (out lhs rhs : Nat) :
    keeps ao bo rn (reg_sub K out lhs rhs) := by
  unfold reg_sub
  infer_instance

@[instance] theorem keeps_reg_mul (ao bo rn : Bool) (K : Params) (out lhs rhs : Nat) :
    keeps ao bo rn (reg_mul K out lhs rhs) := by
  unfold reg_mul
  infer_instance

@[instance] theorem keeps_reg_xor (ao bo rn : Bool) (K : Params) (out lhs rhs : Nat) :
    keeps ao bo rn (reg_xor K out lhs rhs) := by
  unfold reg_xor
  infer_instance

@[instance] theorem keeps_reg_or (ao bo rn : Bool) (K : Params) (out lhs rhs : Nat) :
    keeps ao bo rn (reg_or K out lhs rhs) := by
  unfold reg_or
  infer_instance

@[instance] theorem keeps_memcpy_loop (ao bo rn : Bool) (src dest : Int) (left : Nat)
    (i : Int) : keeps ao bo rn (memcpy_loop src dest left i) := by
  induction left generalizing i with
  | zero => unfold memcpy_loop; infer_instance
  | succ left ih =>
    unfold memcpy_loop
    haveI := ih
    infer_instance

set_option synthInstance.maxSize 100000 in
theorem keeps_math_operation (K : Params)
    (operator : Params → Nat → Nat → Nat → VM Unit)
    (h : ∀ a b c, keeps true true true (operator K a b c)) :
    keeps true true true (math_operation K operator) := by
  unfold math_operation
  haveI := h
  infer_instance

set_option synthInstance.maxSize 100000 in
theorem keeps_op_int_store (K : Params) : keeps true true true (op_int_store K) := by
  unfold op_int_store
  infer_instance

set_option synthInstance.maxSize 100000 in
theorem keeps_op_int_print (K : Params) : keeps true true true (op_int_print K) := by
  unfold op_int_print
  infer_instance

set_option synthInstance.maxSize 100000 in
theorem keeps_op_int_tostring (K : Params) : keeps true true true (op_int_tostring K) := by
  unfold op_int_tostring
  infer_instance

set_option synthInstance.maxSize 100000 in
theorem keeps_op_float_print (K : Params) : keeps true true true (op_float_print K) := by
  unfold op_float_print
  infer_instance

set_option synthInstance.maxSize 100000 in
theorem keeps_op_binary_load (K : Params) : keeps true true true (op_binary_load K) := by
  unfold op_binary_load
  infer_instance

set_option synthInstance.maxSize 100000 in
theorem keeps_op_analog_load (K : Params) : keeps true true true (op_analog_load K) := by
  unfold op_analog_load
  infer_instance

set_option synthInstance.maxSize 100000 in
theorem keeps_op_variable_load (K : Params) : keeps true true true (op_variable_load K) := by
  unfold op_variable_load
  infer_instance

set_option synthInstance.maxSize 100000 in
theorem keeps_op_variable_save (K : Params) : keeps true true true (op_variable_save K) := by
  unfold op_variable_save
  infer_instance

set_option synthInstance.maxSize 100000 in
theorem keeps_op_divide (K : Params) : keeps true true true (op_divide K) := by
  unfold op_divide
  infer_instance

set_option synthInstance.maxSize 100000 in
theorem keeps_op_inc (K : Params) : keeps true true true (op_inc K) := by
  unfold op_inc
  infer_instance

set_option synthInstance.maxSize 100000 in
theorem keeps_op_dec (K : Params) : keeps true true true (op_dec K) := by
  unfold op_dec
  infer_instance

set_option synthInstance.maxSize 100000 in
theorem keeps_op_string_store (K : Params) : keeps true true true (op_string_store K) := by
  unfold op_string_store
  infer_instance

set_option synthInstance.maxSize 100000 in
theorem keeps_op_string_print (K : Params) : keeps true true true (op_string_print K) := by
  unfold op_string_print
  infer_instance

set_option synthInstance.maxSize 100000 in
theorem keeps_op_string_concat (K : Params) : keeps true true true (op_string_concat K) := by
  unfold op_string_concat
  infer_instance

set_option synthInstance.maxSize 100000 in
theorem keeps_op_string_toint (K : Params) : keeps true true true (op_string_toint K) := by
  unfold op_string_toint
  infer_instance

set_option synthInstance.maxSize 100000 in
theorem keeps_op_cmp_reg (K : Params) : keeps true true true (op_cmp_reg K) := by
  unfold op_cmp_reg
  infer_instance

set_option synthInstance.maxSize 100000 in
theorem keeps_op_cmp_immediate (K : Params) : keeps true true true (op_cmp_immediate K) := by
  unfold op_cmp_immediate
  infer_instance

set_option synthInstance.maxSize 100000 in
theorem keeps_op_cmp_string (K : Params) : keeps true true true (op_cmp_string K) := by
  unfold op_cmp_string
  infer_instance

set_option synthInstance.maxSize 100000 in
theorem keeps_op_is_string (K : Params) : keeps true true true (op_is_string K) := by
  unfold op_is_string
  infer_instance

set_option synthInstance.maxSize 100000 in
theorem keeps_op_is_integer (K : Params) : keeps true true true (op_is_integer K) := by
  unfold op_is_integer
  infer_instance

set_option synthInstance.maxSize 100000 in
theorem keeps_op_reg_store (K : Params) : keeps true true true (op_reg_store K) := by
  unfold op_reg_store
  infer_instance

set_option synthInstance.maxSize 100000 in
theorem keeps_op_peek (K : Params) : keeps true true true (op_peek K) := by
  unfold op_peek
  infer_instance

set_option synthInstance.maxSize 100000 in
theorem keeps_op_poke (K : Params) : keeps true true true (op_poke K) := by
  unfold op_poke
  infer_instance

set_option synthInstance.maxSize 100000 in
theorem keeps_op_memcpy (K : Params) : keeps true true true (op_memcpy K) := by
  unfold op_memcpy
  infer_instance

set_option synthInstance.maxSize 100000 in
theorem keeps_op_stack_push (K : Params) : keeps true true true (op_stack_push K) := by
  unfold op_stack_push
  infer_instance

set_option synthInstance.maxSize 100000 in
theorem keeps_op_stack_pop (K : Params) : keeps true true true (op_stack_pop K) := by
  unfold op_stack_pop
  infer_instance

set_option synthInstance.maxSize 100000 in
theorem keeps_op_stack_ret (K : Params) : keeps true true true (op_stack_ret K) := by
  unfold op_stack_ret
  infer_instance

set_option synthInstance.maxSize 100000 in
theorem keeps_op_stack_call (K : Params) : keeps true true true (op_stack_call K) := by
  unfold op_stack_call
  infer_instance

set_option synthInstance.maxSize 100000 in
theorem keeps_op_int_random (K : Params) (H : Host) : keeps true true true (op_int_random K H) := by
  unfold op_int_random
  infer_instance

set_option synthInstance.maxSize 100000 in
theorem keeps_op_float_store (K : Params) (H : Host) : keeps true true true (op_float_store K H) := by
  unfold op_float_store
  infer_instance

set_option synthInstance.maxSize 100000 in
theorem keeps_op_float_tostring (K : Params) (H : Host) : keeps true true true (op_float_tostring K H) := by
  unfold op_float_tostring
  infer_instance

set_option synthInstance.maxSize 100000 in
theorem keeps_op_string_system (K : Params) (H : Host) : keeps true true true (op_string_system K H) := by
  unfold op_string_system
  infer_instance

theorem keeps_op_unknown : keeps true true true op_unknown := by
  unfold op_unknown
  infer_instance

theorem keeps_op_nop : keeps true true true op_nop := by
  unfold op_nop
  infer_instance

theorem keeps_op_jump_to : keeps true true true op_jump_to := by
  unfold op_jump_to
  infer_instance

theorem keeps_op_jump_nz : keeps true true true op_jump_nz := by
  unfold op_jump_nz
  infer_instance

theorem keeps_op_jump_z : keeps true true true op_jump_z := by
  unfold op_jump_z
  infer_instance

theorem keeps_op_exit : keeps true true false op_exit := by
  unfold op_exit
  infer_instance

set_option synthInstance.maxSize 100000 in
theorem keeps_op_analog_save (K : Params) : keeps false true true (op_analog_save K) := by
  unfold op_analog_save
  infer_instance

set_option synthInstance.maxSize 100000 in
theorem keeps_op_binary_save (K : Params) : keeps true false true (op_binary_save K) := by
  unfold op_binary_save
  infer_instance


/-- A handler that leaves all four I/O arrays and the running flag as they are. -/
theorem kept_by_all {x : VM Unit} (B : keeps true true true x) (h : handler) (s s1 : svm)
    (hrun : x s = .ok () s1) :
    s1.ANALOG_IN = s.ANALOG_IN ∧ s1.BINARY_IN = s.BINARY_IN ∧
    (h ≠ .op_analog_save → s1.ANALOG_OUT = s.ANALOG_OUT) ∧
    (h ≠ .op_binary_save → s1.BINARY_OUT = s.BINARY_OUT) ∧
    (h ≠ .op_exit → s1.running = s.running) :=
  ⟨(B.out s () s1 hrun).1, (B.out s () s1 hrun).2.1, fun _ => (B.out s () s1 hrun).2.2.1 rfl,
    fun _ => (B.out s () s1 hrun).2.2.2.1 rfl, fun _ => (B.out s () s1 hrun).2.2.2.2 rfl⟩

/-- What each handler leaves as it was: the input arrays always, `ANALOG_OUT`
unless the handler is `op_analog_save`, `BINARY_OUT` unless it is
`op_binary_save`, the running flag unless it is `op_exit`. -/
theorem handler_kept (K : Params) (H : Host) (h : handler) (s s1 : svm)
    (hrun : h.run K H s = .ok () s1) :
    s1.ANALOG_IN = s.ANALOG_IN ∧ s1.BINARY_IN = s.BINARY_IN ∧
    (h ≠ .op_analog_save → s1.ANALOG_OUT = s.ANALOG_OUT) ∧
    (h ≠ .op_binary_save → s1.BINARY_OUT = s.BINARY_OUT) ∧
    (h ≠ .op_exit → s1.running = s.running) := by
  cases h with
  | op_unknown => exact kept_by_all keeps_op_unknown _ s s1 hrun
  | op_exit =>
    have k := keeps_op_exit.out s () s1 hrun
    exact ⟨k.1, k.2.1, fun _ => k.2.2.1 rfl, fun _ => k.2.2.2.1 rfl, fun hne => absurd rfl hne⟩
  | op_int_store => exact kept_by_all (keeps_op_int_store K) _ s s1 hrun
  | op_int_print => exact kept_by_all (keeps_op_int_print K) _ s s1 hrun
  | op_int_tostring => exact kept_by_all (keeps_op_int_tostring K) _ s s1 hrun
  | op_int_random => exact kept_by_all (keeps_op_int_random K H) _ s s1 hrun
  | op_float_store => exact kept_by_all (keeps_op_float_store K H) _ s s1 hrun
  | op_float_print => exact kept_by_all (keeps_op_float_print K) _ s s1 hrun
  | op_float_tostring => exact kept_by_all (keeps_op_float_tostring K H) _ s s1 hrun
  | op_binary_load => exact kept_by_all (keeps_op_binary_load K) _ s s1 hrun
  | op_binary_save =>
    have k := (keeps_op_binary_save K).out s () s1 hrun
    exact ⟨k.1, k.2.1, fun _ => k.2.2.1 rfl, fun hne => absurd rfl hne,
      fun _ => k.2.2.2.2 rfl⟩
  | op_analog_load => exact kept_by_all (keeps_op_analog_load K) _ s s1 hrun
  | op_analog_save =>
    have k := (keeps_op_analog_save K).out s () s1 hrun
    exact ⟨k.1, k.2.1, fun hne => absurd rfl hne, fun _ => k.2.2.2.1 rfl,
      fun _ => k.2.2.2.2 rfl⟩
  | op_variable_load => exact kept_by_all (keeps_op_variable_load K) _ s s1 hrun
  | op_variable_save => exact kept_by_all (keeps_op_variable_save K) _ s s1 hrun
  | op_jump_to => exact kept_by_all keeps_op_jump_to _ s s1 hrun
  | op_jump_nz => exact kept_by_all keeps_op_jump_nz _ s s1 hrun
  | op_jump_z => exact kept_by_all keeps_op_jump_z _ s s1 hrun
  | op_add =>
    exact kept_by_all (keeps_math_operation K reg_add (fun _ _ _ => inferInstance))
      _ s s1 hrun
  | op_and =>
    exact kept_by_all (keeps_math_operation K reg_and (fun _ _ _ => inferInstance))
      _ s s1 hrun
  | op_sub =>
    exact kept_by_all (keeps_math_operation K reg_sub (fun _ _ _ => inferInstance))
      _ s s1 hrun
  | op_mul =>
    exact kept_by_all (keeps_math_operation K reg_mul (fun _ _ _ => inferInstance))
      _ s s1 hrun
  | op_divide => exact kept_by_all (keeps_op_divide K) _ s s1 hrun
  | op_xor =>
    exact kept_by_all (keeps_math_operation K reg_xor (fun _ _ _ => inferInstance))
      _ s s1 hrun
  | op_or =>
    exact kept_by_all (keeps_math_operation K reg_or (fun _ _ _ => inferInstance))
      _ s s1 hrun
  | op_inc => exact kept_by_all (keeps_op_inc K) _ s s1 hrun
  | op_dec => exact kept_by_all (keeps_op_dec K) _ s s1 hrun
  | op_string_store => exact kept_by_all (keeps_op_string_store K) _ s s1 hrun
  | op_string_print => exact kept_by_all (keeps_op_string_print K) _ s s1 hrun
  | op_string_concat => exact kept_by_all (keeps_op_string_concat K) _ s s1 hrun
  | op_string_system => exact kept_by_all (keeps_op_string_system K H) _ s s1 hrun
  | op_string_toint => exact kept_by_all (keeps_op_string_toint K) _ s s1 hrun
  | op_cmp_reg => exact kept_by_all (keeps_op_cmp_reg K) _ s s1 hrun
  | op_cmp_immediate => exact kept_by_all (keeps_op_cmp_immediate K) _ s s1 hrun
  | op_cmp_string => exact kept_by_all (keeps_op_cmp_string K) _ s s1 hrun
  | op_is_string => exact kept_by_all (keeps_op_is_string K) _ s s1 hrun
  | op_is_integer => exact kept_by_all (keeps_op_is_integer K) _ s s1 hrun
  | op_nop => exact kept_by_all keeps_op_nop _ s s1 hrun
  | op_reg_store => exact kept_by_all (keeps_op_reg_store K) _ s s1 hrun
  | op_peek => exact kept_by_all (keeps_op_peek K) _ s s1 hrun
  | op_poke => exact kept_by_all (keeps_op_poke K) _ s s1 hrun
  | op_memcpy => exact kept_by_all (keeps_op_memcpy K) _ s s1 hrun
  | op_stack_push => exact kept_by_all (keeps_op_stack_push K) _ s s1 hrun
  | op_stack_pop => exact kept_by_all (keeps_op_stack_pop K) _ s s1 hrun
  | op_stack_ret => exact kept_by_all (keeps_op_stack_ret K) _ s s1 hrun
  | op_stack_call => exact kept_by_all (keeps_op_stack_call K) _ s s1 hrun

/-- C25: whenever a handler returns, whatever the state it was entered in,
`ANALOG_IN` and `BINARY_IN` are as they were before; `ANALOG_OUT` is as it was
unless the handler is ANALOG_SAVE, and `BINARY_OUT` is as it was unless the
handler is BINARY_SAVE. -/
theorem C25_input_channels_read_only (K : Params) (H : Host) (h : handler) (s s1 : svm)
    (hrun : h.run K H s = .ok () s1) :
    s1.ANALOG_IN = s.ANALOG_IN ∧ s1.BINARY_IN = s.BINARY_IN ∧
    (h ≠ .op_analog_save → s1.ANALOG_OUT = s.ANALOG_OUT) ∧
    (h ≠ .op_binary_save → s1.BINARY_OUT = s.BINARY_OUT) :=
  ⟨(handler_kept K H h s s1 hrun).1, (handler_kept K H h s s1 hrun).2.1,
    (handler_kept K H h s s1 hrun).2.2.1, (handler_kept K H h s s1 hrun).2.2.2.1⟩

/-- C25 at a concrete point: `ANALOG_SAVE r1, 3` with r1 = Integer(5) returns,
with both input arrays and `BINARY_OUT` as before. -/
theorem C25_witness :
    (op_analog_save sample_params analog_save_example).returned = true ∧
    (op_analog_save sample_params analog_save_example).state.ANALOG_IN
      = analog_save_example.ANALOG_IN ∧
    (op_analog_save sample_params analog_save_example).state.BINARY_IN
      = analog_save_example.BINARY_IN ∧
    (op_analog_save sample_params analog_save_example).state.BINARY_OUT
      = analog_save_example.BINARY_OUT :=
  ⟨by decide,
    (C25_input_channels_read_only sample_params sample_host .op_analog_save
      analog_save_example (op_analog_save sample_params analog_save_example).state rfl).1,
    (C25_input_channels_read_only sample_params sample_host .op_analog_save
      analog_save_example (op_analog_save sample_params analog_save_example).state rfl).2.1,
    (C25_input_channels_read_only sample_params sample_host .op_analog_save
      analog_save_example (op_analog_save sample_params analog_save_example).state rfl).2.2.2
      (by decide)⟩

/-! ## C22: the analog channels -/

theorem bound_test_in (test count : Nat) (s : svm) (h : test < count) :
    bound_test test count s = .ok 0 s := by
  have : ¬ test ≥ count := by omega
  simp [bound_test, this]

/-- What `op_analog_load` does below the wrap point with an in-range register
and channel. -/
theorem op_analog_load_run (K : Params) (s : svm) (hip : s.ip + 3 ≤ 0xFFFF)
    (hr : s.code (s.ip + 1) < K.REGISTER_COUNT) (hc : s.code (s.ip + 2) < K.ANALOG_IN_COUNT)
    (hcl : clearable s (s.code (s.ip + 1))) :
    op_analog_load K s = .ok ()
      { s with
        ip := s.ip + 3
        heap := released s.registers s.heap (s.code (s.ip + 1))
        registers := update s.registers (s.code (s.ip + 1))
          ⟨.FLOAT, s.ANALOG_IN (s.code (s.ip + 2))⟩ } := by
  have e1 : nxt s.ip = s.ip + 1 := nxt_eq _ (by omega)
  have e2 : nxt (s.ip + 1) = s.ip + 2 := nxt_eq _ (by omega)
  simp only [op_analog_load, bind_run, next_byte_run, e1]
  rw [bounds_test_in K _ _ hr]
  simp only [next_byte_run, e2]
  rw [bound_test_in _ _ _ hc]
  simp only []
  rw [clear_string_reg_run K _ _ hr (by simpa [clearable] using hcl)]
  simp only []
  rw [write_reg_type_in K _ _ _ hr]
  simp only [get_state_run, hc, if_true, bind_run]
  rw [write_reg_content_in K _ _ _ hr]
  simp [ip_incr_run, update_same]

/-- What `op_analog_save` does below the wrap point with an in-range register
and channel: a FLOAT is stored as it is, an INTEGER is converted, a STRING
stores nothing. -/
theorem op_analog_save_run (K : Params) (s : svm) (hip : s.ip + 3 ≤ 0xFFFF)
    (hr : s.code (s.ip + 1) < K.REGISTER_COUNT)
    (hc : s.code (s.ip + 2) < K.ANALOG_OUT_COUNT) :
    op_analog_save K s = .ok ()
      { s with
        ip := s.ip + 3
        ANALOG_OUT :=
          if (s.registers (s.code (s.ip + 1))).type = .FLOAT then
            update s.ANALOG_OUT (s.code (s.ip + 2)) (s.registers (s.code (s.ip + 1))).content
          else if (s.registers (s.code (s.ip + 1))).type = .INTEGER then
            update s.ANALOG_OUT (s.code (s.ip + 2))
              (K.i2f (s.registers (s.code (s.ip + 1))).content)
          else s.ANALOG_OUT } := by
  have e1 : nxt s.ip = s.ip + 1 := nxt_eq _ (by omega)
  have e2 : nxt (s.ip + 1) = s.ip + 2 := nxt_eq _ (by omega)
  simp only [op_analog_save, bind_run, next_byte_run, e1]
  rw [bounds_test_in K _ _ hr]
  simp only [next_byte_run, e2]
  rw [bound_test_in _ _ _ hc]
  simp only []
  rw [read_reg_in K _ _ hr]
  simp only []
  cases ht : (s.registers (s.code (s.ip + 1))).type <;>
    simp [ht, read_reg, hr, write_analog_out, hc, ip_incr_run]

/-- C22: let `ANALOG_LOAD r, c` be followed by `ANALOG_SAVE r, d`, both below
the wrap point of the decoder, with r in range, c < ANALOG_IN_COUNT,
d < ANALOG_OUT_COUNT and r not holding an already released buffer. Both
handlers return; afterwards `ANALOG_OUT[d]` holds the bit pattern of
`ANALOG_IN[c]`, register r is tagged Float with that pattern, every other
output channel, every other register and the input arrays are unchanged, and
nothing has been reported. -/
theorem C22_analog_round_trip (K : Params) (s : svm) (r c d : Nat) (hip : s.ip + 6 ≤ 0xFFFF)
    (c1 : s.code (s.ip + 1) = r) (c2 : s.code (s.ip + 2) = c)
    (c4 : s.code (s.ip + 4) = r) (c5 : s.code (s.ip + 5) = d)
    (hr : r < K.REGISTER_COUNT) (hc : c < K.ANALOG_IN_COUNT) (hd : d < K.ANALOG_OUT_COUNT)
    (hcl : clearable s r) :
    ∃ s1 s2, op_analog_load K s = .ok () s1 ∧ op_analog_save K s1 = .ok () s2 ∧
      s2.ANALOG_OUT d = s.ANALOG_IN c ∧
      s2.registers r = ⟨.FLOAT, s.ANALOG_IN c⟩ ∧
      (∀ e, e ≠ d → s2.ANALOG_OUT e = s.ANALOG_OUT e) ∧
      (∀ q, q ≠ r → s2.registers q = s.registers q) ∧
      s2.ANALOG_IN = s.ANALOG_IN ∧ s2.errors = s.errors ∧ s2.ip = s.ip + 6 := by
  obtain ⟨s1, run1, ip1, code1, reg1, out1, in1, err1⟩ : ∃ s1 : svm,
      op_analog_load K s = .ok () s1 ∧ s1.ip = s.ip + 3 ∧ s1.code = s.code ∧
      s1.registers = update s.registers r ⟨.FLOAT, s.ANALOG_IN c⟩ ∧
      s1.ANALOG_OUT = s.ANALOG_OUT ∧ s1.ANALOG_IN = s.ANALOG_IN ∧ s1.errors = s.errors := by
    have run := op_analog_load_run K s (by omega) (by rw [c1]; exact hr)
      (by rw [c2]; exact hc) (by rw [c1]; exact hcl)
    rw [c1, c2] at run
    exact ⟨_, run, rfl, rfl, rfl, rfl, rfl, rfl⟩
  have d4 : s1.code (s1.ip + 1) = r := by rw [code1, ip1]; exact c4
  have d5 : s1.code (s1.ip + 2) = d := by rw [code1, ip1]; exact c5
  have hx : s1.registers r = ⟨.FLOAT, s.ANALOG_IN c⟩ := by rw [reg1, update_same]
  have run2 := op_analog_save_run K s1 (by omega) (by rw [d4]; exact hr)
    (by rw [d5]; exact hd)
  rw [d4, d5, hx] at run2
  simp only [if_true] at run2
  refine ⟨s1, _, run1, run2, ?_, hx, ?_, ?_, in1, err1, ?_⟩
  · show update s1.ANALOG_OUT d _ d = _
    rw [update_same]
  · intro e he
    show update s1.ANALOG_OUT d _ e = _
    rw [update_other _ _ _ _ he, out1]
  · intro q hq
    show s1.registers q = _
    rw [reg1, update_other _ _ _ _ hq]
  · show s1.ip + 3 = _
    omega

/-- C22 at a concrete point: 3.5 (pattern 0x40600000) on input channel 2 goes
through r1 to output channel 3. -/
theorem C22_witness :
    ∃ s1 s2, op_analog_load sample_params analog_example = .ok () s1 ∧
      op_analog_save sample_params s1 = .ok () s2 ∧
      s2.ANALOG_OUT 3 = 0x40600000 ∧ s2.registers 1 = ⟨.FLOAT, 0x40600000⟩ := by
  obtain ⟨s1, s2, r1, r2, h1, h2, _⟩ :=
    C22_analog_round_trip sample_params analog_example 1 2 3 (by decide) (by decide)
      (by decide) (by decide) (by decide) (by decide) (by decide) (by decide)
      (by simp [clearable, analog_example, svm_new])
  exact ⟨s1, s2, r1, r2, h1, h2⟩

/-! ## C23: the binary channels -/

/-- What `op_binary_load` does below the wrap point with an in-range register
and channel. -/
theorem op_binary_load_run (K : Params) (s : svm) (hip : s.ip + 3 ≤ 0xFFFF)
    (hr : s.code (s.ip + 1) < K.REGISTER_COUNT) (hc : s.code (s.ip + 2) < K.BINARY_IN_COUNT)
    (hcl : clearable s (s.code (s.ip + 1))) :
    op_binary_load K s = .ok ()
      { s with
        ip := s.ip + 3
        heap := released s.registers s.heap (s.code (s.ip + 1))
        registers := update s.registers (s.code (s.ip + 1))
          ⟨.INTEGER, (s.BINARY_IN (s.code (s.ip + 2)) : Int)⟩ } := by
  have e1 : nxt s.ip = s.ip + 1 := nxt_eq _ (by omega)
  have e2 : nxt (s.ip + 1) = s.ip + 2 := nxt_eq _ (by omega)
  simp only [op_binary_load, bind_run, next_byte_run, e1]
  rw [bounds_test_in K _ _ hr]
  simp only [next_byte_run, e2]
  rw [bound_test_in _ _ _ hc]
  simp only []
  rw [clear_string_reg_run K _ _ hr (by simpa [clearable] using hcl)]
  simp only []
  rw [write_reg_type_in K _ _ _ hr]
  simp only [get_state_run, hc, if_true, bind_run]
  rw [write_reg_content_in K _ _ _ hr]
  simp [ip_incr_run, update_same]

/-- What `op_binary_save` does below the wrap point with an in-range register
and channel. -/
theorem op_binary_save_run (K : Params) (s : svm) (hip : s.ip + 3 ≤ 0xFFFF)
    (hr : s.code (s.ip + 1) < K.REGISTER_COUNT)
    (hc : s.code (s.ip + 2) < K.BINARY_OUT_COUNT) :
    op_binary_save K s = .ok ()
      { s with
        ip := s.ip + 3
        BINARY_OUT :=
          if (s.registers (s.code (s.ip + 1))).type = .INTEGER then
            update s.BINARY_OUT (s.code (s.ip + 2))
              ((s.registers (s.code (s.ip + 1))).content % 256).toNat
          else s.BINARY_OUT } := by
  have e1 : nxt s.ip = s.ip + 1 := nxt_eq _ (by omega)
  have e2 : nxt (s.ip + 1) = s.ip + 2 := nxt_eq _ (by omega)
  simp only [op_binary_save, bind_run, next_byte_run, e1]
  rw [bounds_test_in K _ _ hr]
  simp only [next_byte_run, e2]
  rw [bound_test_in _ _ _ hc]
  simp only []
  rw [read_reg_in K _ _ hr]
  simp only []
  cases ht : (s.registers (s.code (s.ip + 1))).type <;>
    simp [ht, read_reg, hr, hc, ip_incr_run]

/-- C23: (1) `BINARY_SAVE r, c` below the wrap point, with r in range and
c < BINARY_OUT_COUNT, returns with every register and every channel other than
c unchanged and nothing reported; if r is tagged Integer, `BINARY_OUT[c]` is its
value modulo 256 (the low byte, also for a negative value), otherwise
`BINARY_OUT` is unchanged altogether. (2) `BINARY_LOAD r, c` followed by
`BINARY_SAVE r, d`, below the wrap point, with r in range (not holding an
already released buffer), c < BINARY_IN_COUNT and d < BINARY_OUT_COUNT, leaves
`BINARY_OUT[d]` equal to the byte `BINARY_IN[c]` and r = Integer of that byte. -/
theorem C23_binary_save (K : Params) (s : svm) (r c : Nat) (t : svm) (r2 c2 d2 : Nat)
    (hips : s.ip + 3 ≤ 0xFFFF) (a1 : s.code (s.ip + 1) = r) (a2 : s.code (s.ip + 2) = c)
    (hr : r < K.REGISTER_COUNT) (hc : c < K.BINARY_OUT_COUNT)
    (hipt : t.ip + 6 ≤ 0xFFFF) (b1 : t.code (t.ip + 1) = r2) (b2 : t.code (t.ip + 2) = c2)
    (b4 : t.code (t.ip + 4) = r2) (b5 : t.code (t.ip + 5) = d2)
    (hr2 : r2 < K.REGISTER_COUNT) (hc2 : c2 < K.BINARY_IN_COUNT)
    (hd2 : d2 < K.BINARY_OUT_COUNT) (hcl : clearable t r2) (hbyte : t.BINARY_IN c2 < 256) :
    (∃ s1, op_binary_save K s = .ok () s1 ∧
      s1.registers = s.registers ∧ s1.errors = s.errors ∧
      (∀ e, e ≠ c → s1.BINARY_OUT e = s.BINARY_OUT e) ∧
      ((s.registers r).type = .INTEGER →
        (s1.BINARY_OUT c : Int) = (s.registers r).content % 256) ∧
      ((s.registers r).type ≠ .INTEGER → s1.BINARY_OUT = s.BINARY_OUT)) ∧
    (∃ t1 t2, op_binary_load K t = .ok () t1 ∧ op_binary_save K t1 = .ok () t2 ∧
      t2.BINARY_OUT d2 = t.BINARY_IN c2 ∧
      t2.registers r2 = ⟨.INTEGER, (t.BINARY_IN c2 : Int)⟩ ∧
      (∀ e, e ≠ d2 → t2.BINARY_OUT e = t.BINARY_OUT e) ∧ t2.errors = t.errors) := by
  constructor
  · obtain ⟨s1, run1, reg, err, out⟩ : ∃ s1 : svm,
        op_binary_save K s = .ok () s1 ∧ s1.registers = s.registers ∧
        s1.errors = s.errors ∧
        s1.BINARY_OUT = (if (s.registers r).type = .INTEGER then
            update s.BINARY_OUT c ((s.registers r).content % 256).toNat
          else s.BINARY_OUT) := by
      have run := op_binary_save_run K s hips (by rw [a1]; exact hr) (by rw [a2]; exact hc)
      rw [a1, a2] at run
      exact ⟨_, run, rfl, rfl, rfl⟩
    refine ⟨s1, run1, reg, err, ?_, ?_, ?_⟩
    · intro e he
      rw [out]
      split
      · rw [update_other _ _ _ _ he]
      · rfl
    · intro ht
      rw [out, if_pos ht, update_same]
      exact Int.toNat_of_nonneg (Int.emod_nonneg _ (by decide))
    · intro ht
      rw [out, if_neg ht]
  · obtain ⟨t1, run1, ip1, code1, reg1, out1, err1⟩ : ∃ t1 : svm,
        op_binary_load K t = .ok () t1 ∧ t1.ip = t.ip + 3 ∧ t1.code = t.code ∧
        t1.registers = update t.registers r2 ⟨.INTEGER, (t.BINARY_IN c2 : Int)⟩ ∧
        t1.BINARY_OUT = t.BINARY_OUT ∧ t1.errors = t.errors := by
      have run := op_binary_load_run K t (by omega) (by rw [b1]; exact hr2)
        (by rw [b2]; exact hc2) (by rw [b1]; exact hcl)
      rw [b1, b2] at run
      exact ⟨_, run, rfl, rfl, rfl, rfl, rfl⟩
    have d4 : t1.code (t1.ip + 1) = r2 := by rw [code1, ip1]; exact b4
    have d5 : t1.code (t1.ip + 2) = d2 := by rw [code1, ip1]; exact b5
    have hx : t1.registers r2 = ⟨.INTEGER, (t.BINARY_IN c2 : Int)⟩ := by
      rw [reg1, update_same]
    have run2 := op_binary_save_run K t1 (by omega) (by rw [d4]; exact hr2)
      (by rw [d5]; exact hd2)
    rw [d4, d5, hx] at run2
    simp only [if_true] at run2
    have hlow : ((t.BINARY_IN c2 : Int) % 256).toNat = t.BINARY_IN c2 := by omega
    rw [hlow] at run2
    refine ⟨t1, _, run1, run2, ?_, hx, ?_, err1⟩
    · show update t1.BINARY_OUT d2 _ d2 = _
      rw [update_same]
    · intro e he
      show update t1.BINARY_OUT d2 _ e = _
      rw [update_other _ _ _ _ he, out1]

/-- C23 at a concrete point: with r1 = Integer(-1), `BINARY_SAVE r1, 2` stores
255; `BINARY_LOAD r1, 2; BINARY_SAVE r1, 3` carries the byte 0xAB of input
channel 2 to output channel 3. -/
theorem C23_witness :
    (∃ s1, op_binary_save sample_params binary_example = .ok () s1 ∧
      (s1.BINARY_OUT 2 : Int) = 255) ∧
    (∃ t1 t2, op_binary_load sample_params binary_example = .ok () t1 ∧
      op_binary_save sample_params t1 = .ok () t2 ∧ t2.BINARY_OUT 3 = 0xAB) := by
  obtain ⟨⟨s1, r1, _, _, _, h1, _⟩, ⟨t1, t2, q1, q2, h2, _⟩⟩ :=
    C23_binary_save sample_params binary_example 1 2 binary_example 1 2 3
      (by decide) (by decide) (by decide) (by decide) (by decide)
      (by decide) (by decide) (by decide) (by decide) (by decide)
      (by decide) (by decide) (by decide)
      (by simp [clearable, binary_example, update, svm_new]) (by decide)
  exact ⟨⟨s1, r1, h1 (by decide)⟩, ⟨t1, t2, q1, q2, h2⟩⟩

/-! ## C29: INC and DEC -/

theorem wrap32_succ (n : Int) (h1 : -2147483648 ≤ n) (h2 : n < 2147483648) :
    wrap32 (n + 1) = if n = 2147483647 then -2147483648 else n + 1 := by
  unfold wrap32 of_u32 to_u32
  split <;> split <;> omega

theorem wrap32_pred (n : Int) (h1 : -2147483648 ≤ n) (h2 : n < 2147483648) :
    wrap32 (n - 1) = if n = -2147483648 then 2147483647 else n - 1 := by
  unfold wrap32 of_u32 to_u32
  split <;> split <;> omega

/-- What `op_inc` does below the wrap point on an integer register. -/
theorem op_inc_run (K : Params) (s : svm) (n : Int) (hip : s.ip + 2 ≤ 0xFFFF)
    (hr : s.code (s.ip + 1) < K.REGISTER_COUNT)
    (hx : s.registers (s.code (s.ip + 1)) = ⟨.INTEGER, n⟩) :
    op_inc K s = .ok ()
      { s with
        ip := s.ip + 2
        registers := update s.registers (s.code (s.ip + 1)) ⟨.INTEGER, wrap32 (n + 1)⟩
        jmp := if wrap32 (n + 1) = 0 then 1 else 0 } := by
  have e1 : nxt s.ip = s.ip + 1 := nxt_eq _ (by omega)
  simp only [op_inc, bind_run, next_byte_run, e1]
  rw [bounds_test_in K _ _ hr]
  simp only []
  rw [get_int_reg_in K _ _ hr]
  simp only [int_value, int_reports, hx, if_true, List.append_nil]
  rw [write_reg_content_in K _ _ _ hr]
  simp only []
  rw [read_reg_in K _ _ hr]
  simp only [update_same, hx]
  split <;> simp [set_jmp_run, ip_incr_run]

/-- What `op_dec` does below the wrap point on an integer register. -/
theorem op_dec_run (K : Params) (s : svm) (n : Int) (hip : s.ip + 2 ≤ 0xFFFF)
    (hr : s.code (s.ip + 1) < K.REGISTER_COUNT)
    (hx : s.registers (s.code (s.ip + 1)) = ⟨.INTEGER, n⟩) :
    op_dec K s = .ok ()
      { s with
        ip := s.ip + 2
        registers := update s.registers (s.code (s.ip + 1)) ⟨.INTEGER, wrap32 (n - 1)⟩
        jmp := if wrap32 (n - 1) = 0 then 1 else 0 } := by
  have e1 : nxt s.ip = s.ip + 1 := nxt_eq _ (by omega)
  simp only [op_dec, bind_run, next_byte_run, e1]
  rw [bounds_test_in K _ _ hr]
  simp only []
  rw [get_int_reg_in K _ _ hr]
  simp only [int_value, int_reports, hx, if_true, List.append_nil]
  rw [write_reg_content_in K _ _ _ hr]
  simp only []
  rw [read_reg_in K _ _ hr]
  simp only [update_same, hx]
  split <;> simp [set_jmp_run, ip_incr_run]

/-- C29: on an in-range register r holding Integer(n), n a 32-bit `int`, with
the instruction below the wrap point of the decoder: INC returns with
r = Integer(n + 1), wrapped to -2147483648 from 2147483647; DEC returns with
r = Integer(n - 1), wrapped to 2147483647 from -2147483648; in both cases Z is
1 if the new value is 0 and 0 otherwise, no other register changes and nothing
is reported. `INC r` followed by `DEC r` returns with the register file as it
was before, r = Integer(n) in particular. -/
theorem C29_inc_dec (K : Params) (s : svm) (r : Nat) (n : Int) (hip : s.ip + 4 ≤ 0xFFFF)
    (c1 : s.code (s.ip + 1) = r) (c3 : s.code (s.ip + 3) = r)
    (hr : r < K.REGISTER_COUNT) (hx : s.registers r = ⟨.INTEGER, n⟩)
    (h1 : -2147483648 ≤ n) (h2 : n < 2147483648) :
    (∃ s1, op_inc K s = .ok () s1 ∧
      s1.registers r = ⟨.INTEGER, if n = 2147483647 then -2147483648 else n + 1⟩ ∧
      s1.jmp = (if (s1.registers r).content = 0 then 1 else 0) ∧
      (∀ q, q ≠ r → s1.registers q = s.registers q) ∧ s1.errors = s.errors ∧
      ∃ s2, op_dec K s1 = .ok () s2 ∧ s2.registers r = ⟨.INTEGER, n⟩ ∧
        s2.registers = s.registers ∧ s2.errors = s.errors) ∧
    (∃ s1, op_dec K s = .ok () s1 ∧
      s1.registers r = ⟨.INTEGER, if n = -2147483648 then 2147483647 else n - 1⟩ ∧
      s1.jmp = (if (s1.registers r).content = 0 then 1 else 0) ∧
      (∀ q, q ≠ r → s1.registers q = s.registers q) ∧ s1.errors = s.errors) := by
  have hup := wrap32_succ n h1 h2
  have hdown := wrap32_pred n h1 h2
  have hback : wrap32 (wrap32 (n + 1) - 1) = n := by
    have hr1 := of_u32_range (to_u32 (n + 1))
    have e := wrap32_pred (wrap32 (n + 1)) hr1.1 hr1.2
    rw [e, hup]
    split <;> split <;> omega
  constructor
  · obtain ⟨s1, run1, ip1, code1, reg1, jmp1, err1⟩ : ∃ s1 : svm,
        op_inc K s = .ok () s1 ∧ s1.ip = s.ip + 2 ∧ s1.code = s.code ∧
        s1.registers = update s.registers r ⟨.INTEGER, wrap32 (n + 1)⟩ ∧
        s1.jmp = (if wrap32 (n + 1) = 0 then 1 else 0) ∧ s1.errors = s.errors := by
      have run := op_inc_run K s n (by omega) (by rw [c1]; exact hr) (by rw [c1]; exact hx)
      rw [c1] at run
      exact ⟨_, run, rfl, rfl, rfl, rfl, rfl⟩
    have hx1 : s1.registers r = ⟨.INTEGER, wrap32 (n + 1)⟩ := by rw [reg1, update_same]
    have d3 : s1.code (s1.ip + 1) = r := by rw [code1, ip1]; exact c3
    have run2 := op_dec_run K s1 (wrap32 (n + 1)) (by omega) (by rw [d3]; exact hr)
      (by rw [d3]; exact hx1)
    rw [d3, hback] at run2
    refine ⟨s1, run1, by rw [hx1, hup], by rw [hx1]; exact jmp1, ?_, err1, _, run2, ?_, ?_,
      err1⟩
    · intro q hq
      rw [reg1, update_other _ _ _ _ hq]
    · show update s1.registers r _ r = _
      rw [update_same]
    · show update s1.registers r _ = _
      rw [reg1, update_update]
      funext q
      by_cases hq : q = r
      · rw [hq, update_same, hx]
      · rw [update_other _ _ _ _ hq]
  · obtain ⟨s1, run1, reg1, jmp1, err1⟩ : ∃ s1 : svm,
        op_dec K s = .ok () s1 ∧
        s1.registers = update s.registers r ⟨.INTEGER, wrap32 (n - 1)⟩ ∧
        s1.jmp = (if wrap32 (n - 1) = 0 then 1 else 0) ∧ s1.errors = s.errors := by
      have run := op_dec_run K s n (by omega) (by rw [c1]; exact hr) (by rw [c1]; exact hx)
      rw [c1] at run
      exact ⟨_, run, rfl, rfl, rfl⟩
    have hx1 : s1.registers r = ⟨.INTEGER, wrap32 (n - 1)⟩ := by rw [reg1, update_same]
    refine ⟨s1, run1, by rw [hx1, hdown], by rw [hx1]; exact jmp1, ?_, err1⟩
    intro q hq
    rw [reg1, update_other _ _ _ _ hq]

/-- C29 at a concrete point: `INC r1; DEC r1` from the largest `int`. -/
theorem C29_witness :
    ∃ s1, op_inc sample_params inc_dec_example = .ok () s1 ∧
      s1.registers 1 = ⟨.INTEGER, -2147483648⟩ ∧
      ∃ s2, op_dec sample_params s1 = .ok () s2 ∧ s2.registers 1 = ⟨.INTEGER, 2147483647⟩ := by
  obtain ⟨⟨s1, r1, h1, _, _, _, s2, r2, h2, _⟩, _⟩ :=
    C29_inc_dec sample_params inc_dec_example 1 2147483647 (by decide) (by decide)
      (by decide) (by decide) (by decide) (by decide) (by decide)
  exact ⟨s1, r1, by simpa using h1, s2, r2, h2⟩

/-! ## C27: STRING_CONCAT -/

theorem zero_not_mem_c_str (buf : List Nat) : 0 ∉ c_str buf := by
  induction buf with
  | nil => simp [c_str]
  | cons b t ih =>
    rw [c_str_cons]
    split
    · simp
    · rename_i hb
      intro h
      rcases List.mem_cons.1 h with h | h
      · exact hb h.symm
      · exact ih h

theorem get_string_reg_str (K : Params) (r : Nat) (s : svm) (h : r < K.REGISTER_COUNT)
    (ht : (s.registers r).type = .STRING) :
    get_string_reg K r s = .ok (s.registers r).content s := by
  simp [get_string_reg, read_reg, h, ht]

/-- What `op_string_concat` does below the wrap point with in-range operands
whose sources own their buffers. -/
theorem op_string_concat_run (K : Params) (s : svm) (hip : s.ip + 4 ≤ 0xFFFF)
    (hd : s.code (s.ip + 1) < K.REGISTER_COUNT) (ha : s.code (s.ip + 2) < K.REGISTER_COUNT)
    (hb : s.code (s.ip + 3) < K.REGISTER_COUNT)
    (hta : (s.registers (s.code (s.ip + 2))).type = .STRING)
    (htb : (s.registers (s.code (s.ip + 3))).type = .STRING)
    (hoa : owns_buffer s (s.code (s.ip + 2))) (hob : owns_buffer s (s.code (s.ip + 3)))
    (hcl : clearable s (s.code (s.ip + 1))) :
    op_string_concat K s = .ok ()
      { s with
        ip := s.ip + 4
        heap := released s.registers
          (update s.heap s.brk (some (string_content s (s.code (s.ip + 2)) ++
            string_content s (s.code (s.ip + 3)) ++ [0])))
          (s.code (s.ip + 1))
        brk := s.brk + 1
        registers := update s.registers (s.code (s.ip + 1)) ⟨.STRING, s.brk⟩ } := by
  have e1 : nxt s.ip = s.ip + 1 := nxt_eq _ (by omega)
  have e2 : nxt (s.ip + 1) = s.ip + 2 := nxt_eq _ (by omega)
  have e3 : nxt (s.ip + 2) = s.ip + 3 := nxt_eq _ (by omega)
  simp only [op_string_concat, bind_run, next_byte_run, e1]
  rw [bounds_test_in K _ _ hd]
  simp only [next_byte_run, e2]
  rw [bounds_test_in K _ _ hd]
  simp only [next_byte_run, e3]
  rw [bounds_test_in K _ _ hd]
  simp only []
  rw [get_string_reg_str K _ { s with ip := s.ip + 3 } ha hta]
  simp only []
  rw [get_string_reg_str K _ { s with ip := s.ip + 3 } hb htb]
  simp only []
  rw [show load_string (s.registers (s.code (s.ip + 2))).content { s with ip := s.ip + 3 }
      = .ok (string_content s (s.code (s.ip + 2))) { s with ip := s.ip + 3 } from
        load_string_owned { s with ip := s.ip + 3 } _ hta hoa]
  simp only []
  rw [show load_string (s.registers (s.code (s.ip + 3))).content { s with ip := s.ip + 3 }
      = .ok (string_content s (s.code (s.ip + 3))) { s with ip := s.ip + 3 } from
        load_string_owned { s with ip := s.ip + 3 } _ htb hob]
  simp only [malloc]
  rw [clear_string_reg_run K _ _ hd (by
    intro ht hne
    show update s.heap s.brk _ _ ≠ none
    unfold update
    split
    · simp
    · exact hcl ht hne)]
  simp only []
  rw [write_reg_content_in K _ _ _ hd]
  simp only []
  rw [write_reg_type_in K _ _ _ hd]
  simp [ip_incr_run, update_same]

/-- C27 as stated fails where the instruction straddles the decoder's wrap
point: `STRING_CONCAT r2, r0, r1` at address 0xFFFC, with in-range operands and
string sources, returns with IP = 1, which is neither 0xFFFC + 4 nor that sum
modulo 0x10000. -/
theorem C27_counterexample :
    (concat_at_wrap.registers 0).type = .STRING ∧ (concat_at_wrap.registers 1).type = .STRING ∧
    concat_at_wrap.code (nxt concat_at_wrap.ip) < sample_params.REGISTER_COUNT ∧
    (op_string_concat sample_params concat_at_wrap).returned = true ∧
    (op_string_concat sample_params concat_at_wrap).state.ip = 1 ∧
    (op_string_concat sample_params concat_at_wrap).state.ip ≠ concat_at_wrap.ip + 4 ∧
    (op_string_concat sample_params concat_at_wrap).state.ip
      ≠ (concat_at_wrap.ip + 4) % 0x10000 := by
  decide

/-- C27 (amended): for STRING_CONCAT at an address p with p + 4 ≤ 0xFFFF and
operand bytes dst, a, b below REGISTER_COUNT, registers a and b tagged Str and
owning live zero-terminated buffers with strings x and y, in a well-formed
state (allocator invariant; dst not holding an already released buffer), the
handler returns with dst tagged Str, owning a live buffer whose string is
x ++ y, of length len(x) + len(y), also when dst is a or b; no other register
is modified, nothing is reported and IP = p + 4. -/
theorem C27_string_concat (K : Params) (s : svm) (dst a b : Nat) (hip : s.ip + 4 ≤ 0xFFFF)
    (c1 : s.code (s.ip + 1) = dst) (c2 : s.code (s.ip + 2) = a) (c3 : s.code (s.ip + 3) = b)
    (hd : dst < K.REGISTER_COUNT) (ha : a < K.REGISTER_COUNT) (hb : b < K.REGISTER_COUNT)
    (hta : (s.registers a).type = .STRING) (htb : (s.registers b).type = .STRING)
    (hoa : owns_buffer s a) (hob : owns_buffer s b)
    (hcl : clearable s dst) (halloc : allocator_ok s) :
    ∃ s', op_string_concat K s = .ok () s' ∧
      (s'.registers dst).type = .STRING ∧ owns_buffer s' dst ∧
      string_content s' dst = string_content s a ++ string_content s b ∧
      (string_content s' dst).length
        = (string_content s a).length + (string_content s b).length ∧
      (∀ q, q ≠ dst → s'.registers q = s.registers q) ∧
      s'.errors = s.errors ∧ s'.ip = s.ip + 4 := by
  obtain ⟨s', run, reg, heap, err, ip⟩ : ∃ s' : svm,
      op_string_concat K s = .ok () s' ∧
      s'.registers = update s.registers dst ⟨.STRING, s.brk⟩ ∧
      s'.heap = released s.registers
        (update s.heap s.brk (some (string_content s a ++ string_content s b ++ [0]))) dst ∧
      s'.errors = s.errors ∧ s'.ip = s.ip + 4 := by
    have run := op_string_concat_run K s hip (by rw [c1]; exact hd) (by rw [c2]; exact ha)
      (by rw [c3]; exact hb) (by rw [c2]; exact hta) (by rw [c3]; exact htb)
      (by rw [c2]; exact hoa) (by rw [c3]; exact hob) (by rw [c1]; exact hcl)
    rw [c1, c2, c3] at run
    exact ⟨_, run, rfl, rfl, rfl, rfl⟩
  have hx : s'.registers dst = ⟨.STRING, s.brk⟩ := by rw [reg, update_same]
  have hbrk : s.brk ≠ 0 := by have := halloc.1; omega
  have hlive : s'.heap s.brk
      = some (string_content s a ++ string_content s b ++ [0]) := by
    rw [heap]
    unfold released
    split
    · rename_i h
      have hold := live_below_brk s _ halloc (hcl h.1 h.2)
      rw [update_other _ _ _ _ (by omega), update_same]
    · rw [update_same]
  have hno : 0 ∉ string_content s a ++ string_content s b := by
    have za : 0 ∉ string_content s a := by
      unfold string_content; split
      · exact zero_not_mem_c_str _
      · simp
    have zb : 0 ∉ string_content s b := by
      unfold string_content; split
      · exact zero_not_mem_c_str _
      · simp
    intro h
    rcases List.mem_append.1 h with h | h
    · exact za h
    · exact zb h
  have hstr : string_content s' dst = string_content s a ++ string_content s b := by
    have : string_content s' dst
        = c_str (string_content s a ++ string_content s b ++ [0]) := by
      show (match s'.heap (s'.registers dst).content with
        | some buf => c_str buf | none => []) = _
      rw [hx]
      simp only [hlive]
    rw [this, c_str_append_zero, c_str_of_no_zero _ hno]
  refine ⟨s', run, by rw [hx], ?_, hstr, by rw [hstr, List.length_append], ?_, err, ip⟩
  · intro _
    rw [hx]
    exact ⟨hbrk, _, hlive, by simp⟩
  · intro q hq
    rw [reg, update_other _ _ _ _ hq]

/-- C27 at a concrete point: `STRING_CONCAT r0, r0, r1` with r0 = "A" and
r1 = "B" leaves r0 = "AB". -/
theorem C27_witness :
    ∃ s', op_string_concat sample_params concat_into_source = .ok () s' ∧
      (s'.registers 0).type = .STRING ∧ string_content s' 0 = [65, 66] := by
  obtain ⟨s', run, ht, _, hs, _⟩ :=
    C27_string_concat sample_params concat_into_source 0 0 1 (by decide) (by decide)
      (by decide) (by decide) (by decide) (by decide) (by decide) (by decide) (by decide)
      (by intro _; exact ⟨by decide, [65, 0], by decide, by decide⟩)
      (by intro _; exact ⟨by decide, [66, 0], by decide, by decide⟩)
      (by intro _ _; decide)
      ⟨by decide, by
        intro p hp
        have h3 : (3 : Int) ≤ p := hp
        show (if p = 1 then some [65, 0] else if p = 2 then some [66, 0] else none) = none
        rw [if_neg (by omega), if_neg (by omega)]⟩
  exact ⟨s', run, ht, by rw [hs]; decide⟩

/-! ## C30: result tag of mixed arithmetic -/

theorem either_float_run (K : Params) (lhs rhs : Nat) (s : svm)
    (hl : lhs < K.REGISTER_COUNT) (hr : rhs < K.REGISTER_COUNT) :
    either_float K lhs rhs s
      = .ok (decide ((s.registers lhs).type = .FLOAT ∨ (s.registers rhs).type = .FLOAT)) s := by
  simp [either_float, read_reg, hl, hr]

/-- The operand fetch of the float branch reports nothing on an Integer or
Float register. -/
theorem float_operand_run (K : Params) (r : Nat) (s : svm) (h : r < K.REGISTER_COUNT)
    (ht : (s.registers r).type ≠ .STRING) :
    float_operand K r s
      = .ok (if (s.registers r).type = .FLOAT then (s.registers r).content
             else K.i2f (s.registers r).content) s := by
  by_cases hf : (s.registers r).type = .FLOAT
  · simp [float_operand, get_float_reg, read_reg, h, hf]
  · have hi : (s.registers r).type = .INTEGER := by
      cases ht2 : (s.registers r).type
      · rfl
      · exact absurd ht2 hf
      · exact absurd ht2 ht
    simp [float_operand, get_int_reg, read_reg, h, hi]

theorem update_twice (f : Nat → reg_t) (out : Nat) (t : reg_type) (v : Int) :
    update (update f out { f out with content := v }) out
      { update f out { f out with content := v } out with type := t }
      = update f out ⟨t, v⟩ := by
  funext q
  by_cases e : q = out
  · subst e; simp [update]
  · simp [update, e]

/-- The float branch of `reg_add`, `reg_sub` and `reg_mul`. -/
theorem float_branch (K : Params) (out lhs rhs : Nat) (s : svm)
    (ho : out < K.REGISTER_COUNT) (hl : lhs < K.REGISTER_COUNT) (hr : rhs < K.REGISTER_COUNT)
    (hx : (s.registers lhs).type ≠ .STRING) (hy : (s.registers rhs).type ≠ .STRING)
    (g : Int → Int → Int) :
    ∃ v, (do let a ← float_operand K lhs
             let b ← float_operand K rhs
             write_reg_content K out (g a b)
             write_reg_type K out .FLOAT : VM Unit) s
      = .ok () { s with registers := update s.registers out ⟨.FLOAT, v⟩ } := by
  refine ⟨g (if (s.registers lhs).type = .FLOAT then (s.registers lhs).content
             else K.i2f (s.registers lhs).content)
            (if (s.registers rhs).type = .FLOAT then (s.registers rhs).content
             else K.i2f (s.registers rhs).content), ?_⟩
  simp only [bind_run, float_operand_run K lhs s hl hx, float_operand_run K rhs s hr hy]
  rw [write_reg_content_in K _ _ _ ho]
  simp only []
  rw [write_reg_type_in K _ _ _ ho]
  simp only [update_twice]

/-- The float branch of `reg_and`, `reg_or` and `reg_xor`. -/
theorem bits_branch (K : Params) (out lhs rhs : Nat) (s : svm)
    (ho : out < K.REGISTER_COUNT) (hl : lhs < K.REGISTER_COUNT) (hr : rhs < K.REGISTER_COUNT)
    (g : Int → Int → Int) :
    ∃ v, (do let l ← read_reg K lhs
             let r ← read_reg K rhs
             write_reg_content K out (g l.content r.content)
             write_reg_type K out .FLOAT : VM Unit) s
      = .ok () { s with registers := update s.registers out ⟨.FLOAT, v⟩ } := by
  refine ⟨g (s.registers lhs).content (s.registers rhs).content, ?_⟩
  simp only [bind_run, read_reg_in K lhs s hl, read_reg_in K rhs s hr]
  rw [write_reg_content_in K _ _ _ ho]
  simp only []
  rw [write_reg_type_in K _ _ _ ho]
  simp only [update_twice]

/-- With a Float among the sources, each of the six operators writes a
Float-tagged destination and reports nothing. -/
theorem operator_float (K : Params) (op : arith_opcode) (out lhs rhs : Nat) (s : svm)
    (ho : out < K.REGISTER_COUNT) (hl : lhs < K.REGISTER_COUNT) (hr : rhs < K.REGISTER_COUNT)
    (hx : (s.registers lhs).type ≠ .STRING) (hy : (s.registers rhs).type ≠ .STRING)
    (hf : (s.registers lhs).type = .FLOAT ∨ (s.registers rhs).type = .FLOAT) :
    ∃ v, op.operator K out lhs rhs s
      = .ok () { s with registers := update s.registers out ⟨.FLOAT, v⟩ } := by
  have e : either_float K lhs rhs s = .ok true s := by
    rw [either_float_run K lhs rhs s hl hr]; simp [hf]
  cases op
  · obtain ⟨v, b⟩ := float_branch K out lhs rhs s ho hl hr hx hy K.fadd
    simp only [bind_run] at b
    exact ⟨v, by simp only [arith_opcode.operator, reg_add, bind_run, e]; simpa using b⟩
  · obtain ⟨v, b⟩ := float_branch K out lhs rhs s ho hl hr hx hy K.fsub
    simp only [bind_run] at b
    exact ⟨v, by simp only [arith_opcode.operator, reg_sub, bind_run, e]; simpa using b⟩
  · obtain ⟨v, b⟩ := float_branch K out lhs rhs s ho hl hr hx hy K.fmul
    simp only [bind_run] at b
    exact ⟨v, by simp only [arith_opcode.operator, reg_mul, bind_run, e]; simpa using b⟩
  · obtain ⟨v, b⟩ := bits_branch K out lhs rhs s ho hl hr
      (fun a b => K.i2f (of_u32 (to_u32 a &&& to_u32 b)))
    simp only [bind_run] at b
    exact ⟨v, by simp only [arith_opcode.operator, reg_and, bind_run, e]; simpa using b⟩
  · obtain ⟨v, b⟩ := bits_branch K out lhs rhs s ho hl hr
      (fun a b => K.i2f (of_u32 (to_u32 a ||| to_u32 b)))
    simp only [bind_run] at b
    exact ⟨v, by simp only [arith_opcode.operator, reg_or, bind_run, e]; simpa using b⟩
  · obtain ⟨v, b⟩ := bits_branch K out lhs rhs s ho hl hr
      (fun a b => K.i2f (of_u32 (to_u32 a ^^^ to_u32 b)))
    simp only [bind_run] at b
    exact ⟨v, by simp only [arith_opcode.operator, reg_xor, bind_run, e]; simpa using b⟩

/-- Each of the six operators, on Integer or Float sources, writes a
destination tagged Float if a source is Float and Integer otherwise. -/
theorem operator_tag (K : Params) (op : arith_opcode) (out lhs rhs : Nat) (s : svm)
    (ho : out < K.REGISTER_COUNT) (hl : lhs < K.REGISTER_COUNT) (hr : rhs < K.REGISTER_COUNT)
    (hx : (s.registers lhs).type ≠ .STRING) (hy : (s.registers rhs).type ≠ .STRING) :
    ∃ v, op.operator K out lhs rhs s
      = .ok ()
          { s with
            registers := update s.registers out
              ⟨if (s.registers lhs).type = .FLOAT ∨ (s.registers rhs).type = .FLOAT
                then .FLOAT else .INTEGER, v⟩ } := by
  by_cases hf : (s.registers lhs).type = .FLOAT ∨ (s.registers rhs).type = .FLOAT
  · rw [if_pos hf]
    exact operator_float K op out lhs rhs s ho hl hr hx hy hf
  · rw [if_neg hf]
    have hi : ∀ r, (s.registers r).type ≠ .STRING → (s.registers r).type ≠ .FLOAT →
        s.registers r = ⟨.INTEGER, (s.registers r).content⟩ := by
      intro r h1 h2
      cases hh : s.registers r with
      | mk t c =>
        rw [hh] at h1 h2
        cases t
        · rfl
        · exact absurd rfl h2
        · exact absurd rfl h1
    exact ⟨_, operator_int K op out lhs rhs s _ _ ho hl hr
      (hi lhs hx (fun h => hf (Or.inl h))) (hi rhs hy (fun h => hf (Or.inr h)))⟩

/-- C30: for each of ADD, SUB, MUL, AND, OR and XOR, with the three operand
bytes below REGISTER_COUNT and each source register tagged Integer or Float
(the destination not holding an already released buffer), the handler returns
without a report and leaves the destination tagged Float if at least one
source is tagged Float, and Integer if both are tagged Integer; no other
register is modified. -/
theorem C30_result_tag (K : Params) (op : arith_opcode) (s : svm) (dst a b : Nat)
    (c1 : s.code (nxt s.ip) = dst) (c2 : s.code (nxt (nxt s.ip)) = a)
    (c3 : s.code (nxt (nxt (nxt s.ip))) = b)
    (hd : dst < K.REGISTER_COUNT) (ha : a < K.REGISTER_COUNT) (hb : b < K.REGISTER_COUNT)
    (hx : (s.registers a).type = .INTEGER ∨ (s.registers a).type = .FLOAT)
    (hy : (s.registers b).type = .INTEGER ∨ (s.registers b).type = .FLOAT)
    (hown : clearable s dst) :
    ∃ s', op.handler K s = .ok () s' ∧
      (s'.registers dst).type
        = (if (s.registers a).type = .FLOAT ∨ (s.registers b).type = .FLOAT
            then .FLOAT else .INTEGER) ∧
      ((s.registers a).type = .INTEGER → (s.registers b).type = .INTEGER →
        s'.registers dst
          = ⟨.INTEGER, op.int_result (s.registers a).content (s.registers b).content⟩) ∧
      (∀ q, q ≠ dst → s'.registers q = s.registers q) ∧ s'.errors = s.errors := by
  have hxs : (s.registers a).type ≠ .STRING := by rcases hx with h | h <;> rw [h] <;> decide
  have hys : (s.registers b).type ≠ .STRING := by rcases hy with h | h <;> rw [h] <;> decide
  obtain ⟨v, hop⟩ := operator_tag K op dst a b
    { s with ip := nxt (nxt (nxt s.ip)), heap := released s.registers s.heap dst } hd ha hb hxs hys
  obtain ⟨s', run, reg, err⟩ : ∃ s' : svm, op.handler K s = .ok () s' ∧
      s'.registers = update s.registers dst
        ⟨if (s.registers a).type = .FLOAT ∨ (s.registers b).type = .FLOAT
          then .FLOAT else .INTEGER, v⟩ ∧ s'.errors = s.errors := by
    have hh : op.handler K = math_operation K op.operator := by cases op <;> rfl
    rw [hh]
    simp only [math_operation, bind_run, next_byte_run, c1, c2, c3]
    rw [bounds_test_in K _ _ hd]; simp only []
    rw [bounds_test_in K _ _ hd]; simp only []
    rw [bounds_test_in K _ _ hd]; simp only []
    rw [clear_string_reg_run K _ _ hd (by simpa [clearable] using hown)]
    simp only []
    rw [c2, c3, hop]
    simp only []
    rw [read_reg_in K _ _ hd]
    simp only [update_same]
    split
    · exact ⟨_, rfl, rfl, rfl⟩
    · exact ⟨_, rfl, rfl, rfl⟩
  refine ⟨s', run, by rw [reg, update_same], ?_, ?_, err⟩
  · intro ia ib
    have hv := math_operation_int K op s (s.registers a).content (s.registers b).content
      (by rw [c1]; exact hd) (by rw [c2]; exact ha) (by rw [c3]; exact hb)
      (by rw [c2, ← ia]) (by rw [c3, ← ib]) (by rw [c1]; exact hown)
    rw [run] at hv
    have hs := congrArg svm.registers (Outcome.ok.inj hv).2
    rw [hs, c1]
    exact update_same _ _ _
  · intro q hq
    rw [reg, update_other _ _ _ _ hq]

/-- C30 at a concrete point: `MUL r2, r0, r1` with r0 a Float and r1 the
integer 2 leaves r2 tagged Float. -/
theorem C30_witness :
    ∃ s', arith_opcode.MUL.handler sample_params mul_float_by_int = .ok () s' ∧
      (s'.registers 2).type = .FLOAT := by
  obtain ⟨s', run, ht, _⟩ :=
    C30_result_tag sample_params .MUL mul_float_by_int 2 0 1 (by decide) (by decide)
      (by decide) (by decide) (by decide) (by decide) (by decide) (by decide)
      (by intro h; exact absurd h (by decide))
  exact ⟨s', run, by rw [ht]; decide⟩

/-! ## C31: STRING_SYSTEM under FUZZ -/

/-- What `op_string_system` does below the wrap point on an in-range register
holding a string: with FUZZ set it returns right after the operand fetch, with
IP on the operand byte; without, IP is incremented once more. -/
theorem op_string_system_run (K : Params) (H : Host) (s : svm) (hip : s.ip + 2 ≤ 0xFFFF)
    (hr : s.code (s.ip + 1) < K.REGISTER_COUNT)
    (ht : (s.registers (s.code (s.ip + 1))).type = .STRING)
    (ho : owns_buffer s (s.code (s.ip + 1))) :
    op_string_system K H s
      = .ok () { s with ip := if H.FUZZ = true then s.ip + 1 else s.ip + 2 } := by
  have e1 : nxt s.ip = s.ip + 1 := nxt_eq _ (by omega)
  simp only [op_string_system, bind_run, next_byte_run, e1]
  rw [bounds_test_in K _ _ hr]
  simp only []
  rw [get_string_reg_str K _ { s with ip := s.ip + 1 } hr ht]
  simp only []
  have hl : load_string (s.registers (s.code (s.ip + 1))).content { s with ip := s.ip + 1 }
      = .ok (string_content s (s.code (s.ip + 1))) { s with ip := s.ip + 1 } :=
    load_string_owned { s with ip := s.ip + 1 } _ ht ho
  cases hf : H.FUZZ
  · rw [if_neg (by decide), if_neg (by decide)]
    simp only [bind_run, hl, ip_incr_run]
  · rw [if_pos rfl, if_pos rfl]
    simp only [bind_run, hl, pure_run]

/-- C31 fails in the code: with FUZZ set, `STRING_SYSTEM r1` at address 0, on
an in-range register holding a string, returns without its final `ip += 1`:
IP is 1, the address of the operand byte, not 2, the address of the next
instruction, while without FUZZ the same instruction leaves IP = 2. Nothing is
reported and the byte the run loop fetches next is the register number. -/
theorem C31_fuzz_skips_ip_increment :
    system_example.ip = 0 ∧
    system_example.code (nxt system_example.ip) = 1 ∧
    1 < sample_params.REGISTER_COUNT ∧ (system_example.registers 1).type = .STRING ∧
    fuzz_host.FUZZ = true ∧ sample_host.FUZZ = false ∧
    (op_string_system sample_params fuzz_host system_example).returned = true ∧
    (op_string_system sample_params fuzz_host system_example).state.ip = 1 ∧
    (op_string_system sample_params fuzz_host system_example).state.ip
      ≠ system_example.ip + 2 ∧
    (op_string_system sample_params fuzz_host system_example).state.code
      (op_string_system sample_params fuzz_host system_example).state.ip = 1 ∧
    (op_string_system sample_params fuzz_host system_example).state.errors = [] ∧
    (op_string_system sample_params sample_host system_example).returned = true ∧
    (op_string_system sample_params sample_host system_example).state.ip = 2 := by
  decide

/-! ## C32: MEMCPY as a forward copy -/

/-- Below 0xFFFF the loop's addresses are not reduced: the copy modulo 0xFFFF
is the forward copy. -/
theorem copy_modulo_forward (src dest n i0 : Nat) (code : Nat → Nat)
    (hs : src + i0 + n ≤ 0xFFFF) (hd : dest + i0 + n ≤ 0xFFFF) :
    copy_modulo 0xFFFF src dest n i0 code = copy_forward src dest n i0 code := by
  induction n generalizing i0 code with
  | zero => rfl
  | succ n ih =>
    unfold copy_modulo copy_forward
    rw [Nat.mod_eq_of_lt (show dest + i0 < 0xFFFF by omega),
      Nat.mod_eq_of_lt (show src + i0 < 0xFFFF by omega)]
    exact ih (i0 + 1) _ (by omega) (by omega)

/-- A byte that is no destination of the forward copy keeps its value. -/
theorem copy_forward_untouched (src dest n i0 : Nat) (code : Nat → Nat) (x : Nat)
    (hx : x < dest + i0 ∨ dest + i0 + n ≤ x) :
    copy_forward src dest n i0 code x = code x := by
  induction n generalizing i0 code with
  | zero => rfl
  | succ n ih =>
    unfold copy_forward
    rw [ih (i0 + 1) _ (by omega), update_other _ _ _ _ (by omega)]

/-- When source and destination range are disjoint, each destination byte
ends up with the original source byte. -/
theorem copy_forward_disjoint (src dest n i0 : Nat) (code : Nat → Nat)
    (hdisj : src + i0 + n ≤ dest + i0 ∨ dest + i0 + n ≤ src + i0)
    (i : Nat) (h0 : i0 ≤ i) (h1 : i < i0 + n) :
    copy_forward src dest n i0 code (dest + i) = code (src + i) := by
  induction n generalizing i0 code with
  | zero => omega
  | succ n ih =>
    unfold copy_forward
    by_cases hi : i = i0
    · subst hi
      rw [copy_forward_untouched _ _ _ _ _ _ (by omega), update_same]
    · rw [ih (i0 + 1) _ (by omega) (by omega) (by omega), update_other _ _ _ _ (by omega)]

/-- What `op_memcpy` does, wherever the instruction lies, with in-range
integer operands, source and destination not negative and any size. -/
theorem op_memcpy_any_size (K : Params) (s : svm) (src dest : Nat) (size : Int)
    (hrd : s.code (nxt s.ip) < K.REGISTER_COUNT)
    (hrs : s.code (nxt (nxt s.ip)) < K.REGISTER_COUNT)
    (hrn : s.code (nxt (nxt (nxt s.ip))) < K.REGISTER_COUNT)
    (hd : s.registers (s.code (nxt s.ip)) = ⟨.INTEGER, (dest : Int)⟩)
    (hs : s.registers (s.code (nxt (nxt s.ip))) = ⟨.INTEGER, (src : Int)⟩)
    (hn : s.registers (s.code (nxt (nxt (nxt s.ip)))) = ⟨.INTEGER, size⟩)
    (hos : 0 < size → src + size.toNat ≤ 2147483648)
    (hod : 0 < size → dest + size.toNat ≤ 2147483648) :
    op_memcpy K s = .ok ()
      { s with
        ip := nxt (nxt (nxt s.ip)) + 1
        code := copy_modulo 0xFFFF src dest size.toNat 0 s.code } := by
  have hno : ¬ ((src : Int) < 0 ∨ (dest : Int) < 0) := by omega
  simp only [op_memcpy, bind_run, next_byte_run]
  rw [bounds_test_in K _ _ hrd]
  simp only [next_byte_run]
  rw [bounds_test_in K _ _ hrs]
  simp only [next_byte_run]
  rw [bounds_test_in K _ _ hrn]
  simp only []
  rw [get_int_reg_in K _ _ hrs]
  simp only [bind_run]
  rw [get_int_reg_in K _ _ hrd]
  simp only [bind_run]
  rw [get_int_reg_in K _ _ hrn]
  simp only [int_value, int_reports, hd, hs, hn, if_true, List.append_nil, hno, if_false,
    bind_run]
  by_cases hpos : 0 < size
  · have run := memcpy_loop_run src dest size.toNat 0
      { s with ip := nxt (nxt (nxt s.ip)) } (by have := hos hpos; omega)
      (by have := hod hpos; omega)
    simp only [Nat.cast_zero] at run
    rw [run]
    simp only [ip_incr_run]
  · have hz : size.toNat = 0 := by omega
    rw [hz]
    simp only [memcpy_loop, pure_run, ip_incr_run, copy_modulo]

/-- C32: for MEMCPY with in-range register operands holding the integers
dest ≥ 0, src ≥ 0 and n, with src + n ≤ 0xFFFF and dest + n ≤ 0xFFFF, the
handler returns and the code memory is the result of the assignments
`code[dest + i] := code[src + i]` for i = 0, 1, ..., n - 1 in increasing
order. Hence, when [src, src + n) and [dest, dest + n) are disjoint, every
byte at dest + i is the old byte at src + i; every byte outside
[dest, dest + n) is unchanged; and for n ≤ 0 no byte changes. In every case
the registers are unchanged and nothing is reported. -/
theorem C32_memcpy_forward (K : Params) (s : svm) (dest_reg src_reg size_reg : Nat)
    (src dest : Nat) (n : Int)
    (c1 : s.code (nxt s.ip) = dest_reg) (c2 : s.code (nxt (nxt s.ip)) = src_reg)
    (c3 : s.code (nxt (nxt (nxt s.ip))) = size_reg)
    (hrd : dest_reg < K.REGISTER_COUNT) (hrs : src_reg < K.REGISTER_COUNT)
    (hrn : size_reg < K.REGISTER_COUNT)
    (hd : s.registers dest_reg = ⟨.INTEGER, (dest : Int)⟩)
    (hs : s.registers src_reg = ⟨.INTEGER, (src : Int)⟩)
    (hn : s.registers size_reg = ⟨.INTEGER, n⟩)
    (hsn : (src : Int) + n ≤ 0xFFFF) (hdn : (dest : Int) + n ≤ 0xFFFF) :
    ∃ s', op_memcpy K s = .ok () s' ∧
      s'.code = copy_forward src dest n.toNat 0 s.code ∧
      ((src + n.toNat ≤ dest ∨ dest + n.toNat ≤ src) →
        ∀ i, i < n.toNat → s'.code (dest + i) = s.code (src + i)) ∧
      (∀ x, (x < dest ∨ dest + n.toNat ≤ x) → s'.code x = s.code x) ∧
      (n ≤ 0 → s'.code = s.code) ∧
      s'.registers = s.registers ∧ s'.errors = s.errors := by
  have hfw : copy_modulo 0xFFFF src dest n.toNat 0 s.code
      = copy_forward src dest n.toNat 0 s.code := by
    by_cases hpos : 0 < n
    · exact copy_modulo_forward _ _ _ _ _ (by omega) (by omega)
    · have hz : n.toNat = 0 := by omega
      rw [hz]
      rfl
  obtain ⟨s', run, code, reg, err⟩ : ∃ s' : svm, op_memcpy K s = .ok () s' ∧
      s'.code = copy_forward src dest n.toNat 0 s.code ∧
      s'.registers = s.registers ∧ s'.errors = s.errors := by
    have run := op_memcpy_any_size K s src dest n (by rw [c1]; exact hrd)
      (by rw [c2]; exact hrs) (by rw [c3]; exact hrn) (by rw [c1]; exact hd)
      (by rw [c2]; exact hs) (by rw [c3]; exact hn) (fun h => by omega) (fun h => by omega)
    rw [hfw] at run
    exact ⟨_, run, rfl, rfl, rfl⟩
  refine ⟨s', run, code, ?_, ?_, ?_, reg, err⟩
  · intro hdisj i hi
    rw [code]
    exact copy_forward_disjoint _ _ _ _ _ (by omega) i (Nat.zero_le _) (by omega)
  · intro x hx
    rw [code]
    exact copy_forward_untouched _ _ _ _ _ _ (by omega)
  · intro hle
    have hz : n.toNat = 0 := by omega
    rw [code, hz]
    rfl

/-- C32 at a concrete point: `MEMCPY r1, r0, r2` with r0 = 0, r1 = 0x10 and
r2 = 2 copies the bytes 11 and 22 of addresses 0 and 1 to 0x10 and 0x11. -/
theorem C32_witness :
    ∃ s', op_memcpy sample_params memcpy_round_trip = .ok () s' ∧
      s'.code 0x10 = 11 ∧ s'.code 0x11 = 22 := by
  obtain ⟨s', run, _, hcopy, _⟩ :=
    C32_memcpy_forward sample_params memcpy_round_trip 1 0 2 0 0x10 2 (by decide) (by decide)
      (by decide) (by decide) (by decide) (by decide) (by decide) (by decide) (by decide)
      (by decide) (by decide)
  have h0 := hcopy (by decide) 0 (by decide)
  have h1 := hcopy (by decide) 1 (by decide)
  exact ⟨s', run, by rw [h0]; decide, by rw [h1]; decide⟩

/-! ## C33: a value through a variable channel -/

/-- What `op_variable_save` does below the wrap point with an in-range
register and a channel inside `VARIABLE_IO`: the slot receives the struct of
the register, pointer included. -/
theorem op_variable_save_run (K : Params) (s : svm) (hip : s.ip + 3 ≤ 0xFFFF)
    (hr : s.code (s.ip + 1) < K.REGISTER_COUNT)
    (hc : s.code (s.ip + 2) < K.ANALOG_OUT_COUNT)
    (hv : s.code (s.ip + 2) < K.BINARY_IN_COUNT) :
    op_variable_save K s = .ok ()
      { s with
        ip := s.ip + 3
        VARIABLE_IO := update s.VARIABLE_IO (s.code (s.ip + 2))
          (s.registers (s.code (s.ip + 1))) } := by
  have e1 : nxt s.ip = s.ip + 1 := nxt_eq _ (by omega)
  have e2 : nxt (s.ip + 1) = s.ip + 2 := nxt_eq _ (by omega)
  simp only [op_variable_save, bind_run, next_byte_run, e1]
  rw [bounds_test_in K _ _ hr]
  simp only [next_byte_run, e2]
  rw [bound_test_in _ _ _ hc]
  simp only []
  rw [read_reg_in K _ _ hr]
  simp only [hv, if_true, bind_run, modify_state_run, ip_incr_run]

/-- What `op_variable_load` does below the wrap point with an in-range
register and a channel inside `VARIABLE_IO`: the register's own buffer is
freed, then the register receives the struct of the slot, pointer included. -/
theorem op_variable_load_run (K : Params) (s : svm) (hip : s.ip + 3 ≤ 0xFFFF)
    (hr : s.code (s.ip + 1) < K.REGISTER_COUNT)
    (hc : s.code (s.ip + 2) < K.ANALOG_IN_COUNT)
    (hv : s.code (s.ip + 2) < K.BINARY_IN_COUNT)
    (hcl : clearable s (s.code (s.ip + 1))) :
    op_variable_load K s = .ok ()
      { s with
        ip := s.ip + 3
        heap := released s.registers s.heap (s.code (s.ip + 1))
        registers := update s.registers (s.code (s.ip + 1))
          (s.VARIABLE_IO (s.code (s.ip + 2))) } := by
  have e1 : nxt s.ip = s.ip + 1 := nxt_eq _ (by omega)
  have e2 : nxt (s.ip + 1) = s.ip + 2 := nxt_eq _ (by omega)
  simp only [op_variable_load, bind_run, next_byte_run, e1]
  rw [bounds_test_in K _ _ hr]
  simp only [next_byte_run, e2]
  rw [bound_test_in _ _ _ hc]
  simp only []
  rw [clear_string_reg_run K _ _ hr (by simpa [clearable] using hcl)]
  simp only [get_state_run, hv, if_true, bind_run]
  rw [write_reg_in K _ _ _ hr]
  simp only [ip_incr_run]

/-- C33 fails in the code: the slot and the register share one buffer, because
both handlers copy the struct with its pointer instead of duplicating the
string. `VARIABLE_SAVE r0, 3; VARIABLE_LOAD r0, 3` with r0 holding "A" returns
without a report, but the load has freed the buffer of r0 before copying the
slot back: r0 is tagged Str with a pointer to a released buffer, so it does not
hold a string equal to "A" and the next read of it is undefined. With
`VARIABLE_LOAD r1, 3` instead, r0 and r1 end up pointing to the same buffer. -/
theorem C33_load_frees_saved_string :
    variable_same_register.registers 0 = ⟨.STRING, 1⟩ ∧
    variable_same_register.heap 1 = some [65, 0] ∧
    (variable_save_load sample_params variable_same_register).returned = true ∧
    (variable_save_load sample_params variable_same_register).state.errors = [] ∧
    (variable_save_load sample_params variable_same_register).state.registers 0
      = ⟨.STRING, 1⟩ ∧
    (variable_save_load sample_params variable_same_register).state.VARIABLE_IO 3
      = ⟨.STRING, 1⟩ ∧
    (variable_save_load sample_params variable_same_register).state.heap 1 = none ∧
    string_content (variable_save_load sample_params variable_same_register).state 0
      ≠ [65] ∧
    (load_string 1
      (variable_save_load sample_params variable_same_register).state).returned = false ∧
    (variable_save_load sample_params variable_two_registers).returned = true ∧
    (variable_save_load sample_params variable_two_registers).state.registers 0
      = ⟨.STRING, 1⟩ ∧
    (variable_save_load sample_params variable_two_registers).state.registers 1
      = ⟨.STRING, 1⟩ := by
  decide

/-- Away from the defect: when the register loaded into does not hold the
buffer that was saved, `VARIABLE_SAVE r, c; VARIABLE_LOAD r2, c` leaves r2 with
the tag and payload r had (for a string: the same pointer, hence the same
contents), r and every other slot as they were, and Z and the error log
unchanged. -/
theorem variable_round_trip (K : Params) (s : svm) (r r2 c : Nat) (hip : s.ip + 6 ≤ 0xFFFF)
    (c1 : s.code (s.ip + 1) = r) (c2 : s.code (s.ip + 2) = c)
    (c4 : s.code (s.ip + 4) = r2) (c5 : s.code (s.ip + 5) = c)
    (hr : r < K.REGISTER_COUNT) (hr2 : r2 < K.REGISTER_COUNT)
    (hco : c < K.ANALOG_OUT_COUNT) (hci : c < K.ANALOG_IN_COUNT) (hv : c < K.BINARY_IN_COUNT)
    (hcl : clearable s r2)
    (hfresh : (s.registers r2).type = .STRING → (s.registers r).type = .STRING →
      (s.registers r2).content ≠ (s.registers r).content) :
    ∃ s1 s2, op_variable_save K s = .ok () s1 ∧ op_variable_load K s1 = .ok () s2 ∧
      s2.registers r2 = s.registers r ∧ s2.registers r = s.registers r ∧
      ((s.registers r).type = .STRING →
        s2.heap (s2.registers r2).content = s.heap (s.registers r).content) ∧
      (∀ q, q ≠ r2 → s2.registers q = s.registers q) ∧
      (∀ e, e ≠ c → s2.VARIABLE_IO e = s.VARIABLE_IO e) ∧
      s2.jmp = s.jmp ∧ s2.errors = s.errors := by
  obtain ⟨s1, run1, ip1, code1, reg1, heap1, var1, jmp1, err1⟩ : ∃ s1 : svm,
      op_variable_save K s = .ok () s1 ∧ s1.ip = s.ip + 3 ∧ s1.code = s.code ∧
      s1.registers = s.registers ∧ s1.heap = s.heap ∧
      s1.VARIABLE_IO = update s.VARIABLE_IO c (s.registers r) ∧
      s1.jmp = s.jmp ∧ s1.errors = s.errors := by
    have run := op_variable_save_run K s (by omega) (by rw [c1]; exact hr)
      (by rw [c2]; exact hco) (by rw [c2]; exact hv)
    rw [c1, c2] at run
    exact ⟨_, run, rfl, rfl, rfl, rfl, rfl, rfl, rfl⟩
  have d4 : s1.code (s1.ip + 1) = r2 := by rw [code1, ip1]; exact c4
  have d5 : s1.code (s1.ip + 2) = c := by rw [code1, ip1]; exact c5
  obtain ⟨s2, run2, reg2, heap2, var2, jmp2, err2⟩ : ∃ s2 : svm,
      op_variable_load K s1 = .ok () s2 ∧
      s2.registers = update s.registers r2 (s.registers r) ∧
      s2.heap = released s.registers s.heap r2 ∧
      s2.VARIABLE_IO = update s.VARIABLE_IO c (s.registers r) ∧
      s2.jmp = s.jmp ∧ s2.errors = s.errors := by
    have run := op_variable_load_run K s1 (by omega) (by rw [d4]; exact hr2)
      (by rw [d5]; exact hci) (by rw [d5]; exact hv)
      (by rw [d4]; intro ht hne; rw [heap1]; rw [reg1] at ht hne ⊢; exact hcl ht hne)
    rw [d4, d5, var1, update_same, reg1, heap1] at run
    exact ⟨_, run, rfl, rfl, rfl, jmp1, err1⟩
  have hx : s2.registers r2 = s.registers r := by rw [reg2, update_same]
  refine ⟨s1, s2, run1, run2, hx, ?_, ?_, ?_, ?_, jmp2, err2⟩
  · by_cases e : r = r2
    · rw [e] at hx ⊢; exact hx
    · rw [reg2, update_other _ _ _ _ e]
  · intro ht
    rw [hx, heap2]
    unfold released
    split
    · rename_i h
      rw [update_other _ _ _ _ (Ne.symm (hfresh h.1 ht))]
    · rfl
  · intro q hq
    rw [reg2, update_other _ _ _ _ hq]
  · intro e he
    rw [var2, update_other _ _ _ _ he]

/-! ## Symbolic execution under the callback of `main.cpp` -/

@[simp] theorem exiting_bind_run {α β : Type} (x : Exiting.VM α) (f : α → Exiting.VM β)
    (s : svm) :
    (x >>= f) s = match x s with
      | .ok a s1 => f a s1
      | .undef s1 => .undef s1
      | .fatal m s1 => .fatal m s1 := rfl

@[simp] theorem exiting_pure_run {α : Type} (a : α) (s : svm) :
    (pure a : Exiting.VM α) s = .ok a s := rfl

@[simp] theorem exiting_ite_run {α : Type} (c : Prop) [Decidable c] (x y : Exiting.VM α)
    (s : svm) : (if c then x else y) s = if c then x s else y s := by
  split <;> rfl

@[simp] theorem exiting_lift_run {α : Type} (x : VM α) (s : svm) :
    Exiting.lift x s = match x s with
      | .ok a s1 => .ok a s1
      | .undef s1 => .undef s1 := rfl

@[simp] theorem exiting_sink_run (m : Msg) (s : svm) :
    Exiting.svm_default_error_handler m s = .fatal m s := rfl

theorem exiting_bounds_test_in (K : Params) (r : Nat) (s : svm) (h : r < K.REGISTER_COUNT) :
    Exiting.BOUNDS_TEST_REGISTER K r s = .ok () s := by
  have : ¬ r ≥ K.REGISTER_COUNT := by omega
  simp [Exiting.BOUNDS_TEST_REGISTER, Exiting.bound_test, this]

theorem exiting_bounds_test_out (K : Params) (r : Nat) (s : svm) (h : K.REGISTER_COUNT ≤ r) :
    Exiting.BOUNDS_TEST_REGISTER K r s = .fatal .register_out_of_bounds s := by
  have : r ≥ K.REGISTER_COUNT := h
  simp [Exiting.BOUNDS_TEST_REGISTER, Exiting.bound_test, this]

theorem exiting_get_int_reg_int (K : Params) (r : Nat) (s : svm) (x : Int)
    (h : r < K.REGISTER_COUNT) (hx : s.registers r = ⟨.INTEGER, x⟩) :
    Exiting.get_int_reg K r s = .ok x s := by
  simp [Exiting.get_int_reg, read_reg, h, hx]

theorem exiting_get_int_reg_other (K : Params) (r : Nat) (s : svm) (h : r < K.REGISTER_COUNT)
    (hx : (s.registers r).type ≠ .INTEGER) :
    Exiting.get_int_reg K r s = .fatal .not_an_integer s := by
  simp [Exiting.get_int_reg, read_reg, h, hx]

/-! ## C6: what has been modified when a handler reports -/

/-- The two instances C6 names, under the callback of `main.cpp`: DIV with
in-range operands and a first source that is not tagged Integer invokes the
sink once, with no register, flag, stack, code byte or channel modified (a
string held by the destination has been released); INT_STORE with a register
index >= REGISTER_COUNT invokes the sink once with nothing but IP modified. -/
theorem error_policy_instances (K : Params) (s : svm) (dst a : Nat)
    (hd : s.code (nxt s.ip) = dst) (ha : s.code (nxt (nxt s.ip)) = a) :
    (dst < K.REGISTER_COUNT → a < K.REGISTER_COUNT →
      (s.registers a).type ≠ .INTEGER → clearable s dst →
      Exiting.op_divide K s = .fatal .not_an_integer
        { s with
          ip := nxt (nxt (nxt s.ip))
          heap := released s.registers s.heap dst }) ∧
    (K.REGISTER_COUNT ≤ dst →
      Exiting.op_int_store K s = .fatal .register_out_of_bounds { s with ip := nxt s.ip }) := by
  constructor
  · intro hdr har hta hc
    simp only [Exiting.op_divide, exiting_bind_run, exiting_lift_run, next_byte_run, hd]
    rw [exiting_bounds_test_in K _ _ hdr]
    simp only [exiting_lift_run, next_byte_run]
    rw [exiting_bounds_test_in K _ _ hdr]
    simp only [exiting_lift_run, next_byte_run]
    rw [exiting_bounds_test_in K _ _ hdr]
    simp only [exiting_lift_run]
    rw [clear_string_reg_run K _ _ hdr (by simpa [clearable] using hc)]
    simp only [ha]
    rw [exiting_get_int_reg_other K _ _ har (by simpa using hta)]
  · intro hout
    simp only [Exiting.op_int_store, exiting_bind_run, exiting_lift_run, next_byte_run, hd]
    rw [exiting_bounds_test_out K _ _ hout]

/-- The two instances at concrete inputs: DIV on two Str-tagged sources, and
INT_STORE into register 200 of ten. -/
theorem error_policy_examples :
    Exiting.op_divide sample_params string_sources = .fatal .not_an_integer
      { string_sources with
        ip := nxt (nxt (nxt string_sources.ip))
        heap := released string_sources.registers string_sources.heap 2 } ∧
    Exiting.op_int_store sample_params store_out_of_range
      = .fatal .register_out_of_bounds
          { store_out_of_range with ip := nxt store_out_of_range.ip } :=
  ⟨(error_policy_instances sample_params string_sources 2 0 (by decide) (by decide)).1
      (by decide) (by decide) (by decide) (by intro h; exact absurd h (by decide)),
    (error_policy_instances sample_params store_out_of_range 200 2 (by decide)
      (by decide)).2 (by decide)⟩

/-- C6 fails in the code. `ADD r2, r0, r1` with r0 holding a string detects the
type mismatch in `get_int_reg`, but `reg_add` has by then written the tag
INTEGER to the destination: when the sink is invoked (once; the callback of
`main.cpp` ends the process), register 2, which was tagged Float, is tagged
Integer. `STACK_PUSH r0` with SP on the last slot
detects the overflow only after it has incremented SP and stored outside the
stack array: it runs into that store with nothing reported yet. -/
theorem C6_modified_before_report :
    add_string_to_float.code (nxt add_string_to_float.ip) = 2 ∧
    add_string_to_float.code (nxt (nxt add_string_to_float.ip)) = 0 ∧
    add_string_to_float.code (nxt (nxt (nxt add_string_to_float.ip))) = 1 ∧
    (add_string_to_float.registers 0).type = .STRING ∧
    add_string_to_float.registers 2 = ⟨.FLOAT, 0x40600000⟩ ∧
    (Exiting.op_add sample_params add_string_to_float).report = some .not_an_integer ∧
    (Exiting.op_add sample_params add_string_to_float).state.registers 2
      = ⟨.INTEGER, 0x40600000⟩ ∧
    (Exiting.op_add sample_params add_string_to_float).state.registers 2
      ≠ add_string_to_float.registers 2 ∧
    (0 ≤ full_stack.SP ∧ full_stack.SP < sample_params.STACK_SIZE) ∧
    (op_stack_push sample_params full_stack).returned = false ∧
    (op_stack_push sample_params full_stack).state.errors = [] ∧
    (op_stack_push sample_params full_stack).state.SP = full_stack.SP + 1 := by
  decide

/-! ## C21: PEEK and POKE with an address outside the code memory -/

/-- C21: for PEEK and POKE whose second operand names an in-range register
holding an Integer below 0 or above 0xFFFF, under the callback of `main.cpp`
the handler ends in the error sink, and at that point the machine is in the
state in which the handler was entered except for IP: no byte of the code
memory has been read or written at that address, the code memory, every
register and everything else are unchanged. With the first operand in range the
message is "Reading from outside RAM" for PEEK and, the value register holding
an Integer, "Writing outside RAM" for POKE. -/
theorem C21_no_access_outside_code (K : Params) (s : svm) (r a : Nat) (adr : Int)
    (c1 : s.code (nxt s.ip) = r) (c2 : s.code (nxt (nxt s.ip)) = a)
    (ha : a < K.REGISTER_COUNT) (hadr : s.registers a = ⟨.INTEGER, adr⟩)
    (hout : adr < 0 ∨ 0xFFFF < adr) :
    (∃ m p, Exiting.op_poke K s = .fatal m { s with ip := p }) ∧
    (∃ m p, Exiting.op_peek K s = .fatal m { s with ip := p }) ∧
    (r < K.REGISTER_COUNT →
      Exiting.op_peek K s = .fatal .reading_outside_ram { s with ip := nxt (nxt s.ip) } ∧
      ((s.registers r).type = .INTEGER →
        Exiting.op_poke K s
          = .fatal .writing_outside_ram { s with ip := nxt (nxt s.ip) })) := by
  have hout2 : adr < 0 ∨ adr > 0xffff := by omega
  have peek_in : r < K.REGISTER_COUNT →
      Exiting.op_peek K s = .fatal .reading_outside_ram { s with ip := nxt (nxt s.ip) } := by
    intro hr
    simp only [Exiting.op_peek, exiting_bind_run, exiting_lift_run, next_byte_run, c1]
    rw [exiting_bounds_test_in K _ _ hr]
    simp only [exiting_lift_run, next_byte_run, c2]
    rw [exiting_bounds_test_in K _ _ ha]
    simp only []
    rw [exiting_get_int_reg_int K _ _ adr ha (by simpa using hadr)]
    simp only [exiting_ite_run, hout2, if_true, exiting_sink_run]
    rfl
  have poke_in : r < K.REGISTER_COUNT →
      Exiting.op_poke K s = .fatal
        (if (s.registers r).type = .INTEGER then .writing_outside_ram else .not_an_integer)
        { s with ip := nxt (nxt s.ip) } := by
    intro hr
    simp only [Exiting.op_poke, exiting_bind_run, exiting_lift_run, next_byte_run, c1]
    rw [exiting_bounds_test_in K _ _ hr]
    simp only [exiting_lift_run, next_byte_run, c2]
    rw [exiting_bounds_test_in K _ _ ha]
    simp only []
    by_cases ht : (s.registers r).type = .INTEGER
    · rw [exiting_get_int_reg_int K _ _ (s.registers r).content hr (by
        show s.registers r = _
        cases h : s.registers r with
        | mk t c => rw [h] at ht; simp only at ht; rw [ht])]
      simp only []
      rw [exiting_get_int_reg_int K _ _ adr ha (by simpa using hadr)]
      simp only [exiting_ite_run, hout2, if_true, exiting_sink_run, ht]
      rfl
    · rw [exiting_get_int_reg_other K _ _ hr (by simpa using ht)]
      simp only [ht, if_false]
  have out : K.REGISTER_COUNT ≤ r →
      Exiting.op_poke K s = .fatal .register_out_of_bounds { s with ip := nxt s.ip } ∧
      Exiting.op_peek K s = .fatal .register_out_of_bounds { s with ip := nxt s.ip } := by
    intro hr
    constructor
    · simp only [Exiting.op_poke, exiting_bind_run, exiting_lift_run, next_byte_run, c1]
      rw [exiting_bounds_test_out K _ _ hr]
    · simp only [Exiting.op_peek, exiting_bind_run, exiting_lift_run, next_byte_run, c1]
      rw [exiting_bounds_test_out K _ _ hr]
  refine ⟨?_, ?_, ?_⟩
  · by_cases hr : r < K.REGISTER_COUNT
    · exact ⟨_, _, poke_in hr⟩
    · exact ⟨_, _, (out (by omega)).1⟩
  · by_cases hr : r < K.REGISTER_COUNT
    · exact ⟨_, _, peek_in hr⟩
    · exact ⟨_, _, (out (by omega)).2⟩
  · intro hr
    refine ⟨peek_in hr, fun ht => ?_⟩
    have h := poke_in hr
    rw [if_pos ht] at h
    exact h

/-- C21 at a concrete point: `POKE r1, r2` and `PEEK r1, r2` with
r2 = Integer(0x10000) end in the sink with the machine as it was entered, IP on
the second operand byte. -/
theorem C21_witness :
    Exiting.op_peek sample_params address_outside
      = .fatal .reading_outside_ram { address_outside with ip := 2 } ∧
    Exiting.op_poke sample_params address_outside
      = .fatal .writing_outside_ram { address_outside with ip := 2 } :=
  ⟨((C21_no_access_outside_code sample_params address_outside 1 2 0x10000 (by decide)
      (by decide) (by decide) (by decide) (by decide)).2.2 (by decide)).1,
    ((C21_no_access_outside_code sample_params address_outside 1 2 0x10000 (by decide)
      (by decide) (by decide) (by decide) (by decide)).2.2 (by decide)).2 (by decide)⟩

/-! ## C10: a string with a zero byte through the data stack -/

theorem jump_to_self_turn :
    svm_step sample_params sample_host sample_opcodes jump_to_self = .ok () jump_to_self := rfl

/-- After any number of turns of the run loop, the program `JUMP_TO 0x0000` is
in its initial state again, still being dispatched. -/
theorem jump_to_self_loops (fuel : Nat) :
    svm_run sample_params sample_host sample_opcodes fuel jump_to_self
      = .unfinished jump_to_self := by
  induction fuel with
  | zero => rfl
  | succ fuel ih =>
    unfold svm_run
    have hr : jump_to_self.running = true := rfl
    rw [if_pos hr, jump_to_self_turn]
    exact ih

/-- C26 as stated fails: the program `JUMP_TO 0x0000`, entered running with
nothing reported, is a fixed point of one turn of the run loop, so the loop
dispatches its jump for ever: after no number of turns has the run reached an
EXIT or an invocation of the error sink. -/
theorem C26_counterexample :
    jump_to_self.running = true ∧ jump_to_self.errors = [] ∧
    opcode_init sample_opcodes (jump_to_self.code jump_to_self.ip) = some .op_jump_to ∧
    svm_step sample_params sample_host sample_opcodes jump_to_self = .ok () jump_to_self ∧
    ¬ ∃ fuel, (∃ s1, svm_run sample_params sample_host sample_opcodes fuel jump_to_self
        = .exited s1) ∨
      (∃ s0 m, svm_run sample_params sample_host sample_opcodes fuel jump_to_self
        = .fatal s0 m) := by
  refine ⟨rfl, rfl, by decide, jump_to_self_turn, ?_⟩
  rintro ⟨fuel, h | h⟩
  · obtain ⟨s1, h⟩ := h
    rw [jump_to_self_loops fuel] at h
    cases h
  · obtain ⟨s0, m, h⟩ := h
    rw [jump_to_self_loops fuel] at h
    cases h

theorem svm_run_stopped (K : Params) (H : Host) (O : Opcodes) (fuel : Nat) (s : svm)
    (h : s.running = false) : svm_run K H O fuel s = .exited s := by
  cases fuel with
  | zero =>
    unfold svm_run
    rw [if_neg (by rw [h]; decide)]
  | succ fuel =>
    unfold svm_run
    rw [if_neg (by rw [h]; decide)]

/-- The spec's scenario "Division by zero" on the run loop: the two stores are
dispatched, DIV invokes the error sink with the divide-by-zero message, and the
run ends there, the trailing EXIT not being dispatched. -/
theorem division_scenario_ends_in_sink :
    (svm_run sample_params sample_host sample_opcodes 2 division_scenario).message = none ∧
    (svm_run sample_params sample_host sample_opcodes 3 division_scenario).message
      = some .division_by_zero ∧
    (svm_run sample_params sample_host sample_opcodes 4 division_scenario).message
      = some .division_by_zero := by
  decide!

/-- C26 (amended): the run need not end; however many turns the run loop has
taken from a running state, the run stands in one of four ways. It has been
left with the running flag clear, and then the last handler dispatched was
EXIT, fetched at an address in [0, 0xFFFF] in a running state; or the handler
dispatched last has invoked the error sink, which has ended the run; or that
handler has run into behaviour that C leaves undefined; or the loop is still
dispatching, the machine running. -/
theorem C26_run_endings (K : Params) (H : Host) (O : Opcodes) (fuel : Nat) (s : svm)
    (h0 : s.running = true) :
    match svm_run K H O fuel s with
    | .exited s1 => s1.running = false ∧
        ∃ s0, s0.running = true ∧ s0.ip ≤ 0xFFFF ∧
          opcode_init O (s0.code s0.ip) = some .op_exit ∧ op_exit s0 = .ok () s1
    | .fatal s0 m => s0.running = true ∧
        first_report s0.errors (svm_step K H O s0).state.errors = some m
    | .undefined s0 => s0.running = true ∧ (svm_step K H O s0).returned = false ∧
        first_report s0.errors (svm_step K H O s0).state.errors = none
    | .unfinished s1 => s1.running = true := by
  induction fuel generalizing s with
  | zero =>
    unfold svm_run
    rw [if_pos h0]
    exact h0
  | succ fuel ih =>
    unfold svm_run
    rw [if_pos h0]
    cases hfr : first_report s.errors (svm_step K H O s).state.errors with
    | some m => exact ⟨h0, hfr⟩
    | none =>
      cases hstep : svm_step K H O s with
      | undef s2 =>
        refine ⟨h0, ?_, hfr⟩
        rw [hstep]
        rfl
      | ok u s2 =>
        show match svm_run K H O fuel s2 with
          | .exited s1 => s1.running = false ∧
              ∃ s0, s0.running = true ∧ s0.ip ≤ 0xFFFF ∧
                opcode_init O (s0.code s0.ip) = some .op_exit ∧ op_exit s0 = .ok () s1
          | .fatal s0 m => s0.running = true ∧
              first_report s0.errors (svm_step K H O s0).state.errors = some m
          | .undefined s0 => s0.running = true ∧ (svm_step K H O s0).returned = false ∧
              first_report s0.errors (svm_step K H O s0).state.errors = none
          | .unfinished s1 => s1.running = true
        by_cases hr2 : s2.running = true
        · exact ih s2 hr2
        · have hr2f : s2.running = false := by
            cases hb : s2.running with
            | true => exact absurd hb hr2
            | false => rfl
          rw [svm_run_stopped K H O fuel s2 hr2f]
          refine ⟨hr2f, ?_⟩
          unfold svm_step at hstep
          split at hstep
          · rename_i hip
            split at hstep
            · rename_i h heq
              have hk := (handler_kept K H h s s2 hstep).2.2.2.2
              have hex : h = .op_exit := by
                by_contra hne
                rw [hk hne, h0] at hr2f
                cases hr2f
              subst hex
              exact ⟨s, h0, hip, heq, hstep⟩
            · cases hstep
          · cases hstep

/-- C26 (amended) at a concrete point: the program `EXIT` is left in its first
turn, with the running flag clear, EXIT having been dispatched at address 0. -/
theorem C26_witness :
    (op_exit exit_at_once).state.running = false ∧
      ∃ s0, s0.running = true ∧ s0.ip ≤ 0xFFFF ∧
        opcode_init sample_opcodes (s0.code s0.ip) = some .op_exit ∧
        op_exit s0 = .ok () (op_exit exit_at_once).state :=
  C26_run_endings sample_params sample_host sample_opcodes 1 exit_at_once rfl

end SVM
